import Mathlib

/-!
# PlayingCards: a verification development of the game-state engine

Shallow embedding of the card types (`configs/CardTypes.h`), the matching rule
(`utils/CardUtils.h`), the card / game / undo models (`models/*.cpp`), the
level descriptor (`configs/LevelConfig.cpp`), the occlusion resolver and the
model generator (`services/GameModelGenerator.cpp`), the undo manager
(`managers/UndoManager.cpp`) and the click handlers of the controller
(`controllers/GameController.cpp`).

Modelling conventions.
* `cocos2d::Vec2` coordinates are the finite integer-valued `float` values
  (design-resolution units).  The sums and differences that the source computes
  in `float` are rounded to the nearest binary32 value, ties to even
  (`roundToFloat`); comparisons are exact.  The card half extents
  `kCardWidth / 2 = 75` and `kCardHeight / 2 = 105` are exact.
* The next-id counter is a C++ `int`; the embedding is exact while the counter
  stays below `INT_MAX = 2147483647` (the increment at `INT_MAX` overflows).
* `std::vector` is `List`, `push_back` appends at the end, `back` is the last
  element.
* The view layer is an external collaborator.  What the model depends on is
  whether an animation completion callback is never run, run inside the call,
  or run later by the engine; this is the `ViewMode` argument of the handlers.
* The controller is the one left by a successful `GameController::init`: the
  undo manager is bound to the controller's game model and its undo-execute
  callback is `onUndoExecuted`.
-/

namespace PlayingCards

/-! ## configs/CardTypes.h -/

/-- The enumerators of `enum class CardSuitType`. -/
inductive CardSuitType where
  | NONE | CLUBS | DIAMONDS | HEARTS | SPADES | COUNT
  deriving DecidableEq

/-- The enumerators of `enum class CardFaceType`. -/
inductive CardFaceType where
  | NONE | ACE | TWO | THREE | FOUR | FIVE | SIX | SEVEN | EIGHT | NINE | TEN
  | JACK | QUEEN | KING | COUNT
  deriving DecidableEq

/-- The integer value of a face enumerator (`static_cast<int>`). -/
def CardFaceType.toInt : CardFaceType → Int
  | .NONE => -1
  | .ACE => 0
  | .TWO => 1
  | .THREE => 2
  | .FOUR => 3
  | .FIVE => 4
  | .SIX => 5
  | .SEVEN => 6
  | .EIGHT => 7
  | .NINE => 8
  | .TEN => 9
  | .JACK => 10
  | .QUEEN => 11
  | .KING => 12
  | .COUNT => 13

/-- A value of `enum class CardOperationType`.  A scoped enumeration holds any
value of its underlying type `int`, named by an enumerator or not
(`UndoModel::deserialize` casts the integer it reads without a check). -/
structure CardOperationType where
  value : Int
  deriving DecidableEq

/-- The enumerator `NONE = 0`. -/
def CardOperationType.NONE : CardOperationType := { value := 0 }

/-- The enumerator `PLAYFIELD_TO_STACK` (value 1). -/
def CardOperationType.PLAYFIELD_TO_STACK : CardOperationType := { value := 1 }

/-- The enumerator `RESERVE_TO_STACK` (value 2). -/
def CardOperationType.RESERVE_TO_STACK : CardOperationType := { value := 2 }

/-- The enumerators of `enum class CardAreaType`. -/
inductive CardAreaType where
  | NONE | PLAYFIELD | STACK | RESERVE
  deriving DecidableEq

/-- Half of `GameConstants::kCardWidth` (150). -/
def kHalfCardWidth : Int := 75

/-- Half of `GameConstants::kCardHeight` (210). -/
def kHalfCardHeight : Int := 105

/-! ## utils/CardUtils.h -/

/-- Embeds `CardUtils::canMatch`. -/
def canMatch (face1 face2 : CardFaceType) : Bool :=
  if face1 = CardFaceType.NONE ∨ face2 = CardFaceType.NONE then false
  else
    let value1 := face1.toInt
    let value2 := face2.toInt
    let diff := (value1 - value2).natAbs
    if diff = 1 then true
    else if (face1 = CardFaceType.ACE ∧ face2 = CardFaceType.KING) ∨
        (face1 = CardFaceType.KING ∧ face2 = CardFaceType.ACE) then true
    else false

/-! ## models/CardModel.h, models/CardModel.cpp -/

/-- A `cocos2d::Vec2` whose coordinates are finite integer-valued `float`s. -/
structure Vec2 where
  x : Int
  y : Int
  deriving DecidableEq

/-- Embeds `Vec2::ZERO`. -/
def Vec2.ZERO : Vec2 := { x := 0, y := 0 }

/-- The data members of `class CardModel`. -/
structure CardModel where
  cardId : Int
  suit : CardSuitType
  face : CardFaceType
  position : Vec2
  area : CardAreaType
  isFaceUp : Bool
  isClickable : Bool
  deriving DecidableEq

/-- The default constructor `CardModel::CardModel()`: the empty sentinel card. -/
def CardModel.empty : CardModel :=
  { cardId := -1, suit := CardSuitType.NONE, face := CardFaceType.NONE,
    position := Vec2.ZERO, area := CardAreaType.NONE, isFaceUp := false,
    isClickable := false }

/-- The constructor `CardModel::CardModel(cardId, suit, face)`. -/
def CardModel.create (cardId : Int) (suit : CardSuitType) (face : CardFaceType) : CardModel :=
  { cardId := cardId, suit := suit, face := face, position := Vec2.ZERO,
    area := CardAreaType.NONE, isFaceUp := false, isClickable := false }

/-- Embeds `CardModel::setPosition`. -/
def CardModel.setPosition (c : CardModel) (position : Vec2) : CardModel :=
  { c with position := position }

/-- Embeds `CardModel::setArea`. -/
def CardModel.setArea (c : CardModel) (area : CardAreaType) : CardModel :=
  { c with area := area }

/-- Embeds `CardModel::setFaceUp`. -/
def CardModel.setFaceUp (c : CardModel) (faceUp : Bool) : CardModel :=
  { c with isFaceUp := faceUp }

/-- Embeds `CardModel::setClickable`. -/
def CardModel.setClickable (c : CardModel) (clickable : Bool) : CardModel :=
  { c with isClickable := clickable }

/-- Embeds `CardModel::canMatchWith`. -/
def CardModel.canMatchWith (c other : CardModel) : Bool :=
  canMatch c.face other.face

/-! ## models/GameModel.h, models/GameModel.cpp -/

/-- The data members of `class GameModel`. -/
structure GameModel where
  playfieldCards : List CardModel
  stackTopCard : CardModel
  reserveCards : List CardModel
  nextCardId : Int
  deriving DecidableEq

/-- Embeds `GameModel::addPlayfieldCard`. -/
def GameModel.addPlayfieldCard (g : GameModel) (card : CardModel) : GameModel :=
  { g with playfieldCards := g.playfieldCards ++ [card] }

/-- Embeds `GameModel::removePlayfieldCard`: erases the first card carrying the id and
reports whether one was found. -/
def GameModel.removePlayfieldCard (g : GameModel) (cardId : Int) : Bool × GameModel :=
  if g.playfieldCards.any (fun card => card.cardId == cardId) then
    (true, { g with playfieldCards := g.playfieldCards.eraseP (fun card => card.cardId == cardId) })
  else
    (false, g)

/-- Embeds `GameModel::getPlayfieldCardById`: the first card carrying the id, `none`
for the null pointer. -/
def GameModel.getPlayfieldCardById (g : GameModel) (cardId : Int) : Option CardModel :=
  g.playfieldCards.find? (fun card => card.cardId == cardId)

/-- Embeds `GameModel::setStackTopCard`. -/
def GameModel.setStackTopCard (g : GameModel) (card : CardModel) : GameModel :=
  { g with stackTopCard := card.setArea CardAreaType.STACK }

/-- Embeds `GameModel::hasStackTopCard`. -/
def GameModel.hasStackTopCard (g : GameModel) : Bool :=
  decide (g.stackTopCard.cardId ≥ 0)

/-- Embeds `GameModel::addReserveCard`. -/
def GameModel.addReserveCard (g : GameModel) (card : CardModel) : GameModel :=
  { g with reserveCards := g.reserveCards ++ [card] }

/-- Embeds `GameModel::isReserveEmpty`. -/
def GameModel.isReserveEmpty (g : GameModel) : Bool :=
  g.reserveCards.isEmpty

/-- Embeds `GameModel::drawReserveCard`: `none` stands for the `false` return (nothing
is written to the out parameter), `some (outCard, model)` for `true`. -/
def GameModel.drawReserveCard (g : GameModel) : Option (CardModel × GameModel) :=
  match g.reserveCards.getLast? with
  | none => none
  | some outCard => some (outCard, { g with reserveCards := g.reserveCards.dropLast })

/-- Embeds `GameModel::pushReserveCard`. -/
def GameModel.pushReserveCard (g : GameModel) (card : CardModel) : GameModel :=
  { g with reserveCards := g.reserveCards ++ [card] }

/-! ## `float` arithmetic on integer-valued numbers

The source adds and subtracts in binary32.  The exact sum of two integer-valued
floats is an integer, and so is its rounding, because every binary32 value of
magnitude at least 2^23 is an integer. -/

/-- The exponent of the unit in the last place of the binary32 values around
`a`: the number of halvings that bring `a` below 2^24, the size of the
significand.  The first argument bounds the number of halvings. -/
def ulpExponent : Nat → Nat → Nat
  | 0, _ => 0
  | fuel + 1, a => if a < 16777216 then 0 else ulpExponent fuel (a / 2) + 1

/-- Rounds `a` to the nearest multiple of `ulp`, a tie to the even multiple. -/
def roundToUlp (ulp a : Nat) : Nat :=
  let q := a / ulp
  let r := a % ulp
  if 2 * r < ulp then q * ulp
  else if ulp < 2 * r then (q + 1) * ulp
  else if q % 2 = 0 then q * ulp
  else (q + 1) * ulp

/-- The binary32 value nearest to the natural number `a`, ties to even. -/
def roundNat (a : Nat) : Nat :=
  roundToUlp (2 ^ ulpExponent a a) a

/-- The binary32 value nearest to the integer `n`, ties to even: the default
IEEE 754 rounding of a `float` operation whose exact result is `n`. -/
def roundToFloat (n : Int) : Int :=
  if 0 ≤ n then (roundNat n.toNat : Int) else -(roundNat (-n).toNat : Int)

/-- The `float` sum `a + b`. -/
def floatAdd (a b : Int) : Int := roundToFloat (a + b)

/-- The `float` difference `a - b`. -/
def floatSub (a b : Int) : Int := roundToFloat (a - b)

/-! ## services/GameModelGenerator.cpp: the occlusion resolver -/

/-- Embeds `GameModelGenerator::isCardOverlapping`. -/
def isCardOverlapping (card1 card2 : CardModel) : Bool :=
  let pos1 := card1.position
  let pos2 := card2.position
  let left1 := floatSub pos1.x kHalfCardWidth
  let right1 := floatAdd pos1.x kHalfCardWidth
  let bottom1 := floatSub pos1.y kHalfCardHeight
  let top1 := floatAdd pos1.y kHalfCardHeight
  let left2 := floatSub pos2.x kHalfCardWidth
  let right2 := floatAdd pos2.x kHalfCardWidth
  let bottom2 := floatSub pos2.y kHalfCardHeight
  let top2 := floatAdd pos2.y kHalfCardHeight
  let overlapX := decide (left1 < right2) && decide (right1 > left2)
  let overlapY := decide (bottom1 < top2) && decide (top1 > bottom2)
  overlapX && overlapY

/-- The inner loop of `updatePlayfieldClickable`: scans `others` from the front
and yields the final value of `isBlocked` for `card`. -/
def isBlockedLoop (card : CardModel) : List CardModel → Bool
  | [] => false
  | otherCard :: rest =>
    if card.cardId = otherCard.cardId then isBlockedLoop card rest
    else if otherCard.position.y < card.position.y then
      if isCardOverlapping card otherCard then true
      else isBlockedLoop card rest
    else isBlockedLoop card rest

/-- The outer loop of `updatePlayfieldClickable`, run in place over the vector:
`done` holds the cards already visited (with their new flag), the second
argument the cards still to visit.  Each inner scan reads the whole vector in
its current state. -/
def updateClickableLoop (done : List CardModel) : List CardModel → List CardModel
  | [] => done
  | card :: rest =>
    let isBlocked := isBlockedLoop card (done ++ card :: rest)
    updateClickableLoop (done ++ [card.setClickable (!isBlocked)]) rest

/-- Embeds `GameModelGenerator::updatePlayfieldClickable`. -/
def updatePlayfieldClickable (gameModel : GameModel) : GameModel :=
  { gameModel with playfieldCards := updateClickableLoop [] gameModel.playfieldCards }

/-! ## models/UndoModel.h, models/UndoModel.cpp -/

/-- The data members of `class UndoModel`. -/
structure UndoModel where
  operationType : CardOperationType
  movedCard : CardModel
  previousStackTopCard : CardModel
  originalPosition : Vec2
  targetPosition : Vec2
  deriving DecidableEq

/-- The constructor `UndoModel::UndoModel(operationType)`. -/
def UndoModel.create (operationType : CardOperationType) : UndoModel :=
  { operationType := operationType, movedCard := CardModel.empty,
    previousStackTopCard := CardModel.empty, originalPosition := Vec2.ZERO,
    targetPosition := Vec2.ZERO }

/-- Embeds `UndoModel::isValid`. -/
def UndoModel.isValid (u : UndoModel) : Bool :=
  if u.operationType = CardOperationType.NONE then false
  else if u.movedCard.cardId < 0 then false
  else true

/-! ## managers/UndoManager.cpp -/

/-- The undo stack of `class UndoManager`; its game model pointer is the
controller's model, bound by `GameController::init`. -/
structure UndoManager where
  undoStack : List UndoModel
  deriving DecidableEq

/-- Embeds `UndoManager::recordAction`. -/
def UndoManager.recordAction (m : UndoManager) (undoModel : UndoModel) : UndoManager :=
  if undoModel.isValid then { m with undoStack := m.undoStack ++ [undoModel] } else m

/-- Embeds `UndoManager::recordPlayfieldToStack`. -/
def UndoManager.recordPlayfieldToStack (m : UndoManager) (movedCard previousTopCard : CardModel)
    (originalPos targetPos : Vec2) : UndoManager :=
  m.recordAction
    { UndoModel.create CardOperationType.PLAYFIELD_TO_STACK with
      movedCard := movedCard, previousStackTopCard := previousTopCard,
      originalPosition := originalPos, targetPosition := targetPos }

/-- Embeds `UndoManager::recordReserveToStack`. -/
def UndoManager.recordReserveToStack (m : UndoManager) (drawnCard previousTopCard : CardModel) :
    UndoManager :=
  m.recordAction
    { UndoModel.create CardOperationType.RESERVE_TO_STACK with
      movedCard := drawnCard, previousStackTopCard := previousTopCard }

/-- Embeds `UndoManager::canUndo`. -/
def UndoManager.canUndo (m : UndoManager) : Bool :=
  !m.undoStack.isEmpty

/-! ## controllers/GameController.cpp -/

/-- What the view that animates an operation does with the animation completion
callback (the play-field view for a match, the stack view for a draw and for an
undo).  `detached`: that view is absent, the `else` branch runs.
`callbackNow`: the view has no card view to animate and invokes the callback
inside the call.  `callbackLater`: the view starts the animation and the engine
invokes the callback after the call has returned. -/
inductive ViewMode where
  | detached | callbackNow | callbackLater
  deriving DecidableEq

/-- The data members of `class GameController` that the model depends on. -/
structure GameController where
  gameModel : GameModel
  undoManager : UndoManager
  isAnimating : Bool
  deriving DecidableEq

/-- The completion callback passed to `playMoveAnimation` by
`executePlayfieldToStack`. -/
def GameController.onPlayfieldToStackMoved (s : GameController) : GameController :=
  { s with gameModel := updatePlayfieldClickable s.gameModel, isAnimating := false }

/-- The completion callback passed to `playDrawAnimation` by `executeReserveDraw`. -/
def GameController.onReserveDrawn (s : GameController) : GameController :=
  { s with isAnimating := false }

/-- Embeds `GameController::executePlayfieldToStack`.  `viewTargetPos` is the value
that the view queries leave in `targetPos`: `Vec2::ZERO` when there is no stack
view, otherwise the position of the stack's top card, converted to the node
space of the play-field view when there is one.  `view` is the behaviour of the
play-field view, which animates the move. -/
def GameController.executePlayfieldToStack (view : ViewMode) (viewTargetPos : Vec2)
    (cardId : Int) (s : GameController) : GameController :=
  let s := { s with isAnimating := true }
  match s.gameModel.getPlayfieldCardById cardId with
  | none => { s with isAnimating := false }
  | some clickedCard =>
    let movedCard := clickedCard
    let previousTopCard := s.gameModel.stackTopCard
    let originalPos := movedCard.position
    let targetPos := viewTargetPos
    let undoManager :=
      s.undoManager.recordPlayfieldToStack movedCard previousTopCard originalPos targetPos
    let gameModel := (s.gameModel.removePlayfieldCard cardId).2
    let movedCard := movedCard.setArea CardAreaType.STACK
    let gameModel := gameModel.setStackTopCard movedCard
    let s := { s with gameModel := gameModel, undoManager := undoManager }
    match view with
    | ViewMode.detached => { s with isAnimating := false }
    | ViewMode.callbackNow => s.onPlayfieldToStackMoved
    | ViewMode.callbackLater => s

/-- Embeds `GameController::handlePlayfieldCardClick`. -/
def GameController.handlePlayfieldCardClick (view : ViewMode) (viewTargetPos : Vec2)
    (cardId : Int) (s : GameController) : Bool × GameController :=
  if s.isAnimating then (false, s)
  else
    match s.gameModel.getPlayfieldCardById cardId with
    | none => (false, s)
    | some clickedCard =>
      if !clickedCard.isClickable then (false, s)
      else
        let topCard := s.gameModel.stackTopCard
        if !clickedCard.canMatchWith topCard then (false, s)
        else (true, s.executePlayfieldToStack view viewTargetPos cardId)

/-- Embeds `GameController::executeReserveDraw`. -/
def GameController.executeReserveDraw (view : ViewMode) (s : GameController) : GameController :=
  let s := { s with isAnimating := true }
  let previousTopCard := s.gameModel.stackTopCard
  match s.gameModel.drawReserveCard with
  | none => { s with isAnimating := false }
  | some (drawnCard, gameModel) =>
    let undoManager := s.undoManager.recordReserveToStack drawnCard previousTopCard
    let drawnCard := drawnCard.setArea CardAreaType.STACK
    let drawnCard := drawnCard.setFaceUp true
    let gameModel := gameModel.setStackTopCard drawnCard
    let s := { s with gameModel := gameModel, undoManager := undoManager }
    match view with
    | ViewMode.detached => { s with isAnimating := false }
    | ViewMode.callbackNow => s.onReserveDrawn
    | ViewMode.callbackLater => s

/-- Embeds `GameController::handleReserveClick`. -/
def GameController.handleReserveClick (view : ViewMode) (s : GameController) :
    Bool × GameController :=
  if s.isAnimating then (false, s)
  else if s.gameModel.isReserveEmpty then (false, s)
  else (true, s.executeReserveDraw view)

/-! ## managers/UndoManager.cpp: undo -/

/-- Embeds `UndoManager::undoPlayfieldToStack` on the bound game model. -/
def UndoManager.undoPlayfieldToStack (gameModel : GameModel) (undoModel : UndoModel) :
    GameModel :=
  let movedCard := undoModel.movedCard
  let previousTopCard := undoModel.previousStackTopCard
  let cardToRestore := movedCard
  let cardToRestore := cardToRestore.setArea CardAreaType.PLAYFIELD
  let cardToRestore := cardToRestore.setPosition undoModel.originalPosition
  let cardToRestore := cardToRestore.setFaceUp true
  let cardToRestore := cardToRestore.setClickable true
  let gameModel := gameModel.addPlayfieldCard cardToRestore
  gameModel.setStackTopCard previousTopCard

/-- Embeds `UndoManager::undoReserveToStack` on the bound game model. -/
def UndoManager.undoReserveToStack (gameModel : GameModel) (undoModel : UndoModel) :
    GameModel :=
  let drawnCard := undoModel.movedCard
  let previousTopCard := undoModel.previousStackTopCard
  let cardToRestore := drawnCard
  let cardToRestore := cardToRestore.setArea CardAreaType.RESERVE
  let cardToRestore := cardToRestore.setFaceUp false
  let cardToRestore := cardToRestore.setClickable false
  let gameModel := gameModel.pushReserveCard cardToRestore
  gameModel.setStackTopCard previousTopCard

/-- Embeds `UndoManager::undo`.  The result is the returned flag, the manager, the
bound game model, and the record handed to the undo-execute callback (`none`
when the callback is not reached). -/
def UndoManager.undo (m : UndoManager) (gameModel : GameModel) :
    Bool × UndoManager × GameModel × Option UndoModel :=
  if !m.canUndo then (false, m, gameModel, none)
  else
    match m.undoStack.getLast? with
    | none => (false, m, gameModel, none)
    | some undoModel =>
      let m := { m with undoStack := m.undoStack.dropLast }
      if undoModel.operationType = CardOperationType.PLAYFIELD_TO_STACK then
        (true, m, UndoManager.undoPlayfieldToStack gameModel undoModel, some undoModel)
      else if undoModel.operationType = CardOperationType.RESERVE_TO_STACK then
        (true, m, UndoManager.undoReserveToStack gameModel undoModel, some undoModel)
      else (false, m, gameModel, none)

/-! ## controllers/GameController.cpp: undo -/

/-- The completion callback passed to `playUndoToPlayfieldAnimation` by
`onUndoExecuted`. -/
def GameController.onUndoToPlayfieldMoved (s : GameController) : GameController :=
  { s with gameModel := updatePlayfieldClickable s.gameModel, isAnimating := false }

/-- The completion callback passed to `playUndoToReserveAnimation` by
`onUndoExecuted`. -/
def GameController.onUndoToReserveMoved (s : GameController) : GameController :=
  { s with isAnimating := false }

/-- Embeds `GameController::onUndoExecuted`, the undo-execute callback installed by
`GameController::init`. -/
def GameController.onUndoExecuted (view : ViewMode) (undoModel : UndoModel)
    (s : GameController) : GameController :=
  if undoModel.operationType = CardOperationType.PLAYFIELD_TO_STACK then
    match view with
    | ViewMode.detached => { s with isAnimating := false }
    | ViewMode.callbackNow => s.onUndoToPlayfieldMoved
    | ViewMode.callbackLater => s
  else if undoModel.operationType = CardOperationType.RESERVE_TO_STACK then
    match view with
    | ViewMode.detached => { s with isAnimating := false }
    | ViewMode.callbackNow => s.onUndoToReserveMoved
    | ViewMode.callbackLater => s
  else { s with isAnimating := false }

/-- Embeds `GameController::handleUndoClick`. -/
def GameController.handleUndoClick (view : ViewMode) (s : GameController) :
    Bool × GameController :=
  if s.isAnimating then (false, s)
  else if !s.undoManager.canUndo then (false, s)
  else
    let s := { s with isAnimating := true }
    let r := s.undoManager.undo s.gameModel
    let success := r.1
    let s := { s with undoManager := r.2.1, gameModel := r.2.2.1 }
    let s :=
      match r.2.2.2 with
      | some undoModel => s.onUndoExecuted view undoModel
      | none => s
    let s := if !success then { s with isAnimating := false } else s
    (success, s)

/-! ## Completed operations

A handler call followed, when the view defers it, by the completion callback
that the engine invokes once the animation has ended. -/

/-- One completed match: `handlePlayfieldCardClick` and its deferred callback. -/
def GameController.attemptMatch (view : ViewMode) (viewTargetPos : Vec2) (cardId : Int)
    (s : GameController) : Bool × GameController :=
  let r := s.handlePlayfieldCardClick view viewTargetPos cardId
  if r.1 = true ∧ view = ViewMode.callbackLater then (true, r.2.onPlayfieldToStackMoved)
  else r

/-- One completed draw: `handleReserveClick` and its deferred callback. -/
def GameController.drawReserve (view : ViewMode) (s : GameController) : Bool × GameController :=
  let r := s.handleReserveClick view
  if r.1 = true ∧ view = ViewMode.callbackLater then (true, r.2.onReserveDrawn)
  else r

/-- One completed undo: `handleUndoClick` and the deferred callback registered for
the record that was on top of the undo stack. -/
def GameController.undo (view : ViewMode) (s : GameController) : Bool × GameController :=
  let r := s.handleUndoClick view
  if r.1 = true ∧ view = ViewMode.callbackLater then
    match s.undoManager.undoStack.getLast? with
    | some undoModel =>
      if undoModel.operationType = CardOperationType.PLAYFIELD_TO_STACK then
        (true, r.2.onUndoToPlayfieldMoved)
      else if undoModel.operationType = CardOperationType.RESERVE_TO_STACK then
        (true, r.2.onUndoToReserveMoved)
      else r
    | none => r
  else r

/-! ## configs/LevelConfig.h, configs/LevelConfig.cpp -/

/-- The data members of `struct CardConfigData`. -/
structure CardConfigData where
  face : CardFaceType
  suit : CardSuitType
  position : Vec2
  deriving DecidableEq

/-- The data members of `class LevelConfig`. -/
structure LevelConfig where
  levelId : Int
  playfieldCards : List CardConfigData
  stackCards : List CardConfigData
  deriving DecidableEq

/-- One validation loop of `LevelConfig::isValid`: `true` when the loop runs to
its end without meeting a NONE face or suit. -/
def LevelConfig.allConcrete : List CardConfigData → Bool
  | [] => true
  | card :: rest =>
    if card.face = CardFaceType.NONE ∨ card.suit = CardSuitType.NONE then false
    else LevelConfig.allConcrete rest

/-- Embeds `LevelConfig::isValid`. -/
def LevelConfig.isValid (c : LevelConfig) : Bool :=
  if c.playfieldCards.isEmpty then false
  else if c.stackCards.isEmpty then false
  else if !LevelConfig.allConcrete c.playfieldCards then false
  else if !LevelConfig.allConcrete c.stackCards then false
  else true

/-! ## services/GameModelGenerator.cpp: generation -/

/-- Embeds `GameModel::clear`. -/
def GameModel.clear (_g : GameModel) : GameModel :=
  { playfieldCards := [], stackTopCard := CardModel.empty, reserveCards := [], nextCardId := 0 }

/-- Embeds `GameModel::getNextCardId` (`return _nextCardId++;`): the id returned
and the model with the counter incremented.  The counter is a C++ `int`; the
increment is the one of the source for counters below `INT_MAX = 2147483647`,
and at `INT_MAX` the increment of the source overflows. -/
def GameModel.getNextCardId (g : GameModel) : Int × GameModel :=
  (g.nextCardId, { g with nextCardId := g.nextCardId + 1 })

/-- Embeds `GameModelGenerator::createCardModel`. -/
def createCardModel (configData : CardConfigData) (cardId : Int) (area : CardAreaType) :
    CardModel :=
  let card := CardModel.create cardId configData.suit configData.face
  let card := card.setPosition configData.position
  card.setArea area

/-- The playfield loop of `GameModelGenerator::generate`. -/
def generatePlayfieldLoop (outGameModel : GameModel) : List CardConfigData → GameModel
  | [] => outGameModel
  | config :: rest =>
    let r := outGameModel.getNextCardId
    let cardId := r.1
    let card := createCardModel config cardId CardAreaType.PLAYFIELD
    let card := card.setFaceUp true
    let card := card.setClickable false
    generatePlayfieldLoop (r.2.addPlayfieldCard card) rest

/-- The reserve loop of `GameModelGenerator::generate`, over the stack
configurations from index 1 on. -/
def generateReserveLoop (outGameModel : GameModel) : List CardConfigData → GameModel
  | [] => outGameModel
  | config :: rest =>
    let r := outGameModel.getNextCardId
    let cardId := r.1
    let card := createCardModel config cardId CardAreaType.RESERVE
    let card := card.setFaceUp false
    let card := card.setClickable false
    generateReserveLoop (r.2.addReserveCard card) rest

/-- Embeds `GameModelGenerator::generate`: the returned flag and the output model. -/
def generate (levelConfig : LevelConfig) (outGameModel : GameModel) : Bool × GameModel :=
  if !levelConfig.isValid then (false, outGameModel)
  else
    let outGameModel := outGameModel.clear
    let outGameModel := generatePlayfieldLoop outGameModel levelConfig.playfieldCards
    let outGameModel := updatePlayfieldClickable outGameModel
    match levelConfig.stackCards with
    | [] => (false, outGameModel)
    | firstStackConfig :: restConfigs =>
      let r := outGameModel.getNextCardId
      let topCardId := r.1
      let topCard := createCardModel firstStackConfig topCardId CardAreaType.STACK
      let topCard := topCard.setFaceUp true
      let topCard := topCard.setClickable false
      let outGameModel := r.2.setStackTopCard topCard
      let outGameModel := generateReserveLoop outGameModel restConfigs
      (true, outGameModel)

/-! ## Serialization (CardModel.cpp, GameModel.cpp)

The JSON documents are values of the rapidjson DOM.  Only what the source uses
of that library is modelled: objects as ordered member lists looked up by name,
arrays, booleans, numbers built from an `int` and numbers built from a `float`
(stored as a double; they carry a coordinate of this embedding). -/

/-- A rapidjson value. -/
inductive Json where
  | null
  | bool (b : Bool)
  | int (n : Int)
  | number (x : Int)
  | arr (elems : List Json)
  | obj (members : List (String × Json))

/-- The member of an object with the given name (`HasMember` and `operator[]`):
`none` when the value is no object or has no such member. -/
def Json.member? (name : String) : Json → Option Json
  | Json.obj members => members.lookup name
  | _ => none

/-- Embeds `IsObject`. -/
def Json.isObject : Json → Bool
  | Json.obj _ => true
  | _ => false

/-- The integer of a value for which `IsInt()` holds (`GetInt`), `none` otherwise. -/
def Json.int? : Json → Option Int
  | Json.int n => some n
  | _ => none

/-- The boolean of a value for which `IsBool()` holds (`GetBool`), `none` otherwise. -/
def Json.bool? : Json → Option Bool
  | Json.bool b => some b
  | _ => none

/-- The elements of a value for which `IsArray()` holds, `none` otherwise. -/
def Json.arr? : Json → Option (List Json)
  | Json.arr elems => some elems
  | _ => none

/-- Embeds `GetFloat`: defined on numbers, `none` where rapidjson asserts. -/
def Json.getFloat : Json → Option Int
  | Json.number x => some x
  | Json.int n => some n
  | _ => none

/-- The integer value of a suit enumerator (`static_cast<int>`). -/
def CardSuitType.toInt : CardSuitType → Int
  | .NONE => -1
  | .CLUBS => 0
  | .DIAMONDS => 1
  | .HEARTS => 2
  | .SPADES => 3
  | .COUNT => 4

/-- The integer value of an area enumerator (`static_cast<int>`). -/
def CardAreaType.toInt : CardAreaType → Int
  | .NONE => 0
  | .PLAYFIELD => 1
  | .STACK => 2
  | .RESERVE => 3

/-- The suit enumerator with the given integer value (`static_cast<CardSuitType>`),
`none` for an integer that is the value of no enumerator. -/
def CardSuitType.ofInt? (n : Int) : Option CardSuitType :=
  if n = -1 then some .NONE
  else if n = 0 then some .CLUBS
  else if n = 1 then some .DIAMONDS
  else if n = 2 then some .HEARTS
  else if n = 3 then some .SPADES
  else if n = 4 then some .COUNT
  else none

/-- The face enumerator with the given integer value (`static_cast<CardFaceType>`),
`none` for an integer that is the value of no enumerator. -/
def CardFaceType.ofInt? (n : Int) : Option CardFaceType :=
  if n = -1 then some .NONE
  else if n = 0 then some .ACE
  else if n = 1 then some .TWO
  else if n = 2 then some .THREE
  else if n = 3 then some .FOUR
  else if n = 4 then some .FIVE
  else if n = 5 then some .SIX
  else if n = 6 then some .SEVEN
  else if n = 7 then some .EIGHT
  else if n = 8 then some .NINE
  else if n = 9 then some .TEN
  else if n = 10 then some .JACK
  else if n = 11 then some .QUEEN
  else if n = 12 then some .KING
  else if n = 13 then some .COUNT
  else none

/-- The area enumerator with the given integer value (`static_cast<CardAreaType>`),
`none` for an integer that is the value of no enumerator. -/
def CardAreaType.ofInt? (n : Int) : Option CardAreaType :=
  if n = 0 then some .NONE
  else if n = 1 then some .PLAYFIELD
  else if n = 2 then some .STACK
  else if n = 3 then some .RESERVE
  else none

/-- Embeds `CardModel::serialize`. -/
def CardModel.serialize (c : CardModel) : Json :=
  Json.obj
    [("cardId", Json.int c.cardId),
     ("suit", Json.int c.suit.toInt),
     ("face", Json.int c.face.toInt),
     ("position", Json.obj [("x", Json.number c.position.x), ("y", Json.number c.position.y)]),
     ("area", Json.int c.area.toInt),
     ("isFaceUp", Json.bool c.isFaceUp),
     ("isClickable", Json.bool c.isClickable)]

/-- Embeds `CardModel::deserialize` into the card `c`: the returned flag and the
card.  The result is `none` where the source leaves this embedding: an integer
that is the value of no enumerator, or `GetFloat` on a value that is no number. -/
def CardModel.deserialize (json : Json) (c : CardModel) : Option (Bool × CardModel) :=
  if !json.isObject then some (false, c)
  else do
    let c :=
      match (json.member? "cardId").bind Json.int? with
      | some n => { c with cardId := n }
      | none => c
    let c ←
      match (json.member? "suit").bind Json.int? with
      | some n => (CardSuitType.ofInt? n).map (fun suit => { c with suit := suit })
      | none => some c
    let c ←
      match (json.member? "face").bind Json.int? with
      | some n => (CardFaceType.ofInt? n).map (fun face => { c with face := face })
      | none => some c
    let c ←
      match json.member? "position" with
      | some (Json.obj members) =>
        match (Json.obj members).member? "x", (Json.obj members).member? "y" with
        | some jx, some jy => do
          let x ← jx.getFloat
          let y ← jy.getFloat
          some { c with position := { x := x, y := y } }
        | _, _ => some c
      | _ => some c
    let c ←
      match (json.member? "area").bind Json.int? with
      | some n => (CardAreaType.ofInt? n).map (fun area => { c with area := area })
      | none => some c
    let c :=
      match (json.member? "isFaceUp").bind Json.bool? with
      | some b => { c with isFaceUp := b }
      | none => c
    let c :=
      match (json.member? "isClickable").bind Json.bool? with
      | some b => { c with isClickable := b }
      | none => c
    some (true, c)

/-- Embeds `GameModel::serialize`. -/
def GameModel.serialize (g : GameModel) : Json :=
  Json.obj
    [("playfieldCards", Json.arr (g.playfieldCards.map CardModel.serialize)),
     ("stackTopCard", g.stackTopCard.serialize),
     ("reserveCards", Json.arr (g.reserveCards.map CardModel.serialize)),
     ("nextCardId", Json.int g.nextCardId)]

/-- The array loops of `GameModel::deserialize`: each element is read into a
fresh default card, which is appended when its `deserialize` returns `true`. -/
def deserializeCards : List Json → List CardModel → Option (List CardModel)
  | [], cards => some cards
  | json :: rest, cards => do
    let r ← CardModel.deserialize json CardModel.empty
    deserializeCards rest (if r.1 then cards ++ [r.2] else cards)

/-- Embeds `GameModel::deserialize` into the model `g`: the returned flag and the
model (`none` as for `CardModel.deserialize`). -/
def GameModel.deserialize (json : Json) (g : GameModel) : Option (Bool × GameModel) :=
  if !json.isObject then some (false, g)
  else do
    let g := g.clear
    let g ←
      match (json.member? "playfieldCards").bind Json.arr? with
      | some elems =>
        (deserializeCards elems g.playfieldCards).map
          (fun cards => { g with playfieldCards := cards })
      | none => some g
    let g ←
      match json.member? "stackTopCard" with
      | some j =>
        (CardModel.deserialize j g.stackTopCard).map
          (fun r => { g with stackTopCard := r.2 })
      | none => some g
    let g ←
      match (json.member? "reserveCards").bind Json.arr? with
      | some elems =>
        (deserializeCards elems g.reserveCards).map
          (fun cards => { g with reserveCards := cards })
      | none => some g
    let g :=
      match (json.member? "nextCardId").bind Json.int? with
      | some n => { g with nextCardId := n }
      | none => g
    some (true, g)

/-- The conversion `static_cast<CardOperationType>(int)`: unchecked. -/
def CardOperationType.ofInt (n : Int) : CardOperationType := { value := n }

/-- Embeds `UndoModel::serialize`. -/
def UndoModel.serialize (u : UndoModel) : Json :=
  Json.obj
    [("operationType", Json.int u.operationType.value),
     ("movedCard", u.movedCard.serialize),
     ("previousStackTopCard", u.previousStackTopCard.serialize),
     ("originalPosition",
       Json.obj [("x", Json.number u.originalPosition.x), ("y", Json.number u.originalPosition.y)]),
     ("targetPosition",
       Json.obj [("x", Json.number u.targetPosition.x), ("y", Json.number u.targetPosition.y)])]

/-- Embeds `UndoModel::deserialize` into the record `u` (`none` as for
`CardModel.deserialize`). -/
def UndoModel.deserialize (json : Json) (u : UndoModel) : Option (Bool × UndoModel) :=
  if !json.isObject then some (false, u)
  else do
    let u :=
      match (json.member? "operationType").bind Json.int? with
      | some n => { u with operationType := CardOperationType.ofInt n }
      | none => u
    let u ←
      match json.member? "movedCard" with
      | some j => (CardModel.deserialize j u.movedCard).map (fun r => { u with movedCard := r.2 })
      | none => some u
    let u ←
      match json.member? "previousStackTopCard" with
      | some j =>
        (CardModel.deserialize j u.previousStackTopCard).map
          (fun r => { u with previousStackTopCard := r.2 })
      | none => some u
    let u ←
      match json.member? "originalPosition" with
      | some (Json.obj members) =>
        match (Json.obj members).member? "x", (Json.obj members).member? "y" with
        | some jx, some jy => do
          let x ← jx.getFloat
          let y ← jy.getFloat
          some { u with originalPosition := { x := x, y := y } }
        | _, _ => some u
      | _ => some u
    let u ←
      match json.member? "targetPosition" with
      | some (Json.obj members) =>
        match (Json.obj members).member? "x", (Json.obj members).member? "y" with
        | some jx, some jy => do
          let x ← jx.getFloat
          let y ← jy.getFloat
          some { u with targetPosition := { x := x, y := y } }
        | _, _ => some u
      | _ => some u
    some (true, u)

/-! ## Specification-side vocabulary -/

/-- Named after the spec's words: the 150 x 210 bounding boxes centred on the
positions of two cards overlap on the x axis and on the y axis. -/
def BoxesOverlap (a b : CardModel) : Prop :=
  |a.position.x - b.position.x| < 150 ∧ |a.position.y - b.position.y| < 210

instance (a b : CardModel) : Decidable (BoxesOverlap a b) := by
  unfold BoxesOverlap; infer_instance

/-- Named after the spec's words: `o` is another card (a different id) with a
strictly smaller y than `c` whose bounding box overlaps the one of `c`. -/
def Occludes (o c : CardModel) : Prop :=
  o.cardId ≠ c.cardId ∧ o.position.y < c.position.y ∧ BoxesOverlap o c

instance (o c : CardModel) : Decidable (Occludes o c) := by
  unfold Occludes; infer_instance

/-- The test of the occlusion scan: `o` is another card (a different id) with a
strictly smaller y than `c`, and `isCardOverlapping` reports that the two
overlap. -/
def Blocks (o c : CardModel) : Prop :=
  o.cardId ≠ c.cardId ∧ o.position.y < c.position.y ∧ isCardOverlapping c o = true

instance (o c : CardModel) : Decidable (Blocks o c) := by
  unfold Blocks; infer_instance

/-- The coordinates of a card are small enough for the edges of its bounding
box, `x ± 75` and `y ± 105`, to be binary32 values: no `float` operation of
`isCardOverlapping` rounds. -/
def ExactEdges (c : CardModel) : Prop :=
  |c.position.x| + 75 ≤ 16777216 ∧ |c.position.y| + 105 ≤ 16777216

instance (c : CardModel) : Decidable (ExactEdges c) := by
  unfold ExactEdges; infer_instance

/-- The identity and geometry of a card, the only data the occlusion scan reads. -/
def CardModel.geom (c : CardModel) : Int × Vec2 := (c.cardId, c.position)

/-- The cards built from a list of configurations, numbered from `start` on,
placed in `area`, with the given face-up flag and not clickable. -/
def cardsFromConfigs (area : CardAreaType) (faceUp : Bool) (start : Int) :
    List CardConfigData → List CardModel
  | [] => []
  | p :: ps =>
    { cardId := start, suit := p.suit, face := p.face, position := p.position, area := area,
      isFaceUp := faceUp, isClickable := false } ::
      cardsFromConfigs area faceUp (start + 1) ps

/-- A card with its clickable flag cleared: what a card is up to that flag. -/
def CardModel.withoutFlag (c : CardModel) : CardModel :=
  { c with isClickable := false }

/-- A completed match followed by a completed undo. -/
def matchThenUndo (view₁ view₂ : ViewMode) (viewTargetPos : Vec2) (cardId : Int)
    (s : GameController) : Bool × GameController :=
  (s.attemptMatch view₁ viewTargetPos cardId).2.undo view₂

/-- A completed draw followed by a completed undo. -/
def drawThenUndo (view₁ view₂ : ViewMode) (s : GameController) : Bool × GameController :=
  (s.drawReserve view₁).2.undo view₂

/-- The controller states reachable from a successful `generate` (as run by
`startGame`: the undo stack is cleared, the animation flag is left as it was)
by handler calls with any arguments and any view behaviour, successful or
failing, and by completion callbacks.  Callbacks are allowed at any time, which
covers every order in which the engine can invoke them. -/
inductive Reachable : GameController → Prop
  | start (cfg : LevelConfig) (g₀ : GameModel) (animating : Bool) :
      (generate cfg g₀).1 = true →
      Reachable { gameModel := (generate cfg g₀).2, undoManager := { undoStack := [] },
                  isAnimating := animating }
  | playfieldClick (view : ViewMode) (viewTargetPos : Vec2) (cardId : Int)
      (s : GameController) :
      Reachable s → Reachable (s.handlePlayfieldCardClick view viewTargetPos cardId).2
  | reserveClick (view : ViewMode) (s : GameController) :
      Reachable s → Reachable (s.handleReserveClick view).2
  | undoClick (view : ViewMode) (s : GameController) :
      Reachable s → Reachable (s.handleUndoClick view).2
  | playfieldToStackMoved (s : GameController) :
      Reachable s → Reachable s.onPlayfieldToStackMoved
  | reserveDrawn (s : GameController) : Reachable s → Reachable s.onReserveDrawn
  | undoToPlayfieldMoved (s : GameController) :
      Reachable s → Reachable s.onUndoToPlayfieldMoved
  | undoToReserveMoved (s : GameController) :
      Reachable s → Reachable s.onUndoToReserveMoved

/-- The ids of the cards a game model holds, with the ids of the stack-top cards
remembered by the undo records, as a multiset. -/
def idBag (g : GameModel) (u : List UndoModel) : Multiset Int :=
  (g.playfieldCards.map (fun c => c.cardId) : Multiset Int) + {g.stackTopCard.cardId} +
    (g.reserveCards.map (fun c => c.cardId) : Multiset Int) +
    (u.map (fun r => r.previousStackTopCard.cardId) : Multiset Int)

/-- The undo records, newest first, form a chain: each moved card is the
stack-top that the next newer record (or the current state) replaced. -/
def chainFrom (top : Int) : List UndoModel → Prop
  | [] => True
  | r :: rs => r.movedCard.cardId = top ∧ chainFrom r.previousStackTopCard.cardId rs

/-- The invariant carried along every reachable state: areas and face-up flags
match the collections, every record is of a concrete operation and remembers a
face-up stack-top, all ids are non-negative and pairwise different, and the
records form a chain ending at the current stack-top. -/
structure WellFormed (g : GameModel) (u : List UndoModel) : Prop where
  playfield : ∀ c ∈ g.playfieldCards, c.area = CardAreaType.PLAYFIELD ∧ c.isFaceUp = true
  stackTop : g.stackTopCard.area = CardAreaType.STACK ∧ g.stackTopCard.isFaceUp = true
  reserve : ∀ c ∈ g.reserveCards, c.area = CardAreaType.RESERVE ∧ c.isFaceUp = false
  records : ∀ r ∈ u,
    (r.operationType = CardOperationType.PLAYFIELD_TO_STACK ∨
      r.operationType = CardOperationType.RESERVE_TO_STACK) ∧
    r.previousStackTopCard.isFaceUp = true
  nodup : (idBag g u).Nodup
  nonneg : ∀ i ∈ idBag g u, 0 ≤ i
  chain : chainFrom g.stackTopCard.cardId u.reverse

/-- The operation type is named by one of the enumerators of
`CardOperationType`. -/
def CardOperationType.IsEnumerator (t : CardOperationType) : Prop :=
  t = CardOperationType.NONE ∨ t = CardOperationType.PLAYFIELD_TO_STACK ∨
    t = CardOperationType.RESERVE_TO_STACK

/-- The undo managers whose log is built from the empty log by `recordAction`
on records whose operation type is named by an enumerator, and by
`recordPlayfieldToStack`, `recordReserveToStack` and `undo` with any
arguments. -/
inductive LogBuilt : UndoManager → Prop
  | empty : LogBuilt { undoStack := [] }
  | recordAction (m : UndoManager) (undoModel : UndoModel) :
      undoModel.operationType.IsEnumerator → LogBuilt m → LogBuilt (m.recordAction undoModel)
  | recordPlayfieldToStack (m : UndoManager) (movedCard previousTopCard : CardModel)
      (originalPos targetPos : Vec2) :
      LogBuilt m →
      LogBuilt (m.recordPlayfieldToStack movedCard previousTopCard originalPos targetPos)
  | recordReserveToStack (m : UndoManager) (drawnCard previousTopCard : CardModel) :
      LogBuilt m → LogBuilt (m.recordReserveToStack drawnCard previousTopCard)
  | undo (m : UndoManager) (gameModel : GameModel) :
      LogBuilt m → LogBuilt (m.undo gameModel).2.1

/-- Whether a view is attached for the call: with `detached` the handlers take
their `else` branch and no completion callback ever runs. -/
def ViewMode.isAttached : ViewMode → Bool
  | ViewMode.detached => false
  | ViewMode.callbackNow => true
  | ViewMode.callbackLater => true

/-- One forward operation of the player, with the behaviour of the view during
that operation. -/
inductive Op where
  | attemptMatch (view : ViewMode) (viewTargetPos : Vec2) (cardId : Int)
  | drawReserve (view : ViewMode)

/-- The view behaviour an operation runs with. -/
def Op.view : Op → ViewMode
  | Op.attemptMatch view _ _ => view
  | Op.drawReserve view => view

/-- Runs one completed forward operation. -/
def Op.run : Op → GameController → Bool × GameController
  | Op.attemptMatch view viewTargetPos cardId, s => s.attemptMatch view viewTargetPos cardId
  | Op.drawReserve view, s => s.drawReserve view

/-- Runs the operations in order, stopping at the first one that fails; the flag
tells whether all of them succeeded. -/
def runOps : List Op → GameController → Bool × GameController
  | [], s => (true, s)
  | op :: ops, s => if (op.run s).1 then runOps ops (op.run s).2 else (false, (op.run s).2)

/-- Runs one completed undo per listed view behaviour, in order, stopping at the
first one that fails; the flag tells whether all of them succeeded. -/
def undoAll : List ViewMode → GameController → Bool × GameController
  | [], s => (true, s)
  | v :: vs, s => if (s.undo v).1 then undoAll vs (s.undo v).2 else (false, (s.undo v).2)

/-- The controller states reached from a successful `generate` (idle, with an
empty undo stack) by completed operations, successful or failing, all run with
the same view attachment. -/
inductive ReachableBy (attached : Bool) : GameController → Prop
  | start (cfg : LevelConfig) (g₀ : GameModel) :
      (generate cfg g₀).1 = true →
      ReachableBy attached
        { gameModel := (generate cfg g₀).2, undoManager := { undoStack := [] },
          isAnimating := false }
  | attemptMatch (view : ViewMode) (viewTargetPos : Vec2) (cardId : Int)
      (s : GameController) :
      view.isAttached = attached → ReachableBy attached s →
      ReachableBy attached (s.attemptMatch view viewTargetPos cardId).2
  | drawReserve (view : ViewMode) (s : GameController) :
      view.isAttached = attached → ReachableBy attached s →
      ReachableBy attached (s.drawReserve view).2
  | undo (view : ViewMode) (s : GameController) :
      view.isAttached = attached → ReachableBy attached s →
      ReachableBy attached (s.undo view).2

/-- What completed operations run with one view attachment keep true besides
`WellFormed`: no animation is pending, no reserve card is clickable, and, when
the views are attached, the playfield flags are those the occlusion resolver
computes. -/
structure Settled (attached : Bool) (s : GameController) : Prop where
  idle : s.isAnimating = false
  reserveFlags : ∀ c ∈ s.gameModel.reserveCards, c.isClickable = false
  consistent : attached = true →
    (updatePlayfieldClickable s.gameModel).playfieldCards = s.gameModel.playfieldCards

/-- Two controller states that agree on everything but the order of the
playfield cards. -/
def SameState (s t : GameController) : Prop :=
  s.undoManager = t.undoManager ∧ s.isAnimating = t.isAnimating ∧
  s.gameModel.stackTopCard = t.gameModel.stackTopCard ∧
  s.gameModel.reserveCards = t.gameModel.reserveCards ∧
  s.gameModel.nextCardId = t.gameModel.nextCardId ∧
  List.Perm s.gameModel.playfieldCards t.gameModel.playfieldCards


/-! ## Concrete cards and states used to evaluate the definitions -/

/-- A face-up, clickable playfield card at `(x, y)`. -/
def playfieldCardAt (cardId : Int) (suit : CardSuitType) (face : CardFaceType) (x y : Int) :
    CardModel :=
  { cardId := cardId, suit := suit, face := face, position := { x := x, y := y },
    area := CardAreaType.PLAYFIELD, isFaceUp := true, isClickable := true }

/-- A game model holding only a playfield: empty stack-top sentinel, no reserve. -/
def playfieldOnly (cards : List CardModel) : GameModel :=
  { playfieldCards := cards, stackTopCard := CardModel.empty, reserveCards := [],
    nextCardId := cards.length }

/-- A face-up, not clickable stack-top card. -/
def stackCardOf (cardId : Int) (suit : CardSuitType) (face : CardFaceType) : CardModel :=
  { cardId := cardId, suit := suit, face := face, position := Vec2.ZERO,
    area := CardAreaType.STACK, isFaceUp := true, isClickable := false }

/-- A face-down, not clickable reserve card. -/
def reserveCardOf (cardId : Int) (suit : CardSuitType) (face : CardFaceType) : CardModel :=
  { cardId := cardId, suit := suit, face := face, position := Vec2.ZERO,
    area := CardAreaType.RESERVE, isFaceUp := false, isClickable := false }

/-- An idle controller (no animation in progress) with an empty undo stack. -/
def idleController (g : GameModel) : GameController :=
  { gameModel := g, undoManager := { undoStack := [] }, isAnimating := false }

/-- The spec's first end-to-end scenario: King of Clubs at (250, 1000) in the
playfield, Four of Clubs on the stack, Ace of Hearts in the reserve. -/
def kingVersusFour : GameController :=
  idleController
    { playfieldCards := [playfieldCardAt 0 CardSuitType.CLUBS CardFaceType.KING 250 1000],
      stackTopCard := stackCardOf 1 CardSuitType.CLUBS CardFaceType.FOUR,
      reserveCards := [reserveCardOf 2 CardSuitType.HEARTS CardFaceType.ACE],
      nextCardId := 3 }

/-- The spec's second end-to-end scenario: Three of Clubs at (300, 800) in the
playfield, Four of Clubs on the stack, empty reserve. -/
def threeVersusFour : GameController :=
  idleController
    { playfieldCards := [playfieldCardAt 0 CardSuitType.CLUBS CardFaceType.THREE 300 800],
      stackTopCard := stackCardOf 1 CardSuitType.CLUBS CardFaceType.FOUR,
      reserveCards := [],
      nextCardId := 2 }

/-- The level descriptor of the spec's first end-to-end scenario: King of Clubs
at (250, 1000) in the playfield, stack source Four of Clubs then Ace of Hearts. -/
def kingLevel : LevelConfig :=
  { levelId := 1,
    playfieldCards := [⟨CardFaceType.KING, CardSuitType.CLUBS, ⟨250, 1000⟩⟩],
    stackCards :=
      [⟨CardFaceType.FOUR, CardSuitType.CLUBS, Vec2.ZERO⟩,
       ⟨CardFaceType.ACE, CardSuitType.HEARTS, Vec2.ZERO⟩] }

/-- A level descriptor without stack-source cards. -/
def noStackLevel : LevelConfig :=
  { levelId := 2,
    playfieldCards := [⟨CardFaceType.KING, CardSuitType.CLUBS, ⟨250, 1000⟩⟩],
    stackCards := [] }

/-- The controller right after `startGame` on the first end-to-end scenario. -/
def kingGameStart : GameController :=
  { gameModel := (generate kingLevel (playfieldOnly [])).2, undoManager := { undoStack := [] },
    isAnimating := false }

/-- The second end-to-end scenario with nothing on the stack: the stack-top is
the empty sentinel card. -/
def threeVersusEmptyStack : GameController :=
  idleController
    { playfieldCards := [playfieldCardAt 0 CardSuitType.CLUBS CardFaceType.THREE 300 800],
      stackTopCard := CardModel.empty,
      reserveCards := [],
      nextCardId := 1 }

/-- A level descriptor with two overlapping playfield cards: the Four of Hearts at
(300, 800) lies under the Three of Clubs at (300, 700); the stack source is the
Four of Clubs alone. -/
def coveredLevel : LevelConfig :=
  { levelId := 3,
    playfieldCards :=
      [⟨CardFaceType.FOUR, CardSuitType.HEARTS, ⟨300, 800⟩⟩,
       ⟨CardFaceType.THREE, CardSuitType.CLUBS, ⟨300, 700⟩⟩],
    stackCards := [⟨CardFaceType.FOUR, CardSuitType.CLUBS, Vec2.ZERO⟩] }

/-- The controller right after `startGame` on `coveredLevel`: card 0 (Four of
Hearts) is not clickable, card 1 (Three of Clubs) is, the Four of Clubs (id 2)
is on the stack. -/
def coveredGameStart : GameController :=
  { gameModel := (generate coveredLevel (playfieldOnly [])).2,
    undoManager := { undoStack := [] }, isAnimating := false }

/-- A serialized undo record whose operation type is the integer 3, the value
of no enumerator, for the Three of Clubs (id 0) moved onto the Four of Clubs. -/
def unknownTypeRecordJson : Json :=
  Json.obj
    [("operationType", Json.int 3),
     ("movedCard", (playfieldCardAt 0 CardSuitType.CLUBS CardFaceType.THREE 300 800).serialize),
     ("previousStackTopCard", (stackCardOf 1 CardSuitType.CLUBS CardFaceType.FOUR).serialize)]

/-- The record that `UndoModel::deserialize` reads from `unknownTypeRecordJson`
into a default-constructed `UndoModel`. -/
def unknownTypeRecord : UndoModel :=
  { operationType := CardOperationType.ofInt 3,
    movedCard := playfieldCardAt 0 CardSuitType.CLUBS CardFaceType.THREE 300 800,
    previousStackTopCard := stackCardOf 1 CardSuitType.CLUBS CardFaceType.FOUR,
    originalPosition := Vec2.ZERO, targetPosition := Vec2.ZERO }

/-! ## Auxiliary lemmas on the occlusion resolver -/

/-- The halvings counted by `ulpExponent` leave a 24-bit significand, with its
leading bit set unless there was no halving. -/
theorem ulpExponent_spec :
    ∀ fuel a : Nat, a < 16777216 * 2 ^ fuel →
      a / 2 ^ ulpExponent fuel a < 16777216 ∧
      ((ulpExponent fuel a = 0 ∧ a < 16777216) ∨
        (0 < ulpExponent fuel a ∧ 8388608 ≤ a / 2 ^ ulpExponent fuel a)) := by
  intro fuel
  induction fuel with
  | zero =>
    intro a ha
    simp only [pow_zero, mul_one] at ha
    simp [ulpExponent, ha]
  | succ fuel ih =>
    intro a ha
    by_cases hsmall : a < 16777216
    · simp [ulpExponent, hsmall]
    · have hhalf : a / 2 < 16777216 * 2 ^ fuel := by
        rw [pow_succ] at ha
        omega
      obtain ⟨h1, h2⟩ := ih (a / 2) hhalf
      have hdiv : a / 2 ^ (ulpExponent fuel (a / 2) + 1) =
          a / 2 / 2 ^ ulpExponent fuel (a / 2) := by
        rw [pow_succ, mul_comm, Nat.div_div_eq_div_mul]
      simp only [ulpExponent, hsmall, if_false, hdiv]
      refine ⟨h1, Or.inr ⟨Nat.succ_pos _, ?_⟩⟩
      rcases h2 with ⟨h0, _⟩ | ⟨_, h⟩
      · rw [h0, pow_zero, Nat.div_one]
        omega
      · exact h

theorem ulpExponent_self (a : Nat) :
    a / 2 ^ ulpExponent a a < 16777216 ∧
    ((ulpExponent a a = 0 ∧ a < 16777216) ∨
      (0 < ulpExponent a a ∧ 8388608 ≤ a / 2 ^ ulpExponent a a)) := by
  apply ulpExponent_spec
  have h1 : a < 2 ^ a := Nat.lt_two_pow a
  have h2 : 0 < 2 ^ a := Nat.pos_of_ne_zero (by positivity)
  omega


theorem roundToUlp_ge (u a : Nat) : a / u * u ≤ roundToUlp u a := by
  simp only [roundToUlp]
  have h : a / u * u ≤ (a / u + 1) * u := Nat.mul_le_mul_right _ (Nat.le_succ _)
  split_ifs <;> first | exact le_rfl | exact h

theorem roundToUlp_le (u a : Nat) : roundToUlp u a ≤ (a / u + 1) * u := by
  simp only [roundToUlp]
  have h : a / u * u ≤ (a / u + 1) * u := Nat.mul_le_mul_right _ (Nat.le_succ _)
  split_ifs <;> first | exact le_rfl | exact h

theorem roundToUlp_mono (u a b : Nat) (hu : 0 < u) (hab : a ≤ b) :
    roundToUlp u a ≤ roundToUlp u b := by
  have hq : a / u ≤ b / u := Nat.div_le_div_right hab
  rcases Nat.lt_or_eq_of_le hq with hlt | heq
  · calc roundToUlp u a ≤ (a / u + 1) * u := roundToUlp_le u a
      _ ≤ b / u * u := Nat.mul_le_mul_right _ hlt
      _ ≤ roundToUlp u b := roundToUlp_ge u b
  · have ha := Nat.div_add_mod a u
    have hb := Nat.div_add_mod b u
    have hra := Nat.mod_lt a hu
    have hrb := Nat.mod_lt b hu
    rw [heq] at ha
    have hr : a % u ≤ b % u := by omega
    simp only [roundToUlp, heq]
    have hexp : (b / u + 1) * u = b / u * u + u := by ring
    rw [hexp]
    generalize b / u * u = p
    split_ifs <;> omega

theorem roundNat_of_lt (a : Nat) (h : a < 16777216) : roundNat a = a := by
  have hk : ulpExponent a a = 0 := by
    cases a with
    | zero => rfl
    | succ n => simp [ulpExponent, h]
  simp [roundNat, roundToUlp, hk, Nat.mod_one]

theorem roundNat_mono (a b : Nat) (hab : a ≤ b) : roundNat a ≤ roundNat b := by
  obtain ⟨ha1, ha2⟩ := ulpExponent_self a
  obtain ⟨hb1, hb2⟩ := ulpExponent_self b
  have hpa : 0 < 2 ^ ulpExponent a a := Nat.pos_of_ne_zero (by positivity)
  have hpb : 0 < 2 ^ ulpExponent b b := Nat.pos_of_ne_zero (by positivity)
  have hbup : b < 16777216 * 2 ^ ulpExponent b b := (Nat.div_lt_iff_lt_mul hpb).1 hb1
  have hle : ulpExponent a a ≤ ulpExponent b b := by
    by_contra hgt
    push_neg at hgt
    rcases ha2 with ⟨h0, _⟩ | ⟨_, hlow⟩
    · omega
    · have hlow' : 8388608 * 2 ^ ulpExponent a a ≤ a := (Nat.le_div_iff_mul_le hpa).1 hlow
      have hpow : 2 ^ (ulpExponent b b + 1) ≤ 2 ^ ulpExponent a a :=
        Nat.pow_le_pow_right (by norm_num) hgt
      rw [pow_succ] at hpow
      omega
  rcases Nat.lt_or_eq_of_le hle with hlt | heq
  · have hbk : 0 < ulpExponent b b := by omega
    rcases hb2 with ⟨h0, _⟩ | ⟨_, hlow⟩
    · omega
    · have hpow : 2 ^ (ulpExponent a a + 1) ≤ 2 ^ ulpExponent b b :=
        Nat.pow_le_pow_right (by norm_num) hlt
      rw [pow_succ] at hpow
      calc roundNat a ≤ (a / 2 ^ ulpExponent a a + 1) * 2 ^ ulpExponent a a := roundToUlp_le _ a
        _ ≤ 16777216 * 2 ^ ulpExponent a a := Nat.mul_le_mul_right _ ha1
        _ ≤ 8388608 * 2 ^ ulpExponent b b := by omega
        _ ≤ b / 2 ^ ulpExponent b b * 2 ^ ulpExponent b b := Nat.mul_le_mul_right _ hlow
        _ ≤ roundNat b := roundToUlp_ge _ b
  · simp only [roundNat, heq]
    exact roundToUlp_mono _ a b hpb hab

theorem roundToFloat_mono (m n : Int) (h : m ≤ n) : roundToFloat m ≤ roundToFloat n := by
  unfold roundToFloat
  by_cases hm : 0 ≤ m
  · have hn : 0 ≤ n := le_trans hm h
    simp only [hm, hn, if_true]
    exact_mod_cast roundNat_mono _ _ (Int.toNat_le_toNat h)
  · by_cases hn : 0 ≤ n
    · simp only [hm, hn, if_true, if_false]
      have h1 : (0 : Int) ≤ (roundNat (-m).toNat : Int) := Int.ofNat_nonneg _
      have h2 : (0 : Int) ≤ (roundNat n.toNat : Int) := Int.ofNat_nonneg _
      omega
    · simp only [hm, hn, if_false]
      have : (roundNat (-n).toNat : Int) ≤ (roundNat (-m).toNat : Int) := by
        exact_mod_cast roundNat_mono _ _ (Int.toNat_le_toNat (by omega))
      omega

theorem roundToFloat_of_abs_le (n : Int) (h : |n| ≤ 16777216) : roundToFloat n = n := by
  rw [abs_le] at h
  unfold roundToFloat
  by_cases hn : 0 ≤ n
  · simp only [hn, if_true]
    rcases Nat.lt_or_ge n.toNat 16777216 with hlt | hge
    · rw [roundNat_of_lt _ hlt]
      omega
    · have : n.toNat = 16777216 := by omega
      rw [this]
      have : roundNat 16777216 = 16777216 := by decide
      rw [this]
      omega
  · simp only [hn, if_false]
    rcases Nat.lt_or_ge (-n).toNat 16777216 with hlt | hge
    · rw [roundNat_of_lt _ hlt]
      omega
    · have : (-n).toNat = 16777216 := by omega
      rw [this]
      have : roundNat 16777216 = 16777216 := by decide
      rw [this]
      omega

theorem boxesOverlap_comm (a b : CardModel) : BoxesOverlap a b ↔ BoxesOverlap b a := by
  simp only [BoxesOverlap, abs_lt]
  omega

/-- Rounding never creates an overlap: what `isCardOverlapping` reports as
overlapping overlaps in exact arithmetic. -/
theorem isCardOverlapping_sound (a b : CardModel) (h : isCardOverlapping a b = true) :
    BoxesOverlap a b := by
  simp only [isCardOverlapping, floatAdd, floatSub, kHalfCardWidth, kHalfCardHeight,
    Bool.and_eq_true, decide_eq_true_eq, gt_iff_lt] at h
  obtain ⟨⟨h1, h2⟩, h3, h4⟩ := h
  simp only [BoxesOverlap, abs_lt]
  refine ⟨⟨?_, ?_⟩, ?_, ?_⟩
  · by_contra hc
    have := roundToFloat_mono (a.position.x + 75) (b.position.x - 75) (by omega)
    omega
  · by_contra hc
    have := roundToFloat_mono (b.position.x + 75) (a.position.x - 75) (by omega)
    omega
  · by_contra hc
    have := roundToFloat_mono (a.position.y + 105) (b.position.y - 105) (by omega)
    omega
  · by_contra hc
    have := roundToFloat_mono (b.position.y + 105) (a.position.y - 105) (by omega)
    omega

/-- A sum or difference whose operands leave the result within 2^24 is not
rounded. -/
theorem floatAdd_floatSub_exact (v d : Int) (hd : 0 ≤ d) (h : |v| + d ≤ 16777216) :
    floatAdd v d = v + d ∧ floatSub v d = v - d := by
  have hv := abs_le.1 (show |v| ≤ 16777216 - d by omega)
  constructor
  · exact roundToFloat_of_abs_le _ (abs_le.2 ⟨by omega, by omega⟩)
  · exact roundToFloat_of_abs_le _ (abs_le.2 ⟨by omega, by omega⟩)

/-- Where no edge is rounded, `isCardOverlapping` is the exact overlap of the
bounding boxes. -/
theorem isCardOverlapping_iff (a b : CardModel) (ha : ExactEdges a) (hb : ExactEdges b) :
    isCardOverlapping a b = true ↔ BoxesOverlap a b := by
  obtain ⟨hax, hay⟩ := ha
  obtain ⟨hbx, hby⟩ := hb
  obtain ⟨e1, e2⟩ := floatAdd_floatSub_exact a.position.x 75 (by norm_num) hax
  obtain ⟨e3, e4⟩ := floatAdd_floatSub_exact a.position.y 105 (by norm_num) hay
  obtain ⟨e5, e6⟩ := floatAdd_floatSub_exact b.position.x 75 (by norm_num) hbx
  obtain ⟨e7, e8⟩ := floatAdd_floatSub_exact b.position.y 105 (by norm_num) hby
  simp only [isCardOverlapping, BoxesOverlap, kHalfCardWidth, kHalfCardHeight, e1, e2, e3, e4,
    e5, e6, e7, e8, Bool.and_eq_true, decide_eq_true_eq, abs_lt]
  omega

/-- The scan reports a card as blocked exactly when some card of the list
passes its test. -/
theorem isBlockedLoop_iff (card : CardModel) (others : List CardModel) :
    isBlockedLoop card others = true ↔ ∃ o ∈ others, Blocks o card := by
  induction others with
  | nil => simp [isBlockedLoop]
  | cons o rest ih =>
    simp only [isBlockedLoop, List.mem_cons, exists_eq_or_imp]
    by_cases hid : card.cardId = o.cardId
    · have hno : ¬ Blocks o card := fun h => h.1 hid.symm
      simp [hid, ih, hno]
    · by_cases hy : o.position.y < card.position.y
      · by_cases hov : isCardOverlapping card o = true
        · have hocc : Blocks o card := ⟨fun h => hid h.symm, hy, hov⟩
          simp [hid, hy, hov, hocc]
        · have hno : ¬ Blocks o card := fun h => hov h.2.2
          simp [hid, hy, hov, ih, hno]
      · have hno : ¬ Blocks o card := fun h => hy h.2.1
        simp [hid, hy, ih, hno]

/-- A card that passes the test of the scan occludes in exact geometry. -/
theorem Blocks.occludes {o c : CardModel} (h : Blocks o c) : Occludes o c :=
  ⟨h.1, h.2.1, (boxesOverlap_comm _ _).1 (isCardOverlapping_sound _ _ h.2.2)⟩

/-- Where no edge is rounded, the test of the scan is exact occlusion. -/
theorem blocks_iff_occludes (o c : CardModel) (ho : ExactEdges o) (hc : ExactEdges c) :
    Blocks o c ↔ Occludes o c := by
  simp only [Blocks, Occludes, isCardOverlapping_iff c o hc ho, boxesOverlap_comm c o]

theorem isBlockedLoop_congr (card : CardModel) :
    ∀ l₁ l₂ : List CardModel, l₁.map CardModel.geom = l₂.map CardModel.geom →
      isBlockedLoop card l₁ = isBlockedLoop card l₂ := by
  intro l₁
  induction l₁ with
  | nil =>
    intro l₂ h
    cases l₂ with
    | nil => rfl
    | cons b l₂ => simp at h
  | cons a l₁ ih =>
    intro l₂ h
    cases l₂ with
    | nil => simp at h
    | cons b l₂ =>
      simp only [List.map_cons, List.cons.injEq, CardModel.geom, Prod.mk.injEq] at h
      obtain ⟨⟨hid, hpos⟩, htl⟩ := h
      have hrec := ih l₂ htl
      simp only [isBlockedLoop, isCardOverlapping, hid, hpos, hrec]

theorem updateClickableLoop_eq (full : List CardModel) :
    ∀ todo done : List CardModel,
      (done ++ todo).map CardModel.geom = full.map CardModel.geom →
      updateClickableLoop done todo =
        done ++ todo.map (fun c => c.setClickable (!isBlockedLoop c full)) := by
  intro todo
  induction todo with
  | nil => intro done _; simp [updateClickableLoop]
  | cons card rest ih =>
    intro done h
    have hscan : isBlockedLoop card (done ++ card :: rest) = isBlockedLoop card full :=
      isBlockedLoop_congr card _ _ h
    have hnext : ((done ++ [card.setClickable (!isBlockedLoop card full)]) ++ rest).map
        CardModel.geom = full.map CardModel.geom := by
      rw [← h]
      simp [CardModel.geom, CardModel.setClickable]
    simp only [updateClickableLoop, hscan]
    rw [ih _ hnext]
    simp

/-- The in-place loop computes, for each card, the scan over the playfield as
it was on entry. -/
theorem updatePlayfieldClickable_playfield (g : GameModel) :
    (updatePlayfieldClickable g).playfieldCards =
      g.playfieldCards.map (fun c => c.setClickable (!isBlockedLoop c g.playfieldCards)) := by
  simp only [updatePlayfieldClickable]
  rw [updateClickableLoop_eq g.playfieldCards g.playfieldCards [] (by simp)]
  simp

/-! ## Auxiliary lemmas on the game model -/

/-- What a successful lookup by id says about the playfield vector: the card
found is the first one carrying the id, and erasing by that id removes exactly
it. -/
theorem find_card_split (cardId : Int) (c : CardModel) :
    ∀ l : List CardModel, l.find? (fun card => card.cardId == cardId) = some c →
      c.cardId = cardId ∧ l.any (fun card => card.cardId == cardId) = true ∧
      ∃ l₁ l₂, l = l₁ ++ c :: l₂ ∧ (∀ x ∈ l₁, x.cardId ≠ cardId) ∧
        l.eraseP (fun card => card.cardId == cardId) = l₁ ++ l₂ := by
  intro l
  induction l with
  | nil => intro h; simp at h
  | cons a l ih =>
    intro h
    by_cases ha : a.cardId = cardId
    · have hb : (a.cardId == cardId) = true := by simpa using ha
      rw [List.find?_cons, hb] at h
      have hac : a = c := Option.some.inj h
      subst hac
      exact ⟨ha, by simp [ha], [], l, rfl, by simp, by simp [ha]⟩
    · have hb : (a.cardId == cardId) = false := by simpa using ha
      have hrest : l.find? (fun card => card.cardId == cardId) = some c := by
        rw [List.find?_cons, hb] at h
        exact h
      obtain ⟨hid, _, l₁, l₂, hl, hpre, her⟩ := ih hrest
      refine ⟨hid, ?_, a :: l₁, l₂, by simp [hl], ?_, ?_⟩
      · simp only [List.any_cons, Bool.or_eq_true]
        right
        exact (ih hrest).2.1
      · intro x hx
        rcases List.mem_cons.1 hx with rfl | hx
        · exact ha
        · exact hpre x hx
      · simp [List.eraseP_cons, ha, her]

/-- Every element on the right of a pointwise related pair of lists has a
partner on the left. -/
theorem forall₂_partner {R : CardModel → CardModel → Prop} {l l' : List CardModel}
    (h : List.Forall₂ R l l') : ∀ b ∈ l', ∃ a ∈ l, R a b := by
  induction h with
  | nil => intro b hb; simp at hb
  | cons hab _ ih =>
    intro b hb
    rcases List.mem_cons.1 hb with rfl | hb
    · exact ⟨_, List.mem_cons_self _ _, hab⟩
    · obtain ⟨a, ha, h⟩ := ih b hb
      exact ⟨a, List.mem_cons_of_mem _ ha, h⟩

/-- The clickable recomputation keeps every card, in order, up to its flag. -/
theorem updateClickable_same_cards (g : GameModel) :
    List.Forall₂ (fun a b => b = { a with isClickable := b.isClickable })
      g.playfieldCards (updatePlayfieldClickable g).playfieldCards := by
  rw [updatePlayfieldClickable_playfield, List.forall₂_map_right_iff, List.forall₂_same]
  intro c _
  rfl

/-- The effect of a reserve click on any controller state that is not animating
and holds a non-empty reserve. -/
theorem handleReserveClick_of_idle (view : ViewMode) (s : GameController)
    (hidle : s.isAnimating = false) (hne : s.gameModel.reserveCards ≠ []) :
    (s.handleReserveClick view).1 = true ∧
    (s.handleReserveClick view).2.gameModel.stackTopCard =
      { s.gameModel.reserveCards.getLast hne with
        area := CardAreaType.STACK, isFaceUp := true } ∧
    (s.handleReserveClick view).2.gameModel.reserveCards = s.gameModel.reserveCards.dropLast ∧
    s.gameModel.reserveCards =
      (s.handleReserveClick view).2.gameModel.reserveCards ++
        [s.gameModel.reserveCards.getLast hne] ∧
    (s.handleReserveClick view).2.gameModel.playfieldCards = s.gameModel.playfieldCards := by
  have hlast : s.gameModel.reserveCards.getLast? = some (s.gameModel.reserveCards.getLast hne) :=
    List.getLast?_eq_getLast _ hne
  have hnonempty : s.gameModel.isReserveEmpty = false := by
    simp [GameModel.isReserveEmpty, hne]
  have hrun : s.handleReserveClick view = (true, s.executeReserveDraw view) := by
    simp [GameController.handleReserveClick, hidle, hnonempty]
  have htop : (s.executeReserveDraw view).gameModel.stackTopCard =
      { s.gameModel.reserveCards.getLast hne with
        area := CardAreaType.STACK, isFaceUp := true } := by
    cases view <;>
      simp [GameController.executeReserveDraw, GameModel.drawReserveCard, hlast,
        GameModel.setStackTopCard, CardModel.setArea, CardModel.setFaceUp,
        GameController.onReserveDrawn]
  have hres : (s.executeReserveDraw view).gameModel.reserveCards =
      s.gameModel.reserveCards.dropLast := by
    cases view <;>
      simp [GameController.executeReserveDraw, GameModel.drawReserveCard, hlast,
        GameModel.setStackTopCard, GameController.onReserveDrawn]
  have hpf : (s.executeReserveDraw view).gameModel.playfieldCards =
      s.gameModel.playfieldCards := by
    cases view <;>
      simp [GameController.executeReserveDraw, GameModel.drawReserveCard, hlast,
        GameModel.setStackTopCard, GameController.onReserveDrawn]
  rw [hrun]
  refine ⟨rfl, htop, hres, ?_, hpf⟩
  show s.gameModel.reserveCards = (s.executeReserveDraw view).gameModel.reserveCards ++ _
  rw [hres]
  exact (List.dropLast_append_getLast hne).symm

/-! ## Auxiliary lemmas on generation -/

theorem cardsFromConfigs_length (area : CardAreaType) (faceUp : Bool) :
    ∀ (ps : List CardConfigData) (start : Int),
      (cardsFromConfigs area faceUp start ps).length = ps.length := by
  intro ps
  induction ps with
  | nil => intro start; rfl
  | cons p ps ih => intro start; simp [cardsFromConfigs, ih]

theorem cardsFromConfigs_getElem? (area : CardAreaType) (faceUp : Bool) :
    ∀ (ps : List CardConfigData) (start : Int) (i : Nat),
      (cardsFromConfigs area faceUp start ps)[i]? =
        ps[i]?.map (fun p =>
          { cardId := start + i, suit := p.suit, face := p.face, position := p.position,
            area := area, isFaceUp := faceUp, isClickable := false }) := by
  intro ps
  induction ps with
  | nil => intro start i; simp [cardsFromConfigs]
  | cons p ps ih =>
    intro start i
    cases i with
    | zero => simp [cardsFromConfigs]
    | succ i =>
      simp only [cardsFromConfigs, List.getElem?_cons_succ, ih]
      congr 1
      funext q
      have : start + 1 + (i : Int) = start + ((i + 1 : Nat) : Int) := by push_cast; ring
      rw [this]

theorem cardsFromConfigs_mem (area : CardAreaType) (faceUp : Bool) :
    ∀ (ps : List CardConfigData) (start : Int) (c : CardModel),
      c ∈ cardsFromConfigs area faceUp start ps →
        c.area = area ∧ c.isFaceUp = faceUp ∧ c.isClickable = false ∧
          start ≤ c.cardId ∧ c.cardId < start + ps.length := by
  intro ps
  induction ps with
  | nil => intro start c h; simp [cardsFromConfigs] at h
  | cons p ps ih =>
    intro start c h
    simp only [cardsFromConfigs, List.mem_cons] at h
    rcases h with rfl | h
    · refine ⟨rfl, rfl, rfl, le_refl _, ?_⟩
      simp only [List.length_cons]
      push_cast
      omega
    · obtain ⟨h1, h2, h3, h4, h5⟩ := ih (start + 1) c h
      refine ⟨h1, h2, h3, by omega, ?_⟩
      simp only [List.length_cons]
      push_cast
      omega

theorem cardsFromConfigs_ids_nodup (area : CardAreaType) (faceUp : Bool) :
    ∀ (ps : List CardConfigData) (start : Int),
      ((cardsFromConfigs area faceUp start ps).map (fun c => c.cardId)).Nodup := by
  intro ps
  induction ps with
  | nil => intro start; simp [cardsFromConfigs]
  | cons p ps ih =>
    intro start
    simp only [cardsFromConfigs, List.map_cons, List.nodup_cons, List.mem_map, not_exists,
      not_and]
    refine ⟨?_, ih (start + 1)⟩
    intro c hc heq
    have := (cardsFromConfigs_mem area faceUp ps (start + 1) c hc).2.2.2.1
    omega

theorem generatePlayfieldLoop_eq :
    ∀ (cfgs : List CardConfigData) (g : GameModel),
      generatePlayfieldLoop g cfgs =
        { g with
          playfieldCards :=
            g.playfieldCards ++ cardsFromConfigs CardAreaType.PLAYFIELD true g.nextCardId cfgs,
          nextCardId := g.nextCardId + cfgs.length } := by
  intro cfgs
  induction cfgs with
  | nil => intro g; simp [generatePlayfieldLoop, cardsFromConfigs]
  | cons p ps ih =>
    intro g
    simp only [generatePlayfieldLoop, ih, GameModel.getNextCardId, GameModel.addPlayfieldCard,
      createCardModel, CardModel.create, CardModel.setPosition, CardModel.setArea,
      CardModel.setFaceUp, CardModel.setClickable, cardsFromConfigs, List.append_assoc,
      List.singleton_append, List.length_cons]
    congr 1
    push_cast
    ring

theorem generateReserveLoop_eq :
    ∀ (cfgs : List CardConfigData) (g : GameModel),
      generateReserveLoop g cfgs =
        { g with
          reserveCards :=
            g.reserveCards ++ cardsFromConfigs CardAreaType.RESERVE false g.nextCardId cfgs,
          nextCardId := g.nextCardId + cfgs.length } := by
  intro cfgs
  induction cfgs with
  | nil => intro g; simp [generateReserveLoop, cardsFromConfigs]
  | cons p ps ih =>
    intro g
    simp only [generateReserveLoop, ih, GameModel.getNextCardId, GameModel.addReserveCard,
      createCardModel, CardModel.create, CardModel.setPosition, CardModel.setArea,
      CardModel.setFaceUp, CardModel.setClickable, cardsFromConfigs, List.append_assoc,
      List.singleton_append, List.length_cons]
    congr 1
    push_cast
    ring

/-- A valid configuration has a first stack entry. -/
theorem isValid_stack_cons (cfg : LevelConfig) (h : cfg.isValid = true) :
    ∃ s₀ rest, cfg.stackCards = s₀ :: rest := by
  cases hs : cfg.stackCards with
  | nil => simp [LevelConfig.isValid, hs] at h
  | cons s₀ rest => exact ⟨s₀, rest, rfl⟩

/-- The output of `generate` on a valid configuration, in closed form. -/
theorem generate_of_valid (cfg : LevelConfig) (g₀ : GameModel) (s₀ : CardConfigData)
    (rest : List CardConfigData) (hvalid : cfg.isValid = true)
    (hstack : cfg.stackCards = s₀ :: rest) :
    generate cfg g₀ =
      (true,
        { playfieldCards :=
            (cardsFromConfigs CardAreaType.PLAYFIELD true 0 cfg.playfieldCards).map
              (fun c => c.setClickable
                (!isBlockedLoop c
                  (cardsFromConfigs CardAreaType.PLAYFIELD true 0 cfg.playfieldCards))),
          stackTopCard :=
            { cardId := cfg.playfieldCards.length, suit := s₀.suit, face := s₀.face,
              position := s₀.position, area := CardAreaType.STACK, isFaceUp := true,
              isClickable := false },
          reserveCards :=
            cardsFromConfigs CardAreaType.RESERVE false (cfg.playfieldCards.length + 1) rest,
          nextCardId := cfg.playfieldCards.length + 1 + rest.length }) := by
  simp only [generate, hvalid, Bool.not_true, Bool.false_eq_true, if_false, hstack,
    generatePlayfieldLoop_eq, generateReserveLoop_eq, GameModel.clear, GameModel.getNextCardId,
    GameModel.setStackTopCard, createCardModel, CardModel.create, CardModel.setPosition,
    CardModel.setArea, CardModel.setFaceUp, CardModel.setClickable, List.nil_append, zero_add,
    updatePlayfieldClickable]
  rw [updateClickableLoop_eq
    (cardsFromConfigs CardAreaType.PLAYFIELD true 0 cfg.playfieldCards) _ [] (by simp)]
  simp [CardModel.setClickable]

theorem allConcrete_iff (l : List CardConfigData) :
    LevelConfig.allConcrete l = true ↔
      ∀ p ∈ l, p.face ≠ CardFaceType.NONE ∧ p.suit ≠ CardSuitType.NONE := by
  induction l with
  | nil => simp [LevelConfig.allConcrete]
  | cons p ps ih =>
    simp only [LevelConfig.allConcrete, List.mem_cons, forall_eq_or_imp]
    by_cases h : p.face = CardFaceType.NONE ∨ p.suit = CardSuitType.NONE
    · simp only [h, if_true, Bool.false_eq_true, false_iff, not_and]
      intro hp
      rcases h with h | h
      · exact absurd h hp.1
      · exact absurd h hp.2
    · simp only [h, if_false, ih]
      push_neg at h
      simp [h]

theorem isValid_iff (cfg : LevelConfig) :
    cfg.isValid = true ↔
      cfg.playfieldCards ≠ [] ∧ cfg.stackCards ≠ [] ∧
        (∀ p ∈ cfg.playfieldCards, p.face ≠ CardFaceType.NONE ∧ p.suit ≠ CardSuitType.NONE) ∧
        (∀ p ∈ cfg.stackCards, p.face ≠ CardFaceType.NONE ∧ p.suit ≠ CardSuitType.NONE) := by
  rw [← allConcrete_iff, ← allConcrete_iff]
  unfold LevelConfig.isValid
  cases hp : cfg.playfieldCards with
  | nil => simp
  | cons a l =>
    cases hs : cfg.stackCards with
    | nil => simp
    | cons b l' =>
      cases h1 : LevelConfig.allConcrete (a :: l) <;>
        cases h2 : LevelConfig.allConcrete (b :: l') <;> simp

/-- The scan result does not depend on the clickable flag of the scanned card. -/
theorem isBlockedLoop_setClickable (c : CardModel) (b : Bool) (l : List CardModel) :
    isBlockedLoop (c.setClickable b) l = isBlockedLoop c l := by
  induction l with
  | nil => rfl
  | cons o rest ih =>
    simp only [isBlockedLoop, ih]
    rfl

/-- Scanning the recomputed playfield gives what scanning the original gave. -/
theorem isBlockedLoop_updated (g : GameModel) (c : CardModel) (b : Bool) :
    isBlockedLoop (c.setClickable b) (updatePlayfieldClickable g).playfieldCards =
      isBlockedLoop c g.playfieldCards := by
  rw [isBlockedLoop_setClickable]
  apply isBlockedLoop_congr
  rw [updatePlayfieldClickable_playfield, List.map_map]
  rfl

/-- Recomputing the clickable flags a second time changes nothing. -/
theorem updatePlayfieldClickable_idem (g : GameModel) :
    updatePlayfieldClickable (updatePlayfieldClickable g) = updatePlayfieldClickable g := by
  have h : (updatePlayfieldClickable (updatePlayfieldClickable g)).playfieldCards =
      (updatePlayfieldClickable g).playfieldCards := by
    rw [updatePlayfieldClickable_playfield (updatePlayfieldClickable g)]
    rw [updatePlayfieldClickable_playfield g, List.map_map]
    apply List.map_congr_left
    intro c _
    have := isBlockedLoop_updated g c (!isBlockedLoop c g.playfieldCards)
    rw [updatePlayfieldClickable_playfield g] at this
    simp only [Function.comp, this]
    rfl
  calc updatePlayfieldClickable (updatePlayfieldClickable g)
      = { updatePlayfieldClickable g with
          playfieldCards :=
            (updatePlayfieldClickable (updatePlayfieldClickable g)).playfieldCards } := rfl
    _ = updatePlayfieldClickable g := by rw [h]

/-- In a recomputed playfield a card is clickable exactly when no card of that
playfield passes the test of the occlusion scan against it. -/
theorem updated_clickable_iff (g : GameModel) :
    ∀ c ∈ (updatePlayfieldClickable g).playfieldCards,
      (c.isClickable = true ↔
        ¬ ∃ o ∈ (updatePlayfieldClickable g).playfieldCards, Blocks o c) := by
  intro c hc
  rw [← isBlockedLoop_iff]
  rw [updatePlayfieldClickable_playfield] at hc
  obtain ⟨c₀, _, rfl⟩ := List.mem_map.1 hc
  rw [isBlockedLoop_updated]
  simp [CardModel.setClickable]

/-! ## Auxiliary lemmas on the controller: closed forms of the handlers -/

/-- The three branches of a `switch` over an operation type. -/
theorem operationType_cases (t : CardOperationType) :
    t = CardOperationType.PLAYFIELD_TO_STACK ∨
    (t ≠ CardOperationType.PLAYFIELD_TO_STACK ∧ t = CardOperationType.RESERVE_TO_STACK) ∨
    (t ≠ CardOperationType.PLAYFIELD_TO_STACK ∧ t ≠ CardOperationType.RESERVE_TO_STACK) := by
  by_cases h1 : t = CardOperationType.PLAYFIELD_TO_STACK
  · exact Or.inl h1
  · by_cases h2 : t = CardOperationType.RESERVE_TO_STACK
    · exact Or.inr (Or.inl ⟨h1, h2⟩)
    · exact Or.inr (Or.inr ⟨h1, h2⟩)

@[simp]
theorem playfieldToStack_ne_none :
    CardOperationType.PLAYFIELD_TO_STACK ≠ CardOperationType.NONE := by decide

@[simp]
theorem none_ne_playfieldToStack :
    CardOperationType.NONE ≠ CardOperationType.PLAYFIELD_TO_STACK := by decide

@[simp]
theorem reserveToStack_ne_none :
    CardOperationType.RESERVE_TO_STACK ≠ CardOperationType.NONE := by decide

@[simp]
theorem none_ne_reserveToStack :
    CardOperationType.NONE ≠ CardOperationType.RESERVE_TO_STACK := by decide

@[simp]
theorem reserveToStack_ne_playfieldToStack :
    CardOperationType.RESERVE_TO_STACK ≠ CardOperationType.PLAYFIELD_TO_STACK := by decide

@[simp]
theorem playfieldToStack_ne_reserveToStack :
    CardOperationType.PLAYFIELD_TO_STACK ≠ CardOperationType.RESERVE_TO_STACK := by decide

/-- The state left by `executePlayfieldToStack` when the card is found. -/
theorem executePlayfieldToStack_eq (view : ViewMode) (viewTargetPos : Vec2) (cardId : Int)
    (s : GameController) (c : CardModel)
    (hfound : s.gameModel.getPlayfieldCardById cardId = some c) :
    s.executePlayfieldToStack view viewTargetPos cardId =
      { gameModel :=
          if view = ViewMode.callbackNow then
            updatePlayfieldClickable
              { s.gameModel with
                playfieldCards :=
                  s.gameModel.playfieldCards.eraseP (fun card => card.cardId == cardId),
                stackTopCard := { c with area := CardAreaType.STACK } }
          else
            { s.gameModel with
              playfieldCards :=
                s.gameModel.playfieldCards.eraseP (fun card => card.cardId == cardId),
              stackTopCard := { c with area := CardAreaType.STACK } },
        undoManager :=
          s.undoManager.recordPlayfieldToStack c s.gameModel.stackTopCard c.position
            viewTargetPos,
        isAnimating := decide (view = ViewMode.callbackLater) } := by
  have hany := (find_card_split cardId c s.gameModel.playfieldCards hfound).2.1
  cases view <;>
    simp [GameController.executePlayfieldToStack, hfound, GameModel.removePlayfieldCard, hany,
      GameModel.setStackTopCard, GameController.onPlayfieldToStackMoved, CardModel.setArea]

/-- A playfield click either leaves the controller as it was or runs
`executePlayfieldToStack` on a card that was found. -/
theorem handlePlayfieldCardClick_cases (view : ViewMode) (viewTargetPos : Vec2) (cardId : Int)
    (s : GameController) :
    s.handlePlayfieldCardClick view viewTargetPos cardId = (false, s) ∨
    ∃ c, s.gameModel.getPlayfieldCardById cardId = some c ∧ s.isAnimating = false ∧
      s.handlePlayfieldCardClick view viewTargetPos cardId =
        (true, s.executePlayfieldToStack view viewTargetPos cardId) := by
  unfold GameController.handlePlayfieldCardClick
  by_cases hanim : s.isAnimating = true
  · left; simp [hanim]
  · cases hfound : s.gameModel.getPlayfieldCardById cardId with
    | none => left; simp [hanim]
    | some c =>
      by_cases hclick : c.isClickable = true
      · by_cases hmatch : c.canMatchWith s.gameModel.stackTopCard = true
        · right
          exact ⟨c, rfl, by simpa using hanim, by simp [hanim, hclick, hmatch]⟩
        · left; simp [hanim, hclick, hmatch]
      · left; simp [hanim, hclick]

/-- The state left by `executeReserveDraw` when the reserve ends with `d`. -/
theorem executeReserveDraw_eq (view : ViewMode) (s : GameController) (front : List CardModel)
    (d : CardModel) (hres : s.gameModel.reserveCards = front ++ [d]) :
    s.executeReserveDraw view =
      { gameModel :=
          { s.gameModel with
            reserveCards := front,
            stackTopCard := { d with area := CardAreaType.STACK, isFaceUp := true } },
        undoManager := s.undoManager.recordReserveToStack d s.gameModel.stackTopCard,
        isAnimating := decide (view = ViewMode.callbackLater) } := by
  cases view <;>
    simp [GameController.executeReserveDraw, GameModel.drawReserveCard, hres,
      GameModel.setStackTopCard, CardModel.setArea, CardModel.setFaceUp,
      GameController.onReserveDrawn]

/-- A reserve click either leaves the controller as it was or runs
`executeReserveDraw` on a non-empty reserve. -/
theorem handleReserveClick_cases (view : ViewMode) (s : GameController) :
    s.handleReserveClick view = (false, s) ∨
    ∃ front d, s.gameModel.reserveCards = front ++ [d] ∧ s.isAnimating = false ∧
      s.handleReserveClick view = (true, s.executeReserveDraw view) := by
  unfold GameController.handleReserveClick
  by_cases hanim : s.isAnimating = true
  · left; simp [hanim]
  · by_cases hne : s.gameModel.reserveCards = []
    · left; simp [hanim, GameModel.isReserveEmpty, hne]
    · right
      refine ⟨s.gameModel.reserveCards.dropLast, s.gameModel.reserveCards.getLast hne,
        (List.dropLast_append_getLast hne).symm, by simpa using hanim, ?_⟩
      simp [hanim, GameModel.isReserveEmpty, hne]

/-- The result of `handleUndoClick` on an idle controller whose undo stack ends
with the record `r`. -/
theorem handleUndoClick_eq (view : ViewMode) (s : GameController) (u : List UndoModel)
    (r : UndoModel) (hidle : s.isAnimating = false)
    (hstack : s.undoManager.undoStack = u ++ [r]) :
    s.handleUndoClick view =
      if r.operationType = CardOperationType.PLAYFIELD_TO_STACK then
        (true,
          { gameModel :=
              if view = ViewMode.callbackNow then
                updatePlayfieldClickable (UndoManager.undoPlayfieldToStack s.gameModel r)
              else UndoManager.undoPlayfieldToStack s.gameModel r,
            undoManager := { undoStack := u },
            isAnimating := decide (view = ViewMode.callbackLater) })
      else if r.operationType = CardOperationType.RESERVE_TO_STACK then
        (true,
          { gameModel := UndoManager.undoReserveToStack s.gameModel r,
            undoManager := { undoStack := u },
            isAnimating := decide (view = ViewMode.callbackLater) })
      else
        (false,
          { gameModel := s.gameModel, undoManager := { undoStack := u },
            isAnimating := false }) := by
  have hcan : s.undoManager.canUndo = true := by simp [UndoManager.canUndo, hstack]
  by_cases h1 : r.operationType = CardOperationType.PLAYFIELD_TO_STACK
  · cases view <;>
      simp [GameController.handleUndoClick, hidle, hcan, UndoManager.undo, hstack, h1,
        GameController.onUndoExecuted, GameController.onUndoToPlayfieldMoved,
        GameController.onUndoToReserveMoved]
  · by_cases h2 : r.operationType = CardOperationType.RESERVE_TO_STACK
    · cases view <;>
        simp [GameController.handleUndoClick, hidle, hcan, UndoManager.undo, hstack, h1, h2,
          GameController.onUndoExecuted, GameController.onUndoToPlayfieldMoved,
          GameController.onUndoToReserveMoved]
    · cases view <;>
        simp [GameController.handleUndoClick, hidle, hcan, UndoManager.undo, hstack, h1, h2,
          GameController.onUndoExecuted, GameController.onUndoToPlayfieldMoved,
          GameController.onUndoToReserveMoved]

/-- An undo click either leaves the controller as it was or pops the last
record of a non-empty undo stack on an idle controller. -/
theorem handleUndoClick_cases (view : ViewMode) (s : GameController) :
    s.handleUndoClick view = (false, s) ∨
    ∃ u r, s.undoManager.undoStack = u ++ [r] ∧ s.isAnimating = false := by
  by_cases hanim : s.isAnimating = true
  · left; simp [GameController.handleUndoClick, hanim]
  · by_cases hne : s.undoManager.undoStack = []
    · left; simp [GameController.handleUndoClick, hanim, UndoManager.canUndo, hne]
    · right
      exact ⟨s.undoManager.undoStack.dropLast, s.undoManager.undoStack.getLast hne,
        (List.dropLast_append_getLast hne).symm, by simpa using hanim⟩

/-- A record for a concrete operation on a card with a non-negative id is
appended to the log. -/
theorem recordAction_of_valid (m : UndoManager) (u : UndoModel)
    (htype : u.operationType ≠ CardOperationType.NONE) (hid : 0 ≤ u.movedCard.cardId) :
    m.recordAction u = { undoStack := m.undoStack ++ [u] } := by
  have : ¬ u.movedCard.cardId < 0 := by omega
  simp [UndoManager.recordAction, UndoModel.isValid, htype, this]

/-- The result of a completed match on an idle controller. -/
theorem attemptMatch_eq (view : ViewMode) (viewTargetPos : Vec2) (cardId : Int)
    (s : GameController) (c : CardModel) (hidle : s.isAnimating = false)
    (hfound : s.gameModel.getPlayfieldCardById cardId = some c)
    (hclick : c.isClickable = true)
    (hmatch : canMatch c.face s.gameModel.stackTopCard.face = true) :
    s.attemptMatch view viewTargetPos cardId =
      (true,
        { gameModel :=
            if view = ViewMode.detached then
              { s.gameModel with
                playfieldCards :=
                  s.gameModel.playfieldCards.eraseP (fun card => card.cardId == cardId),
                stackTopCard := { c with area := CardAreaType.STACK } }
            else
              updatePlayfieldClickable
                { s.gameModel with
                  playfieldCards :=
                    s.gameModel.playfieldCards.eraseP (fun card => card.cardId == cardId),
                  stackTopCard := { c with area := CardAreaType.STACK } },
          undoManager :=
            s.undoManager.recordPlayfieldToStack c s.gameModel.stackTopCard c.position
              viewTargetPos,
          isAnimating := false }) := by
  have hrun : s.handlePlayfieldCardClick view viewTargetPos cardId =
      (true, s.executePlayfieldToStack view viewTargetPos cardId) := by
    simp [GameController.handlePlayfieldCardClick, hidle, hfound, hclick,
      CardModel.canMatchWith, hmatch]
  simp only [GameController.attemptMatch, hrun,
    executePlayfieldToStack_eq view viewTargetPos cardId s c hfound]
  cases view <;> simp [GameController.onPlayfieldToStackMoved]

/-- The result of a completed draw on an idle controller whose reserve ends
with `d`. -/
theorem drawReserve_eq (view : ViewMode) (s : GameController) (front : List CardModel)
    (d : CardModel) (hidle : s.isAnimating = false)
    (hres : s.gameModel.reserveCards = front ++ [d]) :
    s.drawReserve view =
      (true,
        { gameModel :=
            { s.gameModel with
              reserveCards := front,
              stackTopCard := { d with area := CardAreaType.STACK, isFaceUp := true } },
          undoManager := s.undoManager.recordReserveToStack d s.gameModel.stackTopCard,
          isAnimating := false }) := by
  have hrun : s.handleReserveClick view = (true, s.executeReserveDraw view) := by
    simp [GameController.handleReserveClick, hidle, GameModel.isReserveEmpty, hres]
  simp only [GameController.drawReserve, hrun, executeReserveDraw_eq view s front d hres]
  cases view <;> simp [GameController.onReserveDrawn]

/-- The result of a completed undo on an idle controller whose undo stack ends
with the record `r`. -/
theorem undo_eq (view : ViewMode) (s : GameController) (u : List UndoModel)
    (r : UndoModel) (hidle : s.isAnimating = false)
    (hstack : s.undoManager.undoStack = u ++ [r]) :
    s.undo view =
      if r.operationType = CardOperationType.PLAYFIELD_TO_STACK then
        (true,
          { gameModel :=
              if view = ViewMode.detached then
                UndoManager.undoPlayfieldToStack s.gameModel r
              else updatePlayfieldClickable (UndoManager.undoPlayfieldToStack s.gameModel r),
            undoManager := { undoStack := u },
            isAnimating := false })
      else if r.operationType = CardOperationType.RESERVE_TO_STACK then
        (true,
          { gameModel := UndoManager.undoReserveToStack s.gameModel r,
            undoManager := { undoStack := u },
            isAnimating := false })
      else
        (false,
          { gameModel := s.gameModel, undoManager := { undoStack := u },
            isAnimating := false }) := by
  simp only [GameController.undo, handleUndoClick_eq view s u r hidle hstack, hstack]
  by_cases h1 : r.operationType = CardOperationType.PLAYFIELD_TO_STACK
  · cases view <;>
      simp [h1, GameController.onUndoToPlayfieldMoved, GameController.onUndoToReserveMoved]
  · by_cases h2 : r.operationType = CardOperationType.RESERVE_TO_STACK
    · cases view <;>
        simp [h1, h2, GameController.onUndoToPlayfieldMoved,
          GameController.onUndoToReserveMoved]
    · cases view <;>
        simp [h1, h2, GameController.onUndoToPlayfieldMoved,
          GameController.onUndoToReserveMoved]

/-- The clickable recomputation keeps every playfield card up to its flag. -/
theorem updatePlayfieldClickable_withoutFlag (g : GameModel) :
    (updatePlayfieldClickable g).playfieldCards.map CardModel.withoutFlag =
      g.playfieldCards.map CardModel.withoutFlag := by
  rw [updatePlayfieldClickable_playfield, List.map_map]
  apply List.map_congr_left
  intro c _
  rfl

theorem updatePlayfieldClickable_stackTopCard (g : GameModel) :
    (updatePlayfieldClickable g).stackTopCard = g.stackTopCard := rfl

theorem updatePlayfieldClickable_reserveCards (g : GameModel) :
    (updatePlayfieldClickable g).reserveCards = g.reserveCards := rfl

theorem updatePlayfieldClickable_nextCardId (g : GameModel) :
    (updatePlayfieldClickable g).nextCardId = g.nextCardId := rfl

/-- The state reached by a completed match followed by a completed undo, for a
card with a non-negative id. -/
theorem matchThenUndo_eq (view₁ view₂ : ViewMode) (viewTargetPos : Vec2) (cardId : Int)
    (g : GameModel) (u : UndoManager) (c : CardModel)
    (hfound : g.getPlayfieldCardById cardId = some c) (hclick : c.isClickable = true)
    (hmatch : canMatch c.face g.stackTopCard.face = true) (hid : 0 ≤ cardId) :
    (matchThenUndo view₁ view₂ viewTargetPos cardId ⟨g, u, false⟩).1 = true ∧
    (matchThenUndo view₁ view₂ viewTargetPos cardId ⟨g, u, false⟩).2.gameModel.stackTopCard =
      { g.stackTopCard with area := CardAreaType.STACK } ∧
    (matchThenUndo view₁ view₂ viewTargetPos cardId ⟨g, u, false⟩).2.gameModel.reserveCards =
      g.reserveCards ∧
    (matchThenUndo view₁ view₂ viewTargetPos cardId ⟨g, u, false⟩).2.gameModel.nextCardId =
      g.nextCardId ∧
    (matchThenUndo view₁ view₂ viewTargetPos cardId ⟨g, u, false⟩).2.undoManager = u ∧
    (matchThenUndo view₁ view₂ viewTargetPos cardId ⟨g, u, false⟩).2.isAnimating = false ∧
    (matchThenUndo view₁ view₂ viewTargetPos cardId
        ⟨g, u, false⟩).2.gameModel.playfieldCards.map CardModel.withoutFlag =
      (g.playfieldCards.eraseP (fun card : CardModel => card.cardId == cardId) ++
        [{ c with area := CardAreaType.PLAYFIELD, isFaceUp := true }]).map
        CardModel.withoutFlag := by
  have hcid : c.cardId = cardId := (find_card_split cardId c g.playfieldCards hfound).1
  have hrec : ∀ tp : Vec2,
      u.recordPlayfieldToStack c g.stackTopCard c.position tp =
        { undoStack := u.undoStack ++
          [{ operationType := CardOperationType.PLAYFIELD_TO_STACK, movedCard := c,
             previousStackTopCard := g.stackTopCard, originalPosition := c.position,
             targetPosition := tp }] } := by
    intro tp
    simp only [UndoManager.recordPlayfieldToStack]
    rw [recordAction_of_valid _ _ (by simp [UndoModel.create]) (by simpa [hcid] using hid)]
    simp [UndoModel.create]
  simp only [matchThenUndo]
  rw [attemptMatch_eq view₁ viewTargetPos cardId ⟨g, u, false⟩ c rfl hfound hclick hmatch]
  simp only [hrec]
  rw [undo_eq view₂ _ u.undoStack _ rfl rfl]
  simp only
  cases view₁ <;> cases view₂ <;>
    simp [UndoManager.undoPlayfieldToStack, GameModel.addPlayfieldCard, GameModel.setStackTopCard,
      CardModel.setArea, CardModel.setPosition, CardModel.setFaceUp, CardModel.setClickable,
      updatePlayfieldClickable_stackTopCard, updatePlayfieldClickable_reserveCards,
      updatePlayfieldClickable_nextCardId, updatePlayfieldClickable_withoutFlag,
      CardModel.withoutFlag]

/-- The state reached by a completed draw followed by a completed undo, when the
drawn card has a non-negative id. -/
theorem drawThenUndo_eq (view₁ view₂ : ViewMode) (g : GameModel) (u : UndoManager)
    (front : List CardModel) (d : CardModel) (hres : g.reserveCards = front ++ [d])
    (hid : 0 ≤ d.cardId) :
    drawThenUndo view₁ view₂ ⟨g, u, false⟩ =
      (true,
        { gameModel :=
            { playfieldCards := g.playfieldCards,
              stackTopCard := { g.stackTopCard with area := CardAreaType.STACK },
              reserveCards :=
                front ++
                  [{ d with area := CardAreaType.RESERVE, isFaceUp := false,
                            isClickable := false }],
              nextCardId := g.nextCardId },
          undoManager := u, isAnimating := false }) := by
  have hrec : u.recordReserveToStack d g.stackTopCard =
      { undoStack := u.undoStack ++
        [{ operationType := CardOperationType.RESERVE_TO_STACK, movedCard := d,
           previousStackTopCard := g.stackTopCard, originalPosition := Vec2.ZERO,
           targetPosition := Vec2.ZERO }] } := by
    simp only [UndoManager.recordReserveToStack]
    rw [recordAction_of_valid _ _ (by simp [UndoModel.create]) (by simpa using hid)]
    simp [UndoModel.create]
  simp only [drawThenUndo]
  rw [drawReserve_eq view₁ ⟨g, u, false⟩ front d rfl hres]
  simp only [hrec]
  rw [undo_eq view₂ _ u.undoStack _ rfl rfl]
  simp [UndoManager.undoReserveToStack, GameModel.pushReserveCard, GameModel.setStackTopCard,
    CardModel.setArea, CardModel.setFaceUp, CardModel.setClickable]

/-! ## Auxiliary lemmas on the invariant of reachable states -/

theorem idBag_update (g : GameModel) (u : List UndoModel) :
    idBag (updatePlayfieldClickable g) u = idBag g u := by
  have h : (updatePlayfieldClickable g).playfieldCards.map (fun c => c.cardId) =
      g.playfieldCards.map (fun c => c.cardId) := by
    rw [updatePlayfieldClickable_playfield, List.map_map]
    rfl
  simp only [idBag, h, updatePlayfieldClickable_stackTopCard,
    updatePlayfieldClickable_reserveCards]

/-- The clickable recomputation preserves the invariant. -/
theorem wellFormed_update (g : GameModel) (u : List UndoModel) (h : WellFormed g u) :
    WellFormed (updatePlayfieldClickable g) u where
  playfield := by
    intro c hc
    rw [updatePlayfieldClickable_playfield] at hc
    obtain ⟨c₀, hc₀, rfl⟩ := List.mem_map.1 hc
    exact h.playfield c₀ hc₀
  stackTop := h.stackTop
  reserve := h.reserve
  records := h.records
  nodup := by rw [idBag_update]; exact h.nodup
  nonneg := by rw [idBag_update]; exact h.nonneg
  chain := h.chain

/-- A card of the playfield has its id in the bag. -/
theorem mem_idBag_of_playfield (g : GameModel) (u : List UndoModel) (c : CardModel)
    (hc : c ∈ g.playfieldCards) : c.cardId ∈ idBag g u := by
  simp only [idBag, Multiset.mem_add, Multiset.mem_coe, List.mem_map, Multiset.mem_singleton]
  exact Or.inl (Or.inl (Or.inl ⟨c, hc, rfl⟩))

/-- A card of the reserve has its id in the bag. -/
theorem mem_idBag_of_reserve (g : GameModel) (u : List UndoModel) (c : CardModel)
    (hc : c ∈ g.reserveCards) : c.cardId ∈ idBag g u := by
  simp only [idBag, Multiset.mem_add, Multiset.mem_coe, List.mem_map, Multiset.mem_singleton]
  exact Or.inl (Or.inr ⟨c, hc, rfl⟩)

/-- Moving a found playfield card to the stack and logging the move preserves
the invariant. -/
theorem wellFormed_match (g : GameModel) (u : List UndoModel) (cardId : Int) (c : CardModel)
    (targetPos : Vec2) (h : WellFormed g u)
    (hfound : g.getPlayfieldCardById cardId = some c) :
    WellFormed
      { g with
        playfieldCards := g.playfieldCards.eraseP (fun card => card.cardId == cardId),
        stackTopCard := { c with area := CardAreaType.STACK } }
      (u ++ [{ operationType := CardOperationType.PLAYFIELD_TO_STACK, movedCard := c,
               previousStackTopCard := g.stackTopCard, originalPosition := c.position,
               targetPosition := targetPos }]) := by
  obtain ⟨_, _, l₁, l₂, hsplit, _, herase⟩ := find_card_split cardId c g.playfieldCards hfound
  have hcmem : c ∈ g.playfieldCards := by rw [hsplit]; simp
  have hbag : idBag
      { g with
        playfieldCards := g.playfieldCards.eraseP (fun card => card.cardId == cardId),
        stackTopCard := { c with area := CardAreaType.STACK } }
      (u ++ [{ operationType := CardOperationType.PLAYFIELD_TO_STACK, movedCard := c,
               previousStackTopCard := g.stackTopCard, originalPosition := c.position,
               targetPosition := targetPos }]) = idBag g u := by
    simp only [idBag, herase]
    rw [hsplit]
    simp only [List.map_append, List.map_cons, List.map_nil, ← Multiset.coe_add,
      ← Multiset.cons_coe, ← Multiset.singleton_add, Multiset.coe_nil, add_zero]
    abel
  refine ⟨?_, ⟨rfl, (h.playfield c hcmem).2⟩, h.reserve, ?_, ?_, ?_, ?_⟩
  · intro x hx
    exact h.playfield x (List.mem_of_mem_eraseP hx)
  · intro r hr
    rcases List.mem_append.1 hr with hr | hr
    · exact h.records r hr
    · rw [List.mem_singleton] at hr
      subst hr
      exact ⟨by simp, h.stackTop.2⟩
  · rw [hbag]; exact h.nodup
  · rw [hbag]; exact h.nonneg
  · simp only [List.reverse_append, List.reverse_cons, List.reverse_nil, List.nil_append,
      List.singleton_append, chainFrom]
    exact ⟨trivial, h.chain⟩

/-- Drawing the last reserve card onto the stack and logging the draw preserves
the invariant. -/
theorem wellFormed_draw (g : GameModel) (u : List UndoModel) (front : List CardModel)
    (d : CardModel) (h : WellFormed g u) (hres : g.reserveCards = front ++ [d]) :
    WellFormed
      { g with
        reserveCards := front,
        stackTopCard := { d with area := CardAreaType.STACK, isFaceUp := true } }
      (u ++ [{ operationType := CardOperationType.RESERVE_TO_STACK, movedCard := d,
               previousStackTopCard := g.stackTopCard, originalPosition := Vec2.ZERO,
               targetPosition := Vec2.ZERO }]) := by
  have hbag : idBag
      { g with
        reserveCards := front,
        stackTopCard := { d with area := CardAreaType.STACK, isFaceUp := true } }
      (u ++ [{ operationType := CardOperationType.RESERVE_TO_STACK, movedCard := d,
               previousStackTopCard := g.stackTopCard, originalPosition := Vec2.ZERO,
               targetPosition := Vec2.ZERO }]) = idBag g u := by
    simp only [idBag]
    rw [hres]
    simp only [List.map_append, List.map_cons, List.map_nil, ← Multiset.coe_add,
      ← Multiset.cons_coe, ← Multiset.singleton_add, Multiset.coe_nil, add_zero]
    abel
  refine ⟨h.playfield, ⟨rfl, rfl⟩, ?_, ?_, ?_, ?_, ?_⟩
  · intro x hx
    exact h.reserve x (by rw [hres]; exact List.mem_append_left _ hx)
  · intro r hr
    rcases List.mem_append.1 hr with hr | hr
    · exact h.records r hr
    · rw [List.mem_singleton] at hr
      subst hr
      exact ⟨by simp, h.stackTop.2⟩
  · rw [hbag]; exact h.nodup
  · rw [hbag]; exact h.nonneg
  · simp only [List.reverse_append, List.reverse_cons, List.reverse_nil, List.nil_append,
      List.singleton_append, chainFrom]
    exact ⟨trivial, h.chain⟩

/-- Undoing the newest record, a playfield-to-stack move, preserves the
invariant. -/
theorem wellFormed_undoPlayfieldToStack (g : GameModel) (u : List UndoModel) (r : UndoModel)
    (h : WellFormed g (u ++ [r])) :
    WellFormed (UndoManager.undoPlayfieldToStack g r) u := by
  have hchain : r.movedCard.cardId = g.stackTopCard.cardId ∧
      chainFrom r.previousStackTopCard.cardId u.reverse := by
    have := h.chain
    simpa only [List.reverse_append, List.reverse_cons, List.reverse_nil, List.nil_append,
      List.singleton_append, chainFrom] using this
  have hbag : idBag (UndoManager.undoPlayfieldToStack g r) u = idBag g (u ++ [r]) := by
    simp only [idBag, UndoManager.undoPlayfieldToStack, GameModel.addPlayfieldCard,
      GameModel.setStackTopCard, CardModel.setArea, CardModel.setPosition, CardModel.setFaceUp,
      CardModel.setClickable, hchain.1, List.map_append, List.map_cons, List.map_nil,
      ← Multiset.coe_add, ← Multiset.cons_coe, ← Multiset.singleton_add, Multiset.coe_nil,
      add_zero]
    abel
  refine ⟨?_, ⟨rfl, (h.records r (by simp)).2⟩, h.reserve, ?_, ?_, ?_, hchain.2⟩
  · intro x hx
    simp only [UndoManager.undoPlayfieldToStack, GameModel.addPlayfieldCard,
      GameModel.setStackTopCard, List.mem_append, List.mem_singleton] at hx
    rcases hx with hx | rfl
    · exact h.playfield x hx
    · exact ⟨rfl, rfl⟩
  · intro x hx
    exact h.records x (List.mem_append_left _ hx)
  · rw [hbag]; exact h.nodup
  · rw [hbag]; exact h.nonneg

/-- Undoing the newest record, a reserve draw, preserves the invariant. -/
theorem wellFormed_undoReserveToStack (g : GameModel) (u : List UndoModel) (r : UndoModel)
    (h : WellFormed g (u ++ [r])) :
    WellFormed (UndoManager.undoReserveToStack g r) u := by
  have hchain : r.movedCard.cardId = g.stackTopCard.cardId ∧
      chainFrom r.previousStackTopCard.cardId u.reverse := by
    have := h.chain
    simpa only [List.reverse_append, List.reverse_cons, List.reverse_nil, List.nil_append,
      List.singleton_append, chainFrom] using this
  have hbag : idBag (UndoManager.undoReserveToStack g r) u = idBag g (u ++ [r]) := by
    simp only [idBag, UndoManager.undoReserveToStack, GameModel.pushReserveCard,
      GameModel.setStackTopCard, CardModel.setArea, CardModel.setFaceUp,
      CardModel.setClickable, hchain.1, List.map_append, List.map_cons, List.map_nil,
      ← Multiset.coe_add, ← Multiset.cons_coe, ← Multiset.singleton_add, Multiset.coe_nil,
      add_zero]
    abel
  refine ⟨h.playfield, ⟨rfl, (h.records r (by simp)).2⟩, ?_, ?_, ?_, ?_, hchain.2⟩
  · intro x hx
    simp only [UndoManager.undoReserveToStack, GameModel.pushReserveCard,
      GameModel.setStackTopCard, List.mem_append, List.mem_singleton] at hx
    rcases hx with hx | rfl
    · exact h.reserve x hx
    · exact ⟨rfl, rfl⟩
  · intro x hx
    exact h.records x (List.mem_append_left _ hx)
  · rw [hbag]; exact h.nodup
  · rw [hbag]; exact h.nonneg

/-- The output of a successful `generate`, with an empty log, satisfies the
invariant. -/
theorem wellFormed_start (cfg : LevelConfig) (g₀ : GameModel)
    (hgen : (generate cfg g₀).1 = true) : WellFormed (generate cfg g₀).2 [] := by
  have hvalid : cfg.isValid = true := by
    cases hv : cfg.isValid with
    | true => rfl
    | false => simp [generate, hv] at hgen
  obtain ⟨s₀, rest, hstack⟩ := isValid_stack_cons cfg hvalid
  rw [generate_of_valid cfg g₀ s₀ rest hvalid hstack]
  have hpfids :
      ((cardsFromConfigs CardAreaType.PLAYFIELD true 0 cfg.playfieldCards).map
        (fun c => c.setClickable
          (!isBlockedLoop c
            (cardsFromConfigs CardAreaType.PLAYFIELD true 0 cfg.playfieldCards)))).map
        (fun c => c.cardId) =
      (cardsFromConfigs CardAreaType.PLAYFIELD true 0 cfg.playfieldCards).map
        (fun c => c.cardId) := by
    rw [List.map_map]
    rfl
  have hbag : idBag
      { playfieldCards :=
          (cardsFromConfigs CardAreaType.PLAYFIELD true 0 cfg.playfieldCards).map
            (fun c => c.setClickable
              (!isBlockedLoop c
                (cardsFromConfigs CardAreaType.PLAYFIELD true 0 cfg.playfieldCards))),
        stackTopCard :=
          { cardId := cfg.playfieldCards.length, suit := s₀.suit, face := s₀.face,
            position := s₀.position, area := CardAreaType.STACK, isFaceUp := true,
            isClickable := false },
        reserveCards :=
          cardsFromConfigs CardAreaType.RESERVE false (cfg.playfieldCards.length + 1) rest,
        nextCardId := cfg.playfieldCards.length + 1 + rest.length } [] =
      (((cardsFromConfigs CardAreaType.PLAYFIELD true 0 cfg.playfieldCards).map
          (fun c => c.cardId) ++
        (cfg.playfieldCards.length : Int) ::
          (cardsFromConfigs CardAreaType.RESERVE false (cfg.playfieldCards.length + 1) rest).map
            (fun c => c.cardId) : List Int) : Multiset Int) := by
    simp only [idBag, hpfids, List.map_nil, ← Multiset.coe_add, ← Multiset.cons_coe,
      ← Multiset.singleton_add, Multiset.coe_nil, add_zero]
    abel
  have hlow : ∀ i : Int,
      i ∈ (cardsFromConfigs CardAreaType.PLAYFIELD true 0 cfg.playfieldCards).map
        (fun c : CardModel => c.cardId) → 0 ≤ i ∧ i < (cfg.playfieldCards.length : Int) := by
    intro i hi
    obtain ⟨c, hc, rfl⟩ := List.mem_map.1 hi
    have := cardsFromConfigs_mem _ _ _ _ c hc
    exact ⟨this.2.2.2.1, by simpa using this.2.2.2.2⟩
  have hhigh : ∀ i : Int,
      i ∈ (cardsFromConfigs CardAreaType.RESERVE false
        (cfg.playfieldCards.length + 1) rest).map (fun c : CardModel => c.cardId) →
      (cfg.playfieldCards.length : Int) + 1 ≤ i := by
    intro i hi
    obtain ⟨c, hc, rfl⟩ := List.mem_map.1 hi
    exact (cardsFromConfigs_mem _ _ _ _ c hc).2.2.2.1
  refine ⟨?_, ⟨rfl, rfl⟩, ?_, ?_, ?_, ?_, trivial⟩
  · intro c hc
    obtain ⟨c₀, hc₀, rfl⟩ := List.mem_map.1 hc
    have := cardsFromConfigs_mem _ _ _ _ c₀ hc₀
    exact ⟨this.1, this.2.1⟩
  · intro c hc
    have := cardsFromConfigs_mem _ _ _ _ c hc
    exact ⟨this.1, this.2.1⟩
  · intro r hr
    simp at hr
  · rw [hbag, Multiset.coe_nodup, List.nodup_append]
    refine ⟨cardsFromConfigs_ids_nodup _ _ _ _, ?_, ?_⟩
    · rw [List.nodup_cons]
      refine ⟨?_, cardsFromConfigs_ids_nodup _ _ _ _⟩
      intro hmem
      have := hhigh _ hmem
      omega
    · intro i hi hi'
      have h1 := hlow i hi
      rcases List.mem_cons.1 hi' with h2 | h2
      · omega
      · have := hhigh i h2
        omega
  · intro i hi
    rw [hbag, Multiset.mem_coe, List.mem_append, List.mem_cons] at hi
    rcases hi with hi | hi | hi
    · exact (hlow i hi).1
    · omega
    · have := hhigh i hi
      omega

/-- Under the invariant the ids of the playfield cards, of the stack-top and of
the reserve cards are pairwise different. -/
theorem wellFormed_ids_nodup (g : GameModel) (u : List UndoModel) (h : WellFormed g u) :
    (g.playfieldCards.map (fun c => c.cardId) ++
      g.stackTopCard.cardId :: g.reserveCards.map (fun c => c.cardId)).Nodup := by
  have hle :
      ((g.playfieldCards.map (fun c => c.cardId) ++
        g.stackTopCard.cardId :: g.reserveCards.map (fun c => c.cardId) : List Int) :
          Multiset Int) ≤ idBag g u := by
    have heq :
        ((g.playfieldCards.map (fun c => c.cardId) ++
          g.stackTopCard.cardId :: g.reserveCards.map (fun c => c.cardId) : List Int) :
            Multiset Int) =
        (g.playfieldCards.map (fun c => c.cardId) : Multiset Int) +
          {g.stackTopCard.cardId} +
          (g.reserveCards.map (fun c => c.cardId) : Multiset Int) := by
      simp only [← Multiset.coe_add, ← Multiset.cons_coe, ← Multiset.singleton_add]
      abel
    rw [heq]
    exact Multiset.le_add_right _ _
  exact Multiset.coe_nodup.1 (Multiset.nodup_of_le hle h.nodup)

/-- Under the invariant no playfield or reserve card carries the id of the
stack-top. -/
theorem wellFormed_top_fresh (g : GameModel) (u : List UndoModel) (h : WellFormed g u) :
    ∀ x ∈ g.playfieldCards ++ g.reserveCards, x.cardId ≠ g.stackTopCard.cardId := by
  have hnd := wellFormed_ids_nodup g u h
  rw [List.nodup_append] at hnd
  obtain ⟨_, hcons, hdisj⟩ := hnd
  rw [List.nodup_cons] at hcons
  intro x hx heq
  rcases List.mem_append.1 hx with hx | hx
  · exact hdisj (List.mem_map.2 ⟨x, hx, rfl⟩) (by rw [heq]; exact List.mem_cons_self _ _)
  · exact hcons.1 (by rw [← heq]; exact List.mem_map.2 ⟨x, hx, rfl⟩)

/-- Every reachable state satisfies the invariant. -/
theorem reachable_wellFormed (s : GameController) (h : Reachable s) :
    WellFormed s.gameModel s.undoManager.undoStack := by
  induction h with
  | start cfg g₀ animating hgen => exact wellFormed_start cfg g₀ hgen
  | playfieldClick view viewTargetPos cardId s _ ih =>
    rcases handlePlayfieldCardClick_cases view viewTargetPos cardId s with h | ⟨c, hfound, _, h⟩
    · rw [h]; exact ih
    · rw [h, executePlayfieldToStack_eq view viewTargetPos cardId s c hfound]
      have hcmem : c ∈ s.gameModel.playfieldCards := by
        obtain ⟨_, _, l₁, l₂, hsplit, _, _⟩ :=
          find_card_split cardId c s.gameModel.playfieldCards hfound
        rw [hsplit]; simp
      have hid : 0 ≤ c.cardId := ih.nonneg _ (mem_idBag_of_playfield _ _ c hcmem)
      simp only [UndoManager.recordPlayfieldToStack]
      rw [recordAction_of_valid _ _ (by simp [UndoModel.create]) (by simpa using hid)]
      have hwf := wellFormed_match s.gameModel s.undoManager.undoStack cardId c
        viewTargetPos ih hfound
      by_cases hv : view = ViewMode.callbackNow
      · simp only [hv, if_true]
        exact wellFormed_update _ _ (by simpa [UndoModel.create, hv] using hwf)
      · simp only [hv, if_false]
        simpa [UndoModel.create] using hwf
  | reserveClick view s _ ih =>
    rcases handleReserveClick_cases view s with h | ⟨front, d, hres, _, h⟩
    · rw [h]; exact ih
    · rw [h, executeReserveDraw_eq view s front d hres]
      have hdmem : d ∈ s.gameModel.reserveCards := by rw [hres]; simp
      have hid : 0 ≤ d.cardId := ih.nonneg _ (mem_idBag_of_reserve _ _ d hdmem)
      simp only [UndoManager.recordReserveToStack]
      rw [recordAction_of_valid _ _ (by simp [UndoModel.create]) (by simpa using hid)]
      have hwf := wellFormed_draw s.gameModel s.undoManager.undoStack front d ih hres
      simpa [UndoModel.create] using hwf
  | undoClick view s _ ih =>
    rcases handleUndoClick_cases view s with h | ⟨u, r, hstack, hidle⟩
    · rw [h]; exact ih
    · rw [handleUndoClick_eq view s u r hidle hstack]
      rw [hstack] at ih
      rcases (ih.records r (by simp)).1 with hop | hop
      · rw [if_pos hop]
        by_cases hv : view = ViewMode.callbackNow
        · simp only [hv, if_true]
          exact wellFormed_update _ _ (wellFormed_undoPlayfieldToStack _ u r ih)
        · simp only [hv, if_false]
          exact wellFormed_undoPlayfieldToStack _ u r ih
      · rw [if_neg (by rw [hop]; simp), if_pos hop]
        exact wellFormed_undoReserveToStack _ u r ih
  | playfieldToStackMoved s _ ih => exact wellFormed_update _ _ ih
  | reserveDrawn s _ ih => exact ih
  | undoToPlayfieldMoved s _ ih => exact wellFormed_update _ _ ih
  | undoToReserveMoved s _ ih => exact ih

/-! ## Auxiliary lemmas: minimal cards and removal -/

/-- A non-empty list of cards has a card of minimal y. -/
theorem exists_min_y :
    ∀ l : List CardModel, l ≠ [] → ∃ c ∈ l, ∀ o ∈ l, c.position.y ≤ o.position.y := by
  intro l
  induction l with
  | nil => intro h; exact absurd rfl h
  | cons a l ih =>
    intro _
    by_cases hl : l = []
    · subst hl
      exact ⟨a, by simp, by simp⟩
    · obtain ⟨m, hm, hmin⟩ := ih hl
      by_cases ham : a.position.y ≤ m.position.y
      · refine ⟨a, by simp, ?_⟩
        intro o ho
        rcases List.mem_cons.1 ho with rfl | ho
        · exact le_refl _
        · exact le_trans ham (hmin o ho)
      · refine ⟨m, List.mem_cons_of_mem _ hm, ?_⟩
        intro o ho
        rcases List.mem_cons.1 ho with rfl | ho
        · omega
        · exact hmin o ho

/-- A card of minimal y is not blocked. -/
theorem isBlockedLoop_of_minimal (c : CardModel) (l : List CardModel)
    (hmin : ∀ o ∈ l, c.position.y ≤ o.position.y) : isBlockedLoop c l = false := by
  rw [Bool.eq_false_iff]
  intro h
  obtain ⟨o, ho, hocc⟩ := (isBlockedLoop_iff c l).1 h
  have h1 := hmin o ho
  have h2 := hocc.2.1
  omega

/-- The scan result depends on the scanned card through its id and position
only. -/
theorem isBlockedLoop_of_same_geom (c c₀ : CardModel) (l : List CardModel)
    (hid : c.cardId = c₀.cardId) (hpos : c.position = c₀.position) :
    isBlockedLoop c l = isBlockedLoop c₀ l := by
  induction l with
  | nil => rfl
  | cons o rest ih => simp only [isBlockedLoop, isCardOverlapping, hid, hpos, ih]

/-- A card not blocked in a playfield is not blocked in a part of it. -/
theorem isBlockedLoop_of_subset (c : CardModel) (l l' : List CardModel)
    (hsub : ∀ o ∈ l', o ∈ l) (h : isBlockedLoop c l = false) : isBlockedLoop c l' = false := by
  rw [Bool.eq_false_iff] at h ⊢
  intro h'
  obtain ⟨o, ho, hocc⟩ := (isBlockedLoop_iff c l').1 h'
  exact h ((isBlockedLoop_iff c l).2 ⟨o, hsub o ho, hocc⟩)

/-! ## Auxiliary lemmas on the operation log -/

/-- What `isValid` says about a record. -/
theorem isValid_iff_concrete (r : UndoModel) :
    r.isValid = true ↔
      r.operationType ≠ CardOperationType.NONE ∧ 0 ≤ r.movedCard.cardId := by
  unfold UndoModel.isValid
  by_cases hop : r.operationType = CardOperationType.NONE <;>
    by_cases hid : r.movedCard.cardId < 0 <;> simp [hop, hid] <;> omega

/-- The records of the log after `recordAction` are the old ones and, when it is
valid, the new one. -/
theorem recordAction_valid (m : UndoManager) (u : UndoModel)
    (h : ∀ r ∈ m.undoStack, r.isValid = true) :
    ∀ r ∈ (m.recordAction u).undoStack, r.isValid = true := by
  unfold UndoManager.recordAction
  by_cases hu : u.isValid = true
  · simp only [hu, if_true]
    intro r hr
    rcases List.mem_append.1 hr with hr | hr
    · exact h r hr
    · rw [List.mem_singleton] at hr
      rw [hr]; exact hu
  · simp only [hu]
    exact h

/-- The stack left by `undo` is the old stack without its last record. -/
theorem undo_stack_dropLast (m : UndoManager) (g : GameModel) :
    (m.undo g).2.1.undoStack = m.undoStack.dropLast := by
  unfold UndoManager.undo
  by_cases hne : m.undoStack = []
  · simp [UndoManager.canUndo, hne]
  · have hcan : m.canUndo = true := by simp [UndoManager.canUndo, hne]
    have hlast : m.undoStack.getLast? = some (m.undoStack.getLast hne) :=
      List.getLast?_eq_getLast _ hne
    simp only [hcan, Bool.not_true, Bool.false_eq_true, if_false, hlast]
    split_ifs <;> rfl

/-- Every record of a log built by the manager's operations is valid. -/
theorem logBuilt_valid (m : UndoManager) (h : LogBuilt m) :
    ∀ r ∈ m.undoStack, r.isValid = true := by
  induction h with
  | empty => intro r hr; simp at hr
  | recordAction m u _ _ ih => exact recordAction_valid m u ih
  | recordPlayfieldToStack m movedCard previousTopCard originalPos targetPos _ ih =>
    exact recordAction_valid m _ ih
  | recordReserveToStack m drawnCard previousTopCard _ ih =>
    exact recordAction_valid m _ ih
  | undo m g _ ih =>
    intro r hr
    rw [undo_stack_dropLast] at hr
    exact ih r (List.mem_of_mem_dropLast hr)

/-- The records of the log after `recordAction` are the old ones and, when it is
valid, the new one: a property of the old records and of the new one holds of
all. -/
theorem recordAction_forall (P : UndoModel → Prop) (m : UndoManager) (u : UndoModel)
    (h : ∀ r ∈ m.undoStack, P r) (hu : u.isValid = true → P u) :
    ∀ r ∈ (m.recordAction u).undoStack, P r := by
  unfold UndoManager.recordAction
  by_cases hv : u.isValid = true
  · simp only [hv, if_true]
    intro r hr
    rcases List.mem_append.1 hr with hr | hr
    · exact h r hr
    · rw [List.mem_singleton] at hr
      rw [hr]; exact hu hv
  · simp only [hv]
    exact h

/-- Every record of a log built by the manager's operations from records with
an enumerator for their type is of one of the two move operations. -/
theorem logBuilt_moves (m : UndoManager) (h : LogBuilt m) :
    ∀ r ∈ m.undoStack,
      r.operationType = CardOperationType.PLAYFIELD_TO_STACK ∨
        r.operationType = CardOperationType.RESERVE_TO_STACK := by
  induction h with
  | empty => intro r hr; simp at hr
  | recordAction m u henum _ ih =>
    apply recordAction_forall _ m u ih
    intro hv
    have hne := ((isValid_iff_concrete u).1 hv).1
    rcases henum with h0 | h1 | h2
    · exact absurd h0 hne
    · exact Or.inl h1
    · exact Or.inr h2
  | recordPlayfieldToStack m movedCard previousTopCard originalPos targetPos _ ih =>
    exact recordAction_forall _ m _ ih (fun _ => Or.inl rfl)
  | recordReserveToStack m drawnCard previousTopCard _ ih =>
    exact recordAction_forall _ m _ ih (fun _ => Or.inr rfl)
  | undo m g _ ih =>
    intro r hr
    rw [undo_stack_dropLast] at hr
    exact ih r (List.mem_of_mem_dropLast hr)

/-! ## Auxiliary lemmas on the next-id counter -/

theorem suit_ofInt?_toInt (s : CardSuitType) : CardSuitType.ofInt? s.toInt = some s := by
  cases s <;> rfl

theorem face_ofInt?_toInt (f : CardFaceType) : CardFaceType.ofInt? f.toInt = some f := by
  cases f <;> rfl

theorem area_ofInt?_toInt (a : CardAreaType) : CardAreaType.ofInt? a.toInt = some a := by
  cases a <;> rfl

/-- Reading a serialized card into any card gives the serialized card. -/
theorem CardModel.deserialize_serialize (c c₀ : CardModel) :
    CardModel.deserialize c.serialize c₀ = some (true, c) := by
  simp [CardModel.deserialize, CardModel.serialize, Json.isObject, Json.member?, List.lookup,
    Json.int?, Json.bool?, Json.getFloat, suit_ofInt?_toInt,
    face_ofInt?_toInt, area_ofInt?_toInt]

/-- The array loop reads back a serialized list of cards, appending them in
order. -/
theorem deserializeCards_serialize :
    ∀ (l acc : List CardModel),
      deserializeCards (l.map CardModel.serialize) acc = some (acc ++ l) := by
  intro l
  induction l with
  | nil => intro acc; simp [deserializeCards]
  | cons c l ih =>
    intro acc
    simp [deserializeCards, CardModel.deserialize_serialize, ih]

/-! ## Auxiliary lemmas on runs of completed operations -/

/-- A completed match either fails and leaves the controller as it was, or runs
on an idle controller for a clickable card that matches the stack-top. -/
theorem attemptMatch_cases (view : ViewMode) (viewTargetPos : Vec2) (cardId : Int)
    (s : GameController) :
    s.attemptMatch view viewTargetPos cardId = (false, s) ∨
    ∃ c, s.isAnimating = false ∧ s.gameModel.getPlayfieldCardById cardId = some c ∧
      c.isClickable = true ∧ canMatch c.face s.gameModel.stackTopCard.face = true := by
  by_cases hanim : s.isAnimating = true
  · left
    simp [GameController.attemptMatch, GameController.handlePlayfieldCardClick, hanim]
  · cases hfound : s.gameModel.getPlayfieldCardById cardId with
    | none =>
      left
      simp [GameController.attemptMatch, GameController.handlePlayfieldCardClick, hanim, hfound]
    | some c =>
      by_cases hc : c.isClickable = true
      · by_cases hm : canMatch c.face s.gameModel.stackTopCard.face = true
        · right
          exact ⟨c, by simpa using hanim, rfl, hc, hm⟩
        · left
          simp [GameController.attemptMatch, GameController.handlePlayfieldCardClick, hanim,
            hfound, hc, CardModel.canMatchWith, hm]
      · left
        simp [GameController.attemptMatch, GameController.handlePlayfieldCardClick, hanim,
          hfound, hc]

/-- A completed draw either fails and leaves the controller as it was, or runs on
an idle controller with a non-empty reserve. -/
theorem drawReserve_cases (view : ViewMode) (s : GameController) :
    s.drawReserve view = (false, s) ∨
    ∃ front d, s.isAnimating = false ∧ s.gameModel.reserveCards = front ++ [d] := by
  rcases handleReserveClick_cases view s with h | ⟨front, d, hres, hidle, _⟩
  · left
    simp [GameController.drawReserve, h]
  · right
    exact ⟨front, d, hidle, hres⟩

/-- A completed undo either fails and leaves the controller as it was, or runs on
an idle controller with a non-empty undo stack. -/
theorem undo_cases (view : ViewMode) (s : GameController) :
    s.undo view = (false, s) ∨
    ∃ u r, s.isAnimating = false ∧ s.undoManager.undoStack = u ++ [r] := by
  rcases handleUndoClick_cases view s with h | ⟨u, r, hstack, hidle⟩
  · left
    simp [GameController.undo, h]
  · right
    exact ⟨u, r, hidle, hstack⟩

/-- The recomputed playfield depends on the playfield alone. -/
theorem updatePlayfieldClickable_playfield_congr (g g' : GameModel)
    (h : g.playfieldCards = g'.playfieldCards) :
    (updatePlayfieldClickable g).playfieldCards = (updatePlayfieldClickable g').playfieldCards := by
  rw [updatePlayfieldClickable_playfield, updatePlayfieldClickable_playfield, h]

/-- A completed match keeps `Settled` when its view attachment is the one of the
run. -/
theorem settled_attemptMatch (attached : Bool) (view : ViewMode) (viewTargetPos : Vec2)
    (cardId : Int) (s : GameController) (hview : view.isAttached = attached)
    (h : Settled attached s) : Settled attached (s.attemptMatch view viewTargetPos cardId).2 := by
  rcases attemptMatch_cases view viewTargetPos cardId s with hf | ⟨c, hidle, hfound, hclick, hm⟩
  · rw [hf]; exact h
  · rw [attemptMatch_eq view viewTargetPos cardId s c hidle hfound hclick hm]
    refine ⟨rfl, ?_, ?_⟩
    · intro x hx
      apply h.reserveFlags x
      by_cases hv : view = ViewMode.detached
      · simpa [hv] using hx
      · simpa [hv, updatePlayfieldClickable_reserveCards] using hx
    · intro ha
      have hv : view ≠ ViewMode.detached := by
        intro hv
        rw [hv, ha] at hview
        exact absurd hview (by decide)
      simp only [hv, if_false]
      rw [updatePlayfieldClickable_idem]

/-- A completed draw keeps `Settled`. -/
theorem settled_drawReserve (attached : Bool) (view : ViewMode) (s : GameController)
    (h : Settled attached s) : Settled attached (s.drawReserve view).2 := by
  rcases drawReserve_cases view s with hf | ⟨front, d, hidle, hres⟩
  · rw [hf]; exact h
  · rw [drawReserve_eq view s front d hidle hres]
    refine ⟨rfl, ?_, ?_⟩
    · intro x hx
      apply h.reserveFlags x
      rw [hres]
      exact List.mem_append_left _ hx
    · intro ha
      exact (updatePlayfieldClickable_playfield_congr _ s.gameModel rfl).trans (h.consistent ha)

/-- A completed undo keeps `Settled` when its view attachment is the one of the
run. -/
theorem settled_undo (attached : Bool) (view : ViewMode) (s : GameController)
    (hview : view.isAttached = attached) (h : Settled attached s) :
    Settled attached (s.undo view).2 := by
  rcases undo_cases view s with hf | ⟨u, r, hidle, hstack⟩
  · rw [hf]; exact h
  · rw [undo_eq view s u r hidle hstack]
    rcases operationType_cases r.operationType with hop | ⟨hne, hop⟩ | ⟨hne₁, hne₂⟩
    · rw [if_pos hop]
      refine ⟨rfl, ?_, ?_⟩
      · intro x hx
        apply h.reserveFlags x
        by_cases hv : view = ViewMode.detached
        · simpa [hv, UndoManager.undoPlayfieldToStack, GameModel.setStackTopCard,
            GameModel.addPlayfieldCard] using hx
        · simpa [hv, updatePlayfieldClickable_reserveCards, UndoManager.undoPlayfieldToStack,
            GameModel.setStackTopCard, GameModel.addPlayfieldCard] using hx
      · intro ha
        have hv : view ≠ ViewMode.detached := by
          intro hv
          rw [hv, ha] at hview
          exact absurd hview (by decide)
        simp only [hv, if_false]
        rw [updatePlayfieldClickable_idem]
    · rw [if_neg hne, if_pos hop]
      refine ⟨rfl, ?_, ?_⟩
      · intro x hx
        simp only [UndoManager.undoReserveToStack, GameModel.setStackTopCard,
          GameModel.pushReserveCard, List.mem_append, List.mem_singleton] at hx
        rcases hx with hx | rfl
        · exact h.reserveFlags x hx
        · rfl
      · intro ha
        exact (updatePlayfieldClickable_playfield_congr _ s.gameModel rfl).trans (h.consistent ha)
    · rw [if_neg hne₁, if_neg hne₂]
      exact ⟨rfl, h.reserveFlags, h.consistent⟩

/-- The state right after a successful `generate` is `Settled`. -/
theorem settled_start (attached : Bool) (cfg : LevelConfig) (g₀ : GameModel)
    (hgen : (generate cfg g₀).1 = true) :
    Settled attached
      { gameModel := (generate cfg g₀).2, undoManager := { undoStack := [] },
        isAnimating := false } := by
  have hvalid : cfg.isValid = true := by
    by_contra hv
    simp [generate, hv] at hgen
  obtain ⟨s₀, rest, hstack⟩ := isValid_stack_cons cfg hvalid
  have hg := generate_of_valid cfg g₀ s₀ rest hvalid hstack
  refine ⟨rfl, ?_, ?_⟩
  · intro c hc
    rw [hg] at hc
    simp only [updatePlayfieldClickable_reserveCards] at hc
    exact (cardsFromConfigs_mem _ _ _ _ c hc).2.2.1
  · intro _
    rw [hg]
    have hpf := updatePlayfieldClickable_playfield
      { playfieldCards := cardsFromConfigs CardAreaType.PLAYFIELD true 0 cfg.playfieldCards,
        stackTopCard := CardModel.empty, reserveCards := [], nextCardId := 0 }
    simp only at hpf
    simp only
    rw [← hpf]
    refine (updatePlayfieldClickable_playfield_congr _
      (updatePlayfieldClickable
        { playfieldCards := cardsFromConfigs CardAreaType.PLAYFIELD true 0 cfg.playfieldCards,
          stackTopCard := CardModel.empty, reserveCards := [], nextCardId := 0 }) rfl).trans ?_
    rw [updatePlayfieldClickable_idem]

/-- A state reached by completed operations is reached by handler calls and
callbacks. -/
theorem reachableBy_reachable (attached : Bool) (s : GameController)
    (h : ReachableBy attached s) : Reachable s := by
  induction h with
  | start cfg g₀ hgen => exact Reachable.start cfg g₀ false hgen
  | attemptMatch view viewTargetPos cardId s _ _ ih =>
    unfold GameController.attemptMatch
    simp only
    split
    · exact Reachable.playfieldToStackMoved _ (Reachable.playfieldClick _ _ _ _ ih)
    · exact Reachable.playfieldClick _ _ _ _ ih
  | drawReserve view s _ _ ih =>
    unfold GameController.drawReserve
    simp only
    split
    · exact Reachable.reserveDrawn _ (Reachable.reserveClick _ _ ih)
    · exact Reachable.reserveClick _ _ ih
  | undo view s _ _ ih =>
    unfold GameController.undo
    simp only
    split
    · split
      · split
        · exact Reachable.undoToPlayfieldMoved _ (Reachable.undoClick _ _ ih)
        · split
          · exact Reachable.undoToReserveMoved _ (Reachable.undoClick _ _ ih)
          · exact Reachable.undoClick _ _ ih
      · exact Reachable.undoClick _ _ ih
    · exact Reachable.undoClick _ _ ih

/-- Every state reached by completed operations with one view attachment is
`Settled`. -/
theorem reachableBy_settled (attached : Bool) (s : GameController)
    (h : ReachableBy attached s) : Settled attached s := by
  induction h with
  | start cfg g₀ hgen => exact settled_start attached cfg g₀ hgen
  | attemptMatch view viewTargetPos cardId s hview _ ih =>
    exact settled_attemptMatch attached view viewTargetPos cardId s hview ih
  | drawReserve view s _ _ ih => exact settled_drawReserve attached view s ih
  | undo view s hview _ ih => exact settled_undo attached view s hview ih

/-- The occlusion scan does not depend on the order of the scanned cards. -/
theorem isBlockedLoop_perm (c : CardModel) (l l' : List CardModel) (h : l.Perm l') :
    isBlockedLoop c l = isBlockedLoop c l' := by
  rw [Bool.eq_iff_iff, isBlockedLoop_iff, isBlockedLoop_iff]
  constructor
  · rintro ⟨o, ho, hocc⟩
    exact ⟨o, h.mem_iff.1 ho, hocc⟩
  · rintro ⟨o, ho, hocc⟩
    exact ⟨o, h.mem_iff.2 ho, hocc⟩

/-- Recomputing the flags of two playfields with the same cards in another order
gives the same cards in that other order. -/
theorem updatePlayfieldClickable_perm (g g' : GameModel)
    (h : g.playfieldCards.Perm g'.playfieldCards) :
    (updatePlayfieldClickable g).playfieldCards.Perm
      (updatePlayfieldClickable g').playfieldCards := by
  rw [updatePlayfieldClickable_playfield, updatePlayfieldClickable_playfield]
  have hf : (fun c : CardModel => c.setClickable (!isBlockedLoop c g.playfieldCards)) =
      (fun c : CardModel => c.setClickable (!isBlockedLoop c g'.playfieldCards)) := by
    funext c
    rw [isBlockedLoop_perm c _ _ h]
  rw [hf]
  exact h.map _

/-- The recomputed playfield does not depend on the flags it starts from. -/
theorem updatePlayfieldClickable_of_withoutFlag (g : GameModel) :
    (updatePlayfieldClickable
      { g with playfieldCards := g.playfieldCards.map CardModel.withoutFlag }).playfieldCards =
      (updatePlayfieldClickable g).playfieldCards := by
  rw [updatePlayfieldClickable_playfield, updatePlayfieldClickable_playfield]
  simp only [List.map_map]
  apply List.map_congr_left
  intro c _
  have h1 : isBlockedLoop c.withoutFlag (g.playfieldCards.map CardModel.withoutFlag) =
      isBlockedLoop c g.playfieldCards := by
    rw [isBlockedLoop_of_same_geom c.withoutFlag c _ rfl rfl]
    apply isBlockedLoop_congr
    rw [List.map_map]
    rfl
  simp only [Function.comp, h1]
  rfl

/-- Two playfields with the same cards up to order and up to the clickable flags
are recomputed to the same cards up to order. -/
theorem updatePlayfieldClickable_perm_withoutFlag (g g' : GameModel)
    (h : (g.playfieldCards.map CardModel.withoutFlag).Perm
      (g'.playfieldCards.map CardModel.withoutFlag)) :
    (updatePlayfieldClickable g).playfieldCards.Perm
      (updatePlayfieldClickable g').playfieldCards := by
  rw [← updatePlayfieldClickable_of_withoutFlag g, ← updatePlayfieldClickable_of_withoutFlag g']
  exact updatePlayfieldClickable_perm _ _ h

theorem sameState_refl (s : GameController) : SameState s s :=
  ⟨rfl, rfl, rfl, rfl, rfl, List.Perm.refl _⟩

theorem sameState_trans {s t w : GameController} (h₁ : SameState s t) (h₂ : SameState t w) :
    SameState s w :=
  ⟨h₁.1.trans h₂.1, h₁.2.1.trans h₂.2.1, h₁.2.2.1.trans h₂.2.2.1,
    h₁.2.2.2.1.trans h₂.2.2.2.1, h₁.2.2.2.2.1.trans h₂.2.2.2.2.1,
    h₁.2.2.2.2.2.trans h₂.2.2.2.2.2⟩

/-- A completed undo does the same on two idle states that differ in the order
of the playfield only. -/
theorem undo_sameState (view : ViewMode) (s t : GameController) (h : SameState s t)
    (hidle : s.isAnimating = false) :
    (s.undo view).1 = (t.undo view).1 ∧ SameState (s.undo view).2 (t.undo view).2 := by
  obtain ⟨hu, ha, htop, hres, hnext, hpf⟩ := h
  have hidle' : t.isAnimating = false := by rw [← ha]; exact hidle
  by_cases hne : s.undoManager.undoStack = []
  · have hne' : t.undoManager.undoStack = [] := by rw [← hu]; exact hne
    have hs : s.undo view = (false, s) := by
      simp [GameController.undo, GameController.handleUndoClick, hidle, UndoManager.canUndo, hne]
    have ht : t.undo view = (false, t) := by
      simp [GameController.undo, GameController.handleUndoClick, hidle', UndoManager.canUndo,
        hne']
    rw [hs, ht]
    exact ⟨rfl, hu, ha, htop, hres, hnext, hpf⟩
  · have hstack : s.undoManager.undoStack =
        s.undoManager.undoStack.dropLast ++ [s.undoManager.undoStack.getLast hne] :=
      (List.dropLast_append_getLast hne).symm
    have hstack' : t.undoManager.undoStack =
        s.undoManager.undoStack.dropLast ++ [s.undoManager.undoStack.getLast hne] := by
      rw [← hu]; exact hstack
    rw [undo_eq view s _ _ hidle hstack, undo_eq view t _ _ hidle' hstack']
    rcases operationType_cases (s.undoManager.undoStack.getLast hne).operationType with
      hop | ⟨hne₀, hop⟩ | ⟨hne₁, hne₂⟩
    · rw [if_pos hop, if_pos hop]
      have hperm : (UndoManager.undoPlayfieldToStack s.gameModel
            (s.undoManager.undoStack.getLast hne)).playfieldCards.Perm
          (UndoManager.undoPlayfieldToStack t.gameModel
            (s.undoManager.undoStack.getLast hne)).playfieldCards :=
        List.Perm.append_right _ hpf
      by_cases hv : view = ViewMode.detached
      · rw [if_pos hv, if_pos hv]
        exact ⟨rfl, rfl, rfl, rfl, hres, hnext, hperm⟩
      · rw [if_neg hv, if_neg hv]
        exact ⟨rfl, rfl, rfl, rfl, hres, hnext, updatePlayfieldClickable_perm _ _ hperm⟩
    · rw [if_neg hne₀, if_pos hop, if_neg hne₀, if_pos hop]
      refine ⟨rfl, rfl, rfl, rfl, ?_, hnext, hpf⟩
      simp only [UndoManager.undoReserveToStack, GameModel.setStackTopCard,
        GameModel.pushReserveCard, hres]
    · rw [if_neg hne₁, if_neg hne₂, if_neg hne₁, if_neg hne₂]
      exact ⟨rfl, rfl, rfl, htop, hres, hnext, hpf⟩

/-- Restoring a playfield card that was face up and clickable gives the card
back. -/
theorem playfieldCard_restored (c : CardModel) (ha : c.area = CardAreaType.PLAYFIELD)
    (hf : c.isFaceUp = true) (hc : c.isClickable = true) :
    (((c.setArea CardAreaType.PLAYFIELD).setPosition c.position).setFaceUp true).setClickable
      true = c := by
  cases c
  simp only at ha hf hc
  subst ha hf hc
  rfl

/-- Restoring a reserve card that was face down and not clickable gives the card
back. -/
theorem reserveCard_restored (c : CardModel) (ha : c.area = CardAreaType.RESERVE)
    (hf : c.isFaceUp = false) (hc : c.isClickable = false) :
    ((c.setArea CardAreaType.RESERVE).setFaceUp false).setClickable false = c := by
  cases c
  simp only at ha hf hc
  subst ha hf hc
  rfl

/-- Putting a card of area STACK back on the stack gives the card back. -/
theorem stackCard_restored (c : CardModel) (ha : c.area = CardAreaType.STACK) :
    c.setArea CardAreaType.STACK = c := by
  cases c
  simp only at ha
  subst ha
  rfl

/-- A successful completed match followed by a completed undo, both with the
view attachment of the run, succeeds and returns to the state before the match,
up to the order of the playfield. -/
theorem attemptMatch_undo_sameState (attached : Bool) (view₁ view₂ : ViewMode)
    (viewTargetPos : Vec2) (cardId : Int) (s : GameController)
    (hwf : WellFormed s.gameModel s.undoManager.undoStack) (hs : Settled attached s)
    (h₁ : view₁.isAttached = attached) (h₂ : view₂.isAttached = attached)
    (hok : (s.attemptMatch view₁ viewTargetPos cardId).1 = true) :
    ((s.attemptMatch view₁ viewTargetPos cardId).2.undo view₂).1 = true ∧
    SameState ((s.attemptMatch view₁ viewTargetPos cardId).2.undo view₂).2 s := by
  rcases attemptMatch_cases view₁ viewTargetPos cardId s with
    hf | ⟨c, hidle, hfound, hclick, hm⟩
  · rw [hf] at hok
    exact absurd hok (by simp)
  · obtain ⟨hcid, _, l₁, l₂, hsplit, _, herase⟩ :=
      find_card_split cardId c s.gameModel.playfieldCards hfound
    have hcmem : c ∈ s.gameModel.playfieldCards := by rw [hsplit]; simp
    have hid : 0 ≤ c.cardId := hwf.nonneg _ (mem_idBag_of_playfield _ _ c hcmem)
    have harea := hwf.playfield c hcmem
    have hrestored := playfieldCard_restored c harea.1 harea.2 hclick
    have htop : (UndoManager.undoPlayfieldToStack
        { s.gameModel with
          playfieldCards :=
            s.gameModel.playfieldCards.eraseP (fun card => card.cardId == cardId),
          stackTopCard := { c with area := CardAreaType.STACK } }
        { operationType := CardOperationType.PLAYFIELD_TO_STACK, movedCard := c,
          previousStackTopCard := s.gameModel.stackTopCard, originalPosition := c.position,
          targetPosition := Vec2.ZERO }).stackTopCard = s.gameModel.stackTopCard :=
      stackCard_restored _ hwf.stackTop.1
    have hrec : ∀ tp : Vec2,
        s.undoManager.recordPlayfieldToStack c s.gameModel.stackTopCard c.position tp =
          { undoStack := s.undoManager.undoStack ++
            [{ operationType := CardOperationType.PLAYFIELD_TO_STACK, movedCard := c,
               previousStackTopCard := s.gameModel.stackTopCard, originalPosition := c.position,
               targetPosition := tp }] } := by
      intro tp
      simp only [UndoManager.recordPlayfieldToStack]
      rw [recordAction_of_valid _ _ (by simp [UndoModel.create]) (by simpa using hid)]
      simp [UndoModel.create]
    rw [attemptMatch_eq view₁ viewTargetPos cardId s c hidle hfound hclick hm]
    simp only [hrec]
    rw [undo_eq view₂ _ s.undoManager.undoStack _ rfl rfl, if_pos rfl]
    cases attached with
    | false =>
      have hv₁ : view₁ = ViewMode.detached := by cases view₁ <;> simp_all [ViewMode.isAttached]
      have hv₂ : view₂ = ViewMode.detached := by cases view₂ <;> simp_all [ViewMode.isAttached]
      subst hv₁ hv₂
      simp only [eq_self, if_true]
      refine ⟨trivial, rfl, hidle.symm, htop, rfl, rfl, ?_⟩
      simp only [UndoManager.undoPlayfieldToStack, GameModel.setStackTopCard,
        GameModel.addPlayfieldCard, hrestored, herase]
      rw [hsplit]
      simp only [List.append_assoc]
      exact List.Perm.append_left _ (List.perm_append_singleton _ _)
    | true =>
      have hv₁ : view₁ ≠ ViewMode.detached := by
        intro hv; rw [hv] at h₁; exact absurd h₁ (by decide)
      have hv₂ : view₂ ≠ ViewMode.detached := by
        intro hv; rw [hv] at h₂; exact absurd h₂ (by decide)
      simp only [hv₁, hv₂, if_false]
      refine ⟨trivial, rfl, hidle.symm, htop, rfl, rfl, ?_⟩
      have hcons := hs.consistent rfl
      refine (updatePlayfieldClickable_perm_withoutFlag _ s.gameModel ?_).trans ?_
      · simp only [UndoManager.undoPlayfieldToStack, GameModel.setStackTopCard,
          GameModel.addPlayfieldCard, hrestored, List.map_append,
          updatePlayfieldClickable_withoutFlag, herase]
        rw [hsplit]
        simp only [List.map_append, List.map_cons, List.map_nil, List.append_assoc]
        exact List.Perm.append_left _ (List.perm_append_singleton _ _)
      · rw [hcons]

/-- A successful completed draw followed by a completed undo succeeds and
returns to the state before the draw. -/
theorem drawReserve_undo_sameState (attached : Bool) (view₁ view₂ : ViewMode)
    (s : GameController)
    (hwf : WellFormed s.gameModel s.undoManager.undoStack) (hs : Settled attached s)
    (hok : (s.drawReserve view₁).1 = true) :
    ((s.drawReserve view₁).2.undo view₂).1 = true ∧
    SameState ((s.drawReserve view₁).2.undo view₂).2 s := by
  rcases drawReserve_cases view₁ s with hf | ⟨front, d, hidle, hres⟩
  · rw [hf] at hok
    exact absurd hok (by simp)
  · have hdmem : d ∈ s.gameModel.reserveCards := by rw [hres]; simp
    have hid : 0 ≤ d.cardId := hwf.nonneg _ (mem_idBag_of_reserve _ _ d hdmem)
    have harea := hwf.reserve d hdmem
    have hrestored := reserveCard_restored d harea.1 harea.2 (hs.reserveFlags d hdmem)
    have htop : s.gameModel.stackTopCard.setArea CardAreaType.STACK = s.gameModel.stackTopCard :=
      stackCard_restored _ hwf.stackTop.1
    have hrec : s.undoManager.recordReserveToStack d s.gameModel.stackTopCard =
        { undoStack := s.undoManager.undoStack ++
          [{ operationType := CardOperationType.RESERVE_TO_STACK, movedCard := d,
             previousStackTopCard := s.gameModel.stackTopCard, originalPosition := Vec2.ZERO,
             targetPosition := Vec2.ZERO }] } := by
      simp only [UndoManager.recordReserveToStack]
      rw [recordAction_of_valid _ _ (by simp [UndoModel.create]) (by simpa using hid)]
      simp [UndoModel.create]
    rw [drawReserve_eq view₁ s front d hidle hres]
    simp only [hrec]
    rw [undo_eq view₂ _ s.undoManager.undoStack _ rfl rfl,
      if_neg reserveToStack_ne_playfieldToStack, if_pos rfl]
    refine ⟨rfl, rfl, hidle.symm, htop, ?_, rfl, List.Perm.refl _⟩
    simp only [UndoManager.undoReserveToStack, GameModel.setStackTopCard,
      GameModel.pushReserveCard, hrestored, hres]

/-- Undoing along a concatenated list of views is undoing along the first part
and, when that succeeded, along the second. -/
theorem undoAll_append (vs ws : List ViewMode) :
    ∀ s : GameController,
      undoAll (vs ++ ws) s =
        if (undoAll vs s).1 then undoAll ws (undoAll vs s).2 else undoAll vs s := by
  induction vs with
  | nil => intro s; simp [undoAll]
  | cons v vs ih =>
    intro s
    simp only [List.cons_append, undoAll]
    by_cases h : (s.undo v).1 = true
    · simp only [h, if_true]
      exact ih _
    · simp [h]

theorem reachableBy_run (attached : Bool) (op : Op) (s : GameController)
    (hview : op.view.isAttached = attached) (h : ReachableBy attached s) :
    ReachableBy attached (op.run s).2 := by
  cases op with
  | attemptMatch view viewTargetPos cardId =>
    exact ReachableBy.attemptMatch view viewTargetPos cardId s hview h
  | drawReserve view => exact ReachableBy.drawReserve view s hview h

/-- A successful forward operation followed by a completed undo, both with the
view attachment of the run, succeeds and returns to the state before the
operation, up to the order of the playfield. -/
theorem run_undo_sameState (attached : Bool) (op : Op) (view : ViewMode) (s : GameController)
    (hwf : WellFormed s.gameModel s.undoManager.undoStack) (hs : Settled attached s)
    (h₁ : op.view.isAttached = attached) (h₂ : view.isAttached = attached)
    (hok : (op.run s).1 = true) :
    ((op.run s).2.undo view).1 = true ∧ SameState ((op.run s).2.undo view).2 s := by
  cases op with
  | attemptMatch v viewTargetPos cardId =>
    exact attemptMatch_undo_sameState attached v view viewTargetPos cardId s hwf hs h₁ h₂ hok
  | drawReserve v => exact drawReserve_undo_sameState attached v view s hwf hs hok

/-- After a run of successful forward operations, as many undos succeed and lead
back to the start of the run, up to the order of the playfield, when all of
them ran with the same view attachment. -/
theorem undoAll_runOps (attached : Bool) :
    ∀ (ops : List Op) (s : GameController) (views : List ViewMode),
      ReachableBy attached s → (∀ op ∈ ops, op.view.isAttached = attached) →
      (∀ v ∈ views, v.isAttached = attached) → views.length = ops.length →
      (runOps ops s).1 = true →
      (undoAll views (runOps ops s).2).1 = true ∧
      SameState (undoAll views (runOps ops s).2).2 s := by
  intro ops
  induction ops with
  | nil =>
    intro s views _ _ _ hlen _
    have hnil : views = [] := List.length_eq_zero.1 (by simpa using hlen)
    subst hnil
    exact ⟨rfl, sameState_refl s⟩
  | cons op ops ih =>
    intro s views hs hops hviews hlen hok
    have hop : (op.run s).1 = true := by
      by_contra hne
      simp [runOps, hne] at hok
    have hrun : runOps (op :: ops) s = runOps ops (op.run s).2 := by simp [runOps, hop]
    rw [hrun] at hok ⊢
    have hne : views ≠ [] := by
      intro h
      rw [h] at hlen
      simp at hlen
    obtain ⟨vs, v, rfl⟩ : ∃ vs v, views = vs ++ [v] :=
      ⟨views.dropLast, views.getLast hne, (List.dropLast_append_getLast hne).symm⟩
    have hlen' : vs.length = ops.length := by simpa using hlen
    have hs1 := reachableBy_run attached op s (hops op (by simp)) hs
    obtain ⟨h1, hsame⟩ := ih (op.run s).2 vs hs1
      (fun o ho => hops o (List.mem_cons_of_mem _ ho))
      (fun w hw => hviews w (List.mem_append_left _ hw)) hlen' hok
    rw [undoAll_append, if_pos h1]
    have hidle1 : (op.run s).2.isAnimating = false := (reachableBy_settled attached _ hs1).idle
    have hidle : (undoAll vs (runOps ops (op.run s).2).2).2.isAnimating = false := by
      rw [hsame.2.1]; exact hidle1
    obtain ⟨hflag, hsame'⟩ := undo_sameState v _ _ hsame hidle
    obtain ⟨hback, hsame''⟩ := run_undo_sameState attached op v s
      (reachable_wellFormed s (reachableBy_reachable attached s hs))
      (reachableBy_settled attached s hs) (hops op (by simp)) (hviews v (by simp)) hop
    have hflag' := hflag.trans hback
    simp only [undoAll, hflag', if_true]
    exact ⟨trivial, sameState_trans hsame' hsame''⟩

/-! ## The matching rule -/

/-- C1: for every pair of ranks, `canMatch` holds exactly when neither rank is
the NONE sentinel and either the rank values differ by exactly one or the pair
is Ace and King (in either order); in particular Ace matches King and Ace does
not match Queen. -/
theorem canMatch_iff_adjacent_or_ace_king :
    (∀ a b : CardFaceType,
      canMatch a b = true ↔
        (a ≠ CardFaceType.NONE ∧ b ≠ CardFaceType.NONE) ∧
          (|a.toInt - b.toInt| = 1 ∨
            (a = CardFaceType.ACE ∧ b = CardFaceType.KING) ∨
            (a = CardFaceType.KING ∧ b = CardFaceType.ACE))) ∧
    canMatch CardFaceType.ACE CardFaceType.KING = true ∧
    canMatch CardFaceType.ACE CardFaceType.QUEEN = false := by
  refine ⟨?_, by decide, by decide⟩
  intro a b
  cases a <;> cases b <;> decide

/-- C2: `canMatch` is symmetric on all ranks, the NONE sentinel included. -/
theorem canMatch_symmetric (a b : CardFaceType) : canMatch a b = canMatch b a := by
  cases a <;> cases b <;> rfl

/-! ## The occlusion resolver -/

/-- C3, counterexample: the card with id 0 at (67108864, 0) and the card with id
1 at (67109008, 100) have overlapping 150 x 210 bounding boxes (the centres are
144 and 100 apart) and card 0 has the strictly smaller y, so card 0 occludes
card 1 in the claim's sense; yet `updatePlayfieldClickable` leaves card 1
clickable: in `float`, `67108864 + 75` and `67109008 - 75` both round to
67108936, so `isCardOverlapping` finds the right edge of card 0 not beyond the
left edge of card 1. -/
theorem large_coordinates_overlap_missed_counterexample :
    Occludes (playfieldCardAt 0 CardSuitType.CLUBS CardFaceType.KING 67108864 0)
        (playfieldCardAt 1 CardSuitType.CLUBS CardFaceType.THREE 67109008 100) ∧
    floatAdd 67108864 kHalfCardWidth = 67108936 ∧
    floatSub 67109008 kHalfCardWidth = 67108936 ∧
    (updatePlayfieldClickable
        (playfieldOnly
          [(playfieldCardAt 0 CardSuitType.CLUBS CardFaceType.KING 67108864 0).setClickable false,
           (playfieldCardAt 1 CardSuitType.CLUBS CardFaceType.THREE 67109008 100).setClickable
              false])).playfieldCards.map
        (fun c => (c.cardId, c.isClickable)) = [(0, true), (1, true)] := by
  decide

/-- C3, amended: after `updatePlayfieldClickable` the playfield holds the same
cards in the same order, changed in the clickable flag only.  For every
playfield, a card is left not clickable exactly when another card of the
playfield with a strictly smaller y is reported as overlapping it by the
`float` test of `isCardOverlapping`, and such a card occludes it in exact
geometry.  For a playfield in which no bounding-box edge is rounded (integer
coordinates with |x| + 75 and |y| + 105 at most 2^24), a card is left not
clickable exactly when another card of the playfield with a strictly smaller y
has a bounding box overlapping its own on both axes, and every other card is
left clickable. -/
theorem updatePlayfieldClickable_blocked_iff_occluded (g : GameModel) :
    List.Forall₂
      (fun c c' =>
        c' = { c with isClickable := c'.isClickable } ∧
        (c'.isClickable = false ↔ ∃ o ∈ g.playfieldCards, Blocks o c) ∧
        (c'.isClickable = false → ∃ o ∈ g.playfieldCards, Occludes o c))
      g.playfieldCards (updatePlayfieldClickable g).playfieldCards ∧
    ((∀ c ∈ g.playfieldCards, ExactEdges c) →
      List.Forall₂
        (fun c c' =>
          c' = { c with isClickable := c'.isClickable } ∧
          (c'.isClickable = false ↔ ∃ o ∈ g.playfieldCards, Occludes o c) ∧
          (c'.isClickable = true ↔ ¬ ∃ o ∈ g.playfieldCards, Occludes o c))
        g.playfieldCards (updatePlayfieldClickable g).playfieldCards) := by
  constructor
  · rw [updatePlayfieldClickable_playfield, List.forall₂_map_right_iff, List.forall₂_same]
    intro c _
    have hiff : ((c.setClickable (!isBlockedLoop c g.playfieldCards)).isClickable = false ↔
        ∃ o ∈ g.playfieldCards, Blocks o c) := by
      simp only [CardModel.setClickable, Bool.not_eq_false_eq_eq_true]
      exact isBlockedLoop_iff c g.playfieldCards
    refine ⟨rfl, hiff, ?_⟩
    intro h
    obtain ⟨o, ho, hb⟩ := hiff.1 h
    exact ⟨o, ho, hb.occludes⟩
  · intro hexact
    rw [updatePlayfieldClickable_playfield, List.forall₂_map_right_iff, List.forall₂_same]
    intro c hc
    have hocc : (∃ o ∈ g.playfieldCards, Blocks o c) ↔ ∃ o ∈ g.playfieldCards, Occludes o c := by
      constructor
      · rintro ⟨o, ho, h⟩
        exact ⟨o, ho, h.occludes⟩
      · rintro ⟨o, ho, h⟩
        exact ⟨o, ho, (blocks_iff_occludes o c (hexact o ho) (hexact c hc)).2 h⟩
    refine ⟨rfl, ?_, ?_⟩
    · simp only [CardModel.setClickable, Bool.not_eq_false_eq_eq_true]
      rw [← hocc]
      exact isBlockedLoop_iff c g.playfieldCards
    · simp only [CardModel.setClickable, Bool.not_eq_true_eq_eq_false]
      rw [← hocc, ← isBlockedLoop_iff c g.playfieldCards]
      simp

/-- Witness for C3 (amended): the playfield of the King at (300, 800) under the
Three at (300, 700) has no rounded edge. -/
theorem updatePlayfieldClickable_blocked_iff_occluded_witness :
    List.Forall₂
      (fun c c' =>
        c' = { c with isClickable := c'.isClickable } ∧
        (c'.isClickable = false ↔
          ∃ o ∈ [playfieldCardAt 0 CardSuitType.CLUBS CardFaceType.KING 300 800,
                 playfieldCardAt 1 CardSuitType.CLUBS CardFaceType.THREE 300 700],
            Occludes o c) ∧
        (c'.isClickable = true ↔
          ¬ ∃ o ∈ [playfieldCardAt 0 CardSuitType.CLUBS CardFaceType.KING 300 800,
                   playfieldCardAt 1 CardSuitType.CLUBS CardFaceType.THREE 300 700],
            Occludes o c))
      [playfieldCardAt 0 CardSuitType.CLUBS CardFaceType.KING 300 800,
       playfieldCardAt 1 CardSuitType.CLUBS CardFaceType.THREE 300 700]
      (updatePlayfieldClickable
        (playfieldOnly
          [playfieldCardAt 0 CardSuitType.CLUBS CardFaceType.KING 300 800,
           playfieldCardAt 1 CardSuitType.CLUBS CardFaceType.THREE 300 700])).playfieldCards :=
  (updatePlayfieldClickable_blocked_iff_occluded
    (playfieldOnly
      [playfieldCardAt 0 CardSuitType.CLUBS CardFaceType.KING 300 800,
       playfieldCardAt 1 CardSuitType.CLUBS CardFaceType.THREE 300 700])).2
    (by decide)

/-- C4, counterexample: card A at (300, 800) lies strictly below card B at
(300, 700) in the claim's sense (larger y), their boxes overlap, and in the
playfield of just A and B the resolver leaves A not clickable (and B clickable):
A is blocked by B. -/
theorem larger_y_card_is_blocked_counterexample :
    BoxesOverlap (playfieldCardAt 0 CardSuitType.CLUBS CardFaceType.KING 300 800)
        (playfieldCardAt 1 CardSuitType.CLUBS CardFaceType.THREE 300 700) ∧
      (playfieldCardAt 0 CardSuitType.CLUBS CardFaceType.KING 300 800).position.y >
        (playfieldCardAt 1 CardSuitType.CLUBS CardFaceType.THREE 300 700).position.y ∧
      (updatePlayfieldClickable
          (playfieldOnly
            [playfieldCardAt 0 CardSuitType.CLUBS CardFaceType.KING 300 800,
             playfieldCardAt 1 CardSuitType.CLUBS CardFaceType.THREE 300 700])).playfieldCards.map
          (fun c => c.isClickable) = [false, true] := by
  decide

/-- C4, amended: for every two cards A and B, if A has the strictly larger y
then B, the card with the strictly smaller y, is never blocked by A: in a
playfield of just A and B (in either order, whatever the rest of the model and
whether or not the boxes overlap) `updatePlayfieldClickable` leaves B
clickable and otherwise unchanged. -/
theorem two_cards_smaller_y_never_blocked (A B stackTop : CardModel)
    (reserve : List CardModel) (nextId : Int)
    (hy : A.position.y > B.position.y) :
    (updatePlayfieldClickable ⟨[A, B], stackTop, reserve, nextId⟩).playfieldCards[1]? =
        some { B with isClickable := true } ∧
    (updatePlayfieldClickable ⟨[B, A], stackTop, reserve, nextId⟩).playfieldCards[0]? =
        some { B with isClickable := true } := by
  have hB : ∀ l : List CardModel, (∀ o ∈ l, o = A ∨ o = B) → isBlockedLoop B l = false := by
    intro l hl
    rw [Bool.eq_false_iff]
    intro h
    obtain ⟨o, ho, hocc⟩ := (isBlockedLoop_iff B l).1 h
    rcases hl o ho with rfl | rfl
    · exact absurd hocc.2.1 (by omega)
    · exact hocc.1 rfl
  have hB₁ := hB [A, B] (by simp)
  have hB₂ := hB [B, A] (by intro o ho; simp at ho; tauto)
  constructor
  · rw [updatePlayfieldClickable_playfield]
    simp [CardModel.setClickable, hB₁]
  · rw [updatePlayfieldClickable_playfield]
    simp [CardModel.setClickable, hB₂]

/-- Witness for C4 (amended): A at (300, 800), B at (300, 700). -/
theorem two_cards_smaller_y_never_blocked_witness :
    (updatePlayfieldClickable
        ⟨[playfieldCardAt 0 CardSuitType.CLUBS CardFaceType.KING 300 800,
          playfieldCardAt 1 CardSuitType.CLUBS CardFaceType.THREE 300 700],
         CardModel.empty, [], 2⟩).playfieldCards[1]? =
        some { playfieldCardAt 1 CardSuitType.CLUBS CardFaceType.THREE 300 700 with
            isClickable := true } ∧
    (updatePlayfieldClickable
        ⟨[playfieldCardAt 1 CardSuitType.CLUBS CardFaceType.THREE 300 700,
          playfieldCardAt 0 CardSuitType.CLUBS CardFaceType.KING 300 800],
         CardModel.empty, [], 2⟩).playfieldCards[0]? =
        some { playfieldCardAt 1 CardSuitType.CLUBS CardFaceType.THREE 300 700 with
            isClickable := true } :=
  two_cards_smaller_y_never_blocked
    (playfieldCardAt 0 CardSuitType.CLUBS CardFaceType.KING 300 800)
    (playfieldCardAt 1 CardSuitType.CLUBS CardFaceType.THREE 300 700)
    CardModel.empty [] 2 (by decide)

/-- C5: a playfield card whose bounding box overlaps the box of no other card
of the playfield is set clickable by `updatePlayfieldClickable` (and is
otherwise unchanged, at the same index). -/
theorem no_overlap_card_is_clickable (g : GameModel) (i : Nat) (c : CardModel)
    (hc : g.playfieldCards[i]? = some c)
    (hfree : ∀ o ∈ g.playfieldCards, o.cardId ≠ c.cardId → ¬ BoxesOverlap c o) :
    (updatePlayfieldClickable g).playfieldCards[i]? = some { c with isClickable := true } := by
  have hnot : isBlockedLoop c g.playfieldCards = false := by
    rw [Bool.eq_false_iff]
    intro h
    obtain ⟨o, ho, hocc⟩ := (isBlockedLoop_iff c g.playfieldCards).1 h
    exact hfree o ho hocc.1 ((boxesOverlap_comm _ _).1 hocc.occludes.2.2)
  rw [updatePlayfieldClickable_playfield, List.getElem?_map, hc]
  simp [CardModel.setClickable, hnot]

/-- Witness for C5: the card at (250, 1000) overlaps nothing in a playfield
whose other card sits at (850, 1000). -/
theorem no_overlap_card_is_clickable_witness :
    (updatePlayfieldClickable
        (playfieldOnly
          [{ playfieldCardAt 0 CardSuitType.CLUBS CardFaceType.KING 250 1000 with
              isClickable := false },
           playfieldCardAt 1 CardSuitType.CLUBS CardFaceType.THREE 850 1000])).playfieldCards[0]? =
      some (playfieldCardAt 0 CardSuitType.CLUBS CardFaceType.KING 250 1000) :=
  no_overlap_card_is_clickable
    (playfieldOnly
      [{ playfieldCardAt 0 CardSuitType.CLUBS CardFaceType.KING 250 1000 with
          isClickable := false },
       playfieldCardAt 1 CardSuitType.CLUBS CardFaceType.THREE 850 1000])
    0
    { playfieldCardAt 0 CardSuitType.CLUBS CardFaceType.KING 250 1000 with isClickable := false }
    rfl (by decide)

/-- C6: in a playfield whose cards all share the same y, whatever their x,
`updatePlayfieldClickable` marks every card clickable (and changes nothing
else). -/
theorem equal_y_cards_all_clickable (g : GameModel) (y : Int)
    (hy : ∀ c ∈ g.playfieldCards, c.position.y = y) :
    (updatePlayfieldClickable g).playfieldCards =
        g.playfieldCards.map (fun c => { c with isClickable := true }) ∧
      ∀ c' ∈ (updatePlayfieldClickable g).playfieldCards, c'.isClickable = true := by
  have hmap : (updatePlayfieldClickable g).playfieldCards =
      g.playfieldCards.map (fun c => { c with isClickable := true }) := by
    rw [updatePlayfieldClickable_playfield]
    apply List.map_congr_left
    intro c hcmem
    have hnot : isBlockedLoop c g.playfieldCards = false := by
      rw [Bool.eq_false_iff]
      intro h
      obtain ⟨o, ho, hocc⟩ := (isBlockedLoop_iff c g.playfieldCards).1 h
      have h1 := hy o ho
      have h2 := hy c hcmem
      have h3 := hocc.2.1
      omega
    simp [CardModel.setClickable, hnot]
  refine ⟨hmap, ?_⟩
  rw [hmap]
  intro c' hc'
  obtain ⟨c, _, rfl⟩ := List.mem_map.1 hc'
  rfl

/-- Witness for C6: three cards on the line y = 600, two of them with
overlapping boxes and one sharing the position of another. -/
theorem equal_y_cards_all_clickable_witness :
    (updatePlayfieldClickable
        (playfieldOnly
          [playfieldCardAt 0 CardSuitType.CLUBS CardFaceType.KING 300 600,
           playfieldCardAt 1 CardSuitType.HEARTS CardFaceType.TWO 350 600,
           playfieldCardAt 2 CardSuitType.SPADES CardFaceType.TEN 300 600])).playfieldCards =
        [playfieldCardAt 0 CardSuitType.CLUBS CardFaceType.KING 300 600,
         playfieldCardAt 1 CardSuitType.HEARTS CardFaceType.TWO 350 600,
         playfieldCardAt 2 CardSuitType.SPADES CardFaceType.TEN 300 600] ∧
      ∀ c' ∈ (updatePlayfieldClickable
        (playfieldOnly
          [playfieldCardAt 0 CardSuitType.CLUBS CardFaceType.KING 300 600,
           playfieldCardAt 1 CardSuitType.HEARTS CardFaceType.TWO 350 600,
           playfieldCardAt 2 CardSuitType.SPADES CardFaceType.TEN 300 600])).playfieldCards,
        c'.isClickable = true :=
  equal_y_cards_all_clickable
    (playfieldOnly
      [playfieldCardAt 0 CardSuitType.CLUBS CardFaceType.KING 300 600,
       playfieldCardAt 1 CardSuitType.HEARTS CardFaceType.TWO 350 600,
       playfieldCardAt 2 CardSuitType.SPADES CardFaceType.TEN 300 600])
    600 (by decide)

/-! ## The click handlers of the controller -/

/-- C7: `handlePlayfieldCardClick` is atomic on failure.  If no playfield card
carries the id, or the card found is not clickable, or its rank does not match
the stack-top rank, the call returns `false` and the whole controller state
(playfield, stack-top, reserve, next-id counter, undo stack, animation flag) is
exactly the state before the call. -/
theorem handlePlayfieldCardClick_failure_atomic (view : ViewMode) (viewTargetPos : Vec2)
    (cardId : Int) (s : GameController)
    (hfail : (∀ c ∈ s.gameModel.playfieldCards, c.cardId ≠ cardId) ∨
      ∃ c, s.gameModel.getPlayfieldCardById cardId = some c ∧
        (c.isClickable = false ∨ canMatch c.face s.gameModel.stackTopCard.face = false)) :
    s.handlePlayfieldCardClick view viewTargetPos cardId = (false, s) := by
  unfold GameController.handlePlayfieldCardClick
  by_cases hanim : s.isAnimating = true
  · simp [hanim]
  · rcases hfail with hnone | ⟨c, hfound, hbad⟩
    · have hget : s.gameModel.getPlayfieldCardById cardId = none := by
        unfold GameModel.getPlayfieldCardById
        rw [List.find?_eq_none]
        intro x hx
        simpa using hnone x hx
      simp [hget]
    · rcases hbad with hclick | hmatch
      · simp [hfound, hclick]
      · simp [hfound, CardModel.canMatchWith, hmatch]

/-- Witness for C7: the King of Clubs is clickable but does not match the Four
of Clubs on the stack (the first end-to-end scenario of the spec). -/
theorem handlePlayfieldCardClick_failure_atomic_witness :
    kingVersusFour.handlePlayfieldCardClick ViewMode.callbackLater Vec2.ZERO 0 =
      (false, kingVersusFour) :=
  handlePlayfieldCardClick_failure_atomic ViewMode.callbackLater Vec2.ZERO 0 kingVersusFour
    (Or.inr ⟨playfieldCardAt 0 CardSuitType.CLUBS CardFaceType.KING 250 1000, rfl,
      Or.inr (by decide)⟩)

/-- C8: in every state reachable from a successful `generate`, with no
animation in progress, if the card found for the id is clickable and its rank
matches the stack-top rank, the click succeeds (`handlePlayfieldCardClick`
returns `true`, and so does the completed match).  Afterwards the playfield is
the old playfield with exactly that card removed, the other cards kept in order
(each unchanged but for its clickable flag, which is recomputed when the
completion callback runs); the stack-top has the card's id, rank and suit (it
is the card itself) with area = STACK and faceUp = true; the reserve and the
next-id counter are unchanged; and no card of the playfield, the stack-top or
the reserve carries the id of the previous stack-top. -/
theorem handlePlayfieldCardClick_success (view : ViewMode) (viewTargetPos : Vec2)
    (cardId : Int) (s : GameController) (c : CardModel)
    (hreach : Reachable s)
    (hidle : s.isAnimating = false)
    (hfound : s.gameModel.getPlayfieldCardById cardId = some c)
    (hclick : c.isClickable = true)
    (hmatch : canMatch c.face s.gameModel.stackTopCard.face = true) :
    (s.handlePlayfieldCardClick view viewTargetPos cardId).1 = true ∧
    (s.attemptMatch view viewTargetPos cardId).1 = true ∧
    (s.attemptMatch view viewTargetPos cardId).2.gameModel =
      (if view = ViewMode.detached then
        (s.handlePlayfieldCardClick view viewTargetPos cardId).2.gameModel
      else updatePlayfieldClickable
        (s.handlePlayfieldCardClick view viewTargetPos cardId).2.gameModel) ∧
    (∃ l₁ l₂ : List CardModel,
      s.gameModel.playfieldCards = l₁ ++ c :: l₂ ∧
      (∀ x ∈ l₁, x.cardId ≠ cardId) ∧
      List.Forall₂ (fun a b => b = { a with isClickable := b.isClickable }) (l₁ ++ l₂)
        (s.handlePlayfieldCardClick view viewTargetPos cardId).2.gameModel.playfieldCards ∧
      (view ≠ ViewMode.callbackNow →
        (s.handlePlayfieldCardClick view viewTargetPos cardId).2.gameModel.playfieldCards =
          l₁ ++ l₂) ∧
      (view = ViewMode.callbackNow →
        (s.handlePlayfieldCardClick view viewTargetPos cardId).2.gameModel.playfieldCards =
          (updatePlayfieldClickable
            { s.gameModel with playfieldCards := l₁ ++ l₂ }).playfieldCards)) ∧
    (s.handlePlayfieldCardClick view viewTargetPos cardId).2.gameModel.stackTopCard =
      { c with area := CardAreaType.STACK } ∧
    (s.handlePlayfieldCardClick view viewTargetPos cardId).2.gameModel.stackTopCard.cardId =
      cardId ∧
    (s.handlePlayfieldCardClick view viewTargetPos cardId).2.gameModel.stackTopCard.area =
      CardAreaType.STACK ∧
    (s.handlePlayfieldCardClick view viewTargetPos cardId).2.gameModel.stackTopCard.isFaceUp =
      true ∧
    (s.handlePlayfieldCardClick view viewTargetPos cardId).2.gameModel.reserveCards =
      s.gameModel.reserveCards ∧
    (s.handlePlayfieldCardClick view viewTargetPos cardId).2.gameModel.nextCardId =
      s.gameModel.nextCardId ∧
    (∀ x ∈ (s.handlePlayfieldCardClick view viewTargetPos cardId).2.gameModel.playfieldCards,
      x.cardId ≠ s.gameModel.stackTopCard.cardId) ∧
    (s.handlePlayfieldCardClick view viewTargetPos cardId).2.gameModel.stackTopCard.cardId ≠
      s.gameModel.stackTopCard.cardId ∧
    (∀ x ∈ (s.handlePlayfieldCardClick view viewTargetPos cardId).2.gameModel.reserveCards,
      x.cardId ≠ s.gameModel.stackTopCard.cardId) := by
  obtain ⟨hcid, hany, l₁, l₂, hsplit, hpre, herase⟩ :=
    find_card_split cardId c s.gameModel.playfieldCards hfound
  have hwf := reachable_wellFormed s hreach
  have huniq := wellFormed_top_fresh _ _ hwf
  have hcmem : c ∈ s.gameModel.playfieldCards := by rw [hsplit]; simp
  have hface : c.isFaceUp = true := (hwf.playfield c hcmem).2
  have hrun : s.handlePlayfieldCardClick view viewTargetPos cardId =
      (true, s.executePlayfieldToStack view viewTargetPos cardId) := by
    simp [GameController.handlePlayfieldCardClick, hidle, hfound, hclick,
      CardModel.canMatchWith, hmatch]
  have hpf : (s.executePlayfieldToStack view viewTargetPos cardId).gameModel.playfieldCards =
      if view = ViewMode.callbackNow then
        (updatePlayfieldClickable { s.gameModel with playfieldCards := l₁ ++ l₂ }).playfieldCards
      else l₁ ++ l₂ := by
    cases view <;>
      simp [GameController.executePlayfieldToStack, hfound, GameModel.removePlayfieldCard, hany,
        herase, GameModel.setStackTopCard, GameController.onPlayfieldToStackMoved,
        updatePlayfieldClickable]
  have htop : (s.executePlayfieldToStack view viewTargetPos cardId).gameModel.stackTopCard =
      { c with area := CardAreaType.STACK } := by
    cases view <;>
      simp [GameController.executePlayfieldToStack, hfound, GameModel.removePlayfieldCard, hany,
        GameModel.setStackTopCard, GameController.onPlayfieldToStackMoved,
        updatePlayfieldClickable, CardModel.setArea]
  have hres : (s.executePlayfieldToStack view viewTargetPos cardId).gameModel.reserveCards =
      s.gameModel.reserveCards := by
    cases view <;>
      simp [GameController.executePlayfieldToStack, hfound, GameModel.removePlayfieldCard, hany,
        GameModel.setStackTopCard, GameController.onPlayfieldToStackMoved,
        updatePlayfieldClickable]
  have hnext : (s.executePlayfieldToStack view viewTargetPos cardId).gameModel.nextCardId =
      s.gameModel.nextCardId := by
    cases view <;>
      simp [GameController.executePlayfieldToStack, hfound, GameModel.removePlayfieldCard, hany,
        GameModel.setStackTopCard, GameController.onPlayfieldToStackMoved,
        updatePlayfieldClickable]
  have hsame : List.Forall₂ (fun a b => b = { a with isClickable := b.isClickable }) (l₁ ++ l₂)
      (s.executePlayfieldToStack view viewTargetPos cardId).gameModel.playfieldCards := by
    rw [hpf]
    by_cases hv : view = ViewMode.callbackNow
    · rw [if_pos hv]
      exact updateClickable_same_cards { s.gameModel with playfieldCards := l₁ ++ l₂ }
    · rw [if_neg hv, List.forall₂_same]
      intro a _
      rfl
  have hdone : s.attemptMatch view viewTargetPos cardId =
      (true,
        { gameModel :=
            if view = ViewMode.detached then
              (s.executePlayfieldToStack view viewTargetPos cardId).gameModel
            else updatePlayfieldClickable
              (s.executePlayfieldToStack view viewTargetPos cardId).gameModel,
          undoManager :=
            s.undoManager.recordPlayfieldToStack c s.gameModel.stackTopCard c.position
              viewTargetPos,
          isAnimating := false }) := by
    rw [attemptMatch_eq view viewTargetPos cardId s c hidle hfound hclick hmatch,
      executePlayfieldToStack_eq view viewTargetPos cardId s c hfound]
    cases view <;> simp [updatePlayfieldClickable_idem]
  rw [hrun, hdone]
  refine ⟨rfl, rfl, rfl, ⟨l₁, l₂, hsplit, hpre, hsame, ?_, ?_⟩, htop, ?_, ?_, ?_, hres, hnext,
    ?_, ?_, ?_⟩
  · intro hv
    show (s.executePlayfieldToStack view viewTargetPos cardId).gameModel.playfieldCards = _
    rw [hpf, if_neg hv]
  · intro hv
    show (s.executePlayfieldToStack view viewTargetPos cardId).gameModel.playfieldCards = _
    rw [hpf, if_pos hv]
  · show (s.executePlayfieldToStack view viewTargetPos cardId).gameModel.stackTopCard.cardId = _
    rw [htop]
    exact hcid
  · show (s.executePlayfieldToStack view viewTargetPos cardId).gameModel.stackTopCard.area = _
    rw [htop]
  · show (s.executePlayfieldToStack view viewTargetPos cardId).gameModel.stackTopCard.isFaceUp = _
    rw [htop]
    exact hface
  · intro x hx
    have hx : x ∈ (s.executePlayfieldToStack view viewTargetPos cardId).gameModel.playfieldCards :=
      hx
    obtain ⟨a, ha, hab⟩ := forall₂_partner hsame x hx
    have hmem : a ∈ s.gameModel.playfieldCards ++ s.gameModel.reserveCards := by
      rw [hsplit]
      rcases List.mem_append.1 ha with h | h
      · simp [h]
      · simp [h]
    have := huniq a hmem
    rw [hab]
    exact this
  · show (s.executePlayfieldToStack view viewTargetPos cardId).gameModel.stackTopCard.cardId ≠ _
    rw [htop]
    exact huniq c (by rw [hsplit]; simp)
  · intro x hx
    have hx : x ∈ (s.executePlayfieldToStack view viewTargetPos cardId).gameModel.reserveCards :=
      hx
    rw [hres] at hx
    exact huniq x (by simp [hx])

/-- Witness for C8: right after `generate` on `coveredLevel` the Three of Clubs
(id 1) is played on the Four of Clubs. -/
theorem handlePlayfieldCardClick_success_witness :
    (coveredGameStart.handlePlayfieldCardClick ViewMode.callbackLater Vec2.ZERO 1).1 = true ∧
    (coveredGameStart.handlePlayfieldCardClick ViewMode.callbackLater
        Vec2.ZERO 1).2.gameModel.stackTopCard =
      { playfieldCardAt 1 CardSuitType.CLUBS CardFaceType.THREE 300 700 with
        area := CardAreaType.STACK } ∧
    (coveredGameStart.handlePlayfieldCardClick ViewMode.callbackLater
        Vec2.ZERO 1).2.gameModel.stackTopCard.isFaceUp = true :=
  have h := handlePlayfieldCardClick_success ViewMode.callbackLater Vec2.ZERO 1 coveredGameStart
    (playfieldCardAt 1 CardSuitType.CLUBS CardFaceType.THREE 300 700)
    (Reachable.start coveredLevel (playfieldOnly []) false (by decide)) rfl (by decide) rfl
    (by decide)
  ⟨h.1, h.2.2.2.2.1, h.2.2.2.2.2.2.2.1⟩

/-- C9: for every game state with a non-empty reserve (and every undo stack),
`handleReserveClick`, run by a controller with no animation in progress,
returns `true`; the new stack-top is the last element of the old reserve (the
most recently pushed card) with faceUp = true and area = STACK, the new reserve
is the old reserve without its last element, order kept, and the playfield is
unchanged. -/
theorem handleReserveClick_success (view : ViewMode) (g : GameModel) (u : UndoManager)
    (hne : g.reserveCards ≠ []) :
    (GameController.handleReserveClick view ⟨g, u, false⟩).1 = true ∧
    (GameController.handleReserveClick view ⟨g, u, false⟩).2.gameModel.stackTopCard =
      { g.reserveCards.getLast hne with area := CardAreaType.STACK, isFaceUp := true } ∧
    (GameController.handleReserveClick view ⟨g, u, false⟩).2.gameModel.reserveCards =
      g.reserveCards.dropLast ∧
    g.reserveCards =
      (GameController.handleReserveClick view ⟨g, u, false⟩).2.gameModel.reserveCards ++
        [g.reserveCards.getLast hne] ∧
    (GameController.handleReserveClick view ⟨g, u, false⟩).2.gameModel.playfieldCards =
      g.playfieldCards :=
  handleReserveClick_of_idle view ⟨g, u, false⟩ rfl hne

/-- Witness for C9: the Ace of Hearts is drawn from the one-card reserve of the
first end-to-end scenario. -/
theorem handleReserveClick_success_witness :
    (kingVersusFour.handleReserveClick ViewMode.callbackLater).1 = true ∧
    (kingVersusFour.handleReserveClick ViewMode.callbackLater).2.gameModel.stackTopCard =
      { reserveCardOf 2 CardSuitType.HEARTS CardFaceType.ACE with
        area := CardAreaType.STACK, isFaceUp := true } ∧
    (kingVersusFour.handleReserveClick ViewMode.callbackLater).2.gameModel.reserveCards = [] :=
  have h := handleReserveClick_success ViewMode.callbackLater kingVersusFour.gameModel
    kingVersusFour.undoManager (by decide)
  ⟨h.1, h.2.1, h.2.2.1⟩

/-- C10: with an empty reserve `handleReserveClick` returns `false` and the whole
controller state (stack-top, playfield, reserve, next-id counter, undo stack) is
exactly the state before the call. -/
theorem handleReserveClick_empty_reserve (view : ViewMode) (s : GameController)
    (hempty : s.gameModel.reserveCards = []) :
    s.handleReserveClick view = (false, s) := by
  unfold GameController.handleReserveClick
  by_cases hanim : s.isAnimating = true
  · simp [hanim]
  · simp [hanim, GameModel.isReserveEmpty, hempty]

/-- Witness for C10: the second end-to-end scenario has an empty reserve. -/
theorem handleReserveClick_empty_reserve_witness :
    threeVersusFour.handleReserveClick ViewMode.callbackLater = (false, threeVersusFour) :=
  handleReserveClick_empty_reserve ViewMode.callbackLater threeVersusFour rfl

/-! ## The operation log -/

/-- C13: undo on an empty operation log fails and changes nothing.
`UndoManager::undo` returns `false` with the stack and the game model as they
were and without reaching the callback; `handleUndoClick` (and the completed
undo operation) returns `false` with the whole controller state unchanged. -/
theorem undo_on_empty_log_fails (view : ViewMode) (s : GameController)
    (hempty : s.undoManager.undoStack = []) :
    s.undoManager.undo s.gameModel = (false, s.undoManager, s.gameModel, none) ∧
    s.handleUndoClick view = (false, s) ∧
    s.undo view = (false, s) := by
  have hcan : s.undoManager.canUndo = false := by simp [UndoManager.canUndo, hempty]
  have hclick : s.handleUndoClick view = (false, s) := by
    unfold GameController.handleUndoClick
    by_cases hanim : s.isAnimating = true
    · simp [hanim]
    · simp [hanim, hcan]
  refine ⟨by simp [UndoManager.undo, hcan], hclick, ?_⟩
  simp [GameController.undo, hclick]

/-- Witness for C13: the second end-to-end scenario starts with an empty log. -/
theorem undo_on_empty_log_fails_witness :
    threeVersusFour.handleUndoClick ViewMode.callbackLater = (false, threeVersusFour) :=
  (undo_on_empty_log_fails ViewMode.callbackLater threeVersusFour rfl).2.1

/-- C14: `recordAction` leaves the log unchanged when the record's operation
type is NONE or its moved-card id is negative; otherwise the new log is the old
log with the record appended as its last element, so the size grows by exactly
one and the earlier records are untouched. -/
theorem recordAction_rejects_or_appends (m : UndoManager) (u : UndoModel) :
    m.recordAction u =
      (if u.operationType = CardOperationType.NONE ∨ u.movedCard.cardId < 0 then m
       else { undoStack := m.undoStack ++ [u] }) ∧
    (m.recordAction u).undoStack.length =
      (if u.operationType = CardOperationType.NONE ∨ u.movedCard.cardId < 0 then
        m.undoStack.length
       else m.undoStack.length + 1) ∧
    (m.recordAction u).undoStack.take m.undoStack.length = m.undoStack := by
  by_cases h1 : u.operationType = CardOperationType.NONE
  · simp [UndoManager.recordAction, UndoModel.isValid, h1]
  · by_cases h2 : u.movedCard.cardId < 0
    · simp [UndoManager.recordAction, UndoModel.isValid, h1, h2]
    · simp [UndoManager.recordAction, UndoModel.isValid, h1, h2]

/-! ## The model generator -/

/-- C16: `generate` fails whenever the descriptor has no playfield cards or no
stack-source cards; in every failing case the output game model is exactly the
model before the call; and for a descriptor with at least one playfield entry
and one stack-source entry, all with a face and a suit other than NONE, it
succeeds. -/
theorem generate_fails_without_mutation_or_succeeds (cfg : LevelConfig) (g₀ : GameModel) :
    ((cfg.playfieldCards = [] ∨ cfg.stackCards = []) → generate cfg g₀ = (false, g₀)) ∧
    ((generate cfg g₀).1 = false → (generate cfg g₀).2 = g₀) ∧
    (cfg.playfieldCards ≠ [] → cfg.stackCards ≠ [] →
      (∀ p ∈ cfg.playfieldCards ++ cfg.stackCards,
        p.face ≠ CardFaceType.NONE ∧ p.suit ≠ CardSuitType.NONE) →
      (generate cfg g₀).1 = true) := by
  have hsucc : cfg.isValid = true → (generate cfg g₀).1 = true := by
    intro hvalid
    obtain ⟨s₀, rest, hstack⟩ := isValid_stack_cons cfg hvalid
    rw [generate_of_valid cfg g₀ s₀ rest hvalid hstack]
  have hfail : cfg.isValid = false → generate cfg g₀ = (false, g₀) := by
    intro h
    simp [generate, h]
  refine ⟨?_, ?_, ?_⟩
  · intro h
    apply hfail
    rw [Bool.eq_false_iff]
    intro hvalid
    have := (isValid_iff cfg).1 hvalid
    rcases h with h | h
    · exact this.1 h
    · exact this.2.1 h
  · intro h
    cases hv : cfg.isValid with
    | true => rw [hsucc hv] at h; exact absurd h (by decide)
    | false => rw [hfail hv]
  · intro hp hs hall
    apply hsucc
    rw [isValid_iff]
    exact ⟨hp, hs, fun p hp => hall p (List.mem_append_left _ hp),
      fun p hp => hall p (List.mem_append_right _ hp)⟩

/-- Witness for C16: a descriptor without stack-source cards leaves the output
model untouched, and the descriptor of the first end-to-end scenario succeeds. -/
theorem generate_fails_without_mutation_or_succeeds_witness :
    generate noStackLevel kingVersusFour.gameModel = (false, kingVersusFour.gameModel) ∧
    (generate kingLevel threeVersusFour.gameModel).1 = true :=
  ⟨(generate_fails_without_mutation_or_succeeds noStackLevel kingVersusFour.gameModel).1
      (Or.inr rfl),
   (generate_fails_without_mutation_or_succeeds kingLevel threeVersusFour.gameModel).2.2
      (by decide) (by decide) (by decide)⟩

/-- C17: for a valid descriptor with playfield entries p_0 .. p_(n-1) and
stack-source entries s_0 .. s_(m-1), `generate` succeeds and produces a playfield
of n cards whose i-th card has id i and the rank, suit and position of p_i, a
stack-top with id n and the rank and suit of s_0, and a reserve of m - 1 cards
whose j-th element has id n + 1 + j and the rank and suit of s_(j+1); when there
are at least two stack-source entries, the card drawn first by
`drawReserveCard` is the one built from the last entry s_(m-1). -/
theorem generate_assigns_ids_in_order (cfg : LevelConfig) (g₀ : GameModel)
    (hvalid : cfg.isValid = true) :
    (generate cfg g₀).1 = true ∧
    (generate cfg g₀).2.playfieldCards.length = cfg.playfieldCards.length ∧
    (∀ (i : Nat) (p : CardConfigData), cfg.playfieldCards[i]? = some p →
      ∃ c, (generate cfg g₀).2.playfieldCards[i]? = some c ∧ c.cardId = i ∧
        c.face = p.face ∧ c.suit = p.suit ∧ c.position = p.position) ∧
    (∃ s₀, cfg.stackCards[0]? = some s₀ ∧
      (generate cfg g₀).2.stackTopCard.cardId = cfg.playfieldCards.length ∧
      (generate cfg g₀).2.stackTopCard.face = s₀.face ∧
      (generate cfg g₀).2.stackTopCard.suit = s₀.suit) ∧
    (generate cfg g₀).2.reserveCards.length + 1 = cfg.stackCards.length ∧
    (∀ (j : Nat) (q : CardConfigData), cfg.stackCards[j + 1]? = some q →
      ∃ c, (generate cfg g₀).2.reserveCards[j]? = some c ∧
        c.cardId = cfg.playfieldCards.length + 1 + j ∧ c.face = q.face ∧ c.suit = q.suit) ∧
    (∀ q : CardConfigData, 2 ≤ cfg.stackCards.length → cfg.stackCards.getLast? = some q →
      ∃ c g', (generate cfg g₀).2.drawReserveCard = some (c, g') ∧
        c.cardId = cfg.playfieldCards.length + cfg.stackCards.length - 1 ∧
        c.face = q.face ∧ c.suit = q.suit) := by
  obtain ⟨s₀, rest, hstack⟩ := isValid_stack_cons cfg hvalid
  rw [generate_of_valid cfg g₀ s₀ rest hvalid hstack]
  have hres : ∀ (j : Nat) (q : CardConfigData), rest[j]? = some q →
      (cardsFromConfigs CardAreaType.RESERVE false (cfg.playfieldCards.length + 1) rest)[j]? =
        some { cardId := cfg.playfieldCards.length + 1 + j, suit := q.suit, face := q.face,
               position := q.position, area := CardAreaType.RESERVE, isFaceUp := false,
               isClickable := false } := by
    intro j q hq
    rw [cardsFromConfigs_getElem?, hq]
    rfl
  refine ⟨rfl, ?_, ?_, ⟨s₀, by simp [hstack], rfl, rfl, rfl⟩, ?_, ?_, ?_⟩
  · simp [cardsFromConfigs_length]
  · intro i p hp
    simp only [List.getElem?_map, cardsFromConfigs_getElem?, hp, Option.map_some',
      CardModel.setClickable]
    exact ⟨_, rfl, by simp, rfl, rfl, rfl⟩
  · simp [cardsFromConfigs_length, hstack]
  · intro j q hq
    rw [hstack, List.getElem?_cons_succ] at hq
    exact ⟨_, hres j q hq, rfl, rfl, rfl⟩
  · intro q hlen hq
    simp only [hstack] at hlen hq ⊢
    have hrest : rest ≠ [] := by
      intro h
      rw [h] at hlen
      simp at hlen
    have hlast : rest.getLast? = some q := by
      cases rest with
      | nil => exact absurd rfl hrest
      | cons b l => simpa using hq
    have hidx : rest[rest.length - 1]? = some q := by
      rw [← List.getLast?_eq_getElem?]
      exact hlast
    have hdrawn := hres (rest.length - 1) q hidx
    have hlen' : (cardsFromConfigs CardAreaType.RESERVE false
        (cfg.playfieldCards.length + 1) rest).length - 1 = rest.length - 1 := by
      rw [cardsFromConfigs_length]
    have hcid : cfg.playfieldCards.length + 1 + ((rest.length - 1 : Nat) : Int) =
        (cfg.playfieldCards.length : Int) + ((s₀ :: rest).length : Int) - 1 := by
      have hpos : 0 < rest.length := List.length_pos.2 hrest
      simp only [List.length_cons]
      push_cast
      omega
    refine ⟨{ cardId := cfg.playfieldCards.length + 1 + ((rest.length - 1 : Nat) : Int),
              suit := q.suit, face := q.face, position := q.position,
              area := CardAreaType.RESERVE, isFaceUp := false, isClickable := false },
      { playfieldCards :=
          (cardsFromConfigs CardAreaType.PLAYFIELD true 0 cfg.playfieldCards).map
            (fun c => c.setClickable
              (!isBlockedLoop c
                (cardsFromConfigs CardAreaType.PLAYFIELD true 0 cfg.playfieldCards))),
        stackTopCard :=
          { cardId := cfg.playfieldCards.length, suit := s₀.suit, face := s₀.face,
            position := s₀.position, area := CardAreaType.STACK, isFaceUp := true,
            isClickable := false },
        reserveCards :=
          (cardsFromConfigs CardAreaType.RESERVE false
            (cfg.playfieldCards.length + 1) rest).dropLast,
        nextCardId := cfg.playfieldCards.length + 1 + rest.length },
      ?_, hcid, rfl, rfl⟩
    simp only [GameModel.drawReserveCard]
    rw [List.getLast?_eq_getElem?, hlen', hdrawn]

/-- Witness for C17: the descriptor of the first end-to-end scenario. -/
theorem generate_assigns_ids_in_order_witness :
    (generate kingLevel threeVersusFour.gameModel).1 = true ∧
    (generate kingLevel threeVersusFour.gameModel).2.playfieldCards.length = 1 ∧
    (generate kingLevel threeVersusFour.gameModel).2.reserveCards.length + 1 = 2 :=
  have h := generate_assigns_ids_in_order kingLevel threeVersusFour.gameModel (by decide)
  ⟨h.1, h.2.1, h.2.2.2.2.1⟩

/-- C18: for a valid descriptor, after `generate` every playfield card has area
PLAYFIELD, is face up, and its clickable flag is the result of the occlusion
scan over the complete generated playfield: it is clickable exactly when no
other card of that playfield with a strictly smaller y is reported as
overlapping it (re-running the occlusion resolver changes nothing); the
stack-top has area STACK, is face up and not clickable; every reserve card has
area RESERVE, is face down and not clickable. -/
theorem generate_sets_flags (cfg : LevelConfig) (g₀ : GameModel)
    (hvalid : cfg.isValid = true) :
    (∀ c ∈ (generate cfg g₀).2.playfieldCards,
      c.area = CardAreaType.PLAYFIELD ∧ c.isFaceUp = true ∧
        c.isClickable = !isBlockedLoop c (generate cfg g₀).2.playfieldCards ∧
        (c.isClickable = true ↔
          ¬ ∃ o ∈ (generate cfg g₀).2.playfieldCards, Blocks o c)) ∧
    updatePlayfieldClickable (generate cfg g₀).2 = (generate cfg g₀).2 ∧
    ((generate cfg g₀).2.stackTopCard.area = CardAreaType.STACK ∧
      (generate cfg g₀).2.stackTopCard.isFaceUp = true ∧
      (generate cfg g₀).2.stackTopCard.isClickable = false) ∧
    (∀ c ∈ (generate cfg g₀).2.reserveCards,
      c.area = CardAreaType.RESERVE ∧ c.isFaceUp = false ∧ c.isClickable = false) := by
  obtain ⟨s₀, rest, hstack⟩ := isValid_stack_cons cfg hvalid
  rw [generate_of_valid cfg g₀ s₀ rest hvalid hstack]
  have hpf : ∀ tail : GameModel,
      (cardsFromConfigs CardAreaType.PLAYFIELD true 0 cfg.playfieldCards).map
        (fun c => c.setClickable
          (!isBlockedLoop c (cardsFromConfigs CardAreaType.PLAYFIELD true 0 cfg.playfieldCards))) =
      (updatePlayfieldClickable
        { tail with
          playfieldCards :=
            cardsFromConfigs CardAreaType.PLAYFIELD true 0 cfg.playfieldCards }).playfieldCards :=
    fun tail => (updatePlayfieldClickable_playfield
      { tail with
        playfieldCards :=
          cardsFromConfigs CardAreaType.PLAYFIELD true 0 cfg.playfieldCards }).symm
  refine ⟨?_, ?_, ⟨rfl, rfl, rfl⟩, ?_⟩
  · intro c hc
    simp only at hc ⊢
    refine ⟨?_, ?_, ?_, ?_⟩
    · obtain ⟨c₀, hc₀, rfl⟩ := List.mem_map.1 hc
      exact (cardsFromConfigs_mem _ _ _ _ c₀ hc₀).1
    · obtain ⟨c₀, hc₀, rfl⟩ := List.mem_map.1 hc
      exact (cardsFromConfigs_mem _ _ _ _ c₀ hc₀).2.1
    · rw [hpf g₀] at hc ⊢
      have hiff := updated_clickable_iff _ c hc
      rw [← isBlockedLoop_iff] at hiff
      cases hb : isBlockedLoop c _ <;> simp [hb] at hiff ⊢ <;> exact hiff
    · rw [hpf g₀] at hc ⊢
      exact updated_clickable_iff _ c hc
  · simp only
    rw [hpf g₀]
    have := updatePlayfieldClickable_idem
      { g₀ with
        playfieldCards := cardsFromConfigs CardAreaType.PLAYFIELD true 0 cfg.playfieldCards }
    have hpf' := congrArg GameModel.playfieldCards this
    simp only [updatePlayfieldClickable] at hpf' ⊢
    rw [hpf']
  · intro c hc
    have := cardsFromConfigs_mem _ _ _ _ c hc
    exact ⟨this.1, this.2.1, this.2.2.1⟩

/-- Witness for C18: the descriptor of the first end-to-end scenario. -/
theorem generate_sets_flags_witness :
    (generate kingLevel threeVersusFour.gameModel).2.stackTopCard.area = CardAreaType.STACK ∧
    (generate kingLevel threeVersusFour.gameModel).2.stackTopCard.isFaceUp = true ∧
    (generate kingLevel threeVersusFour.gameModel).2.stackTopCard.isClickable = false :=
  (generate_sets_flags kingLevel threeVersusFour.gameModel (by decide)).2.2.1

/-! ## The operation log and the handlers -/

/-- C15: in every state reachable from a successful `generate`, a successful
completed match and a successful completed draw each append exactly one record
to the undo stack, so its size grows by one; the record of a match holds the
matched card as it was in the playfield before the move and the stack-top card
as it was before the operation, the record of a draw holds the last reserve
card as it was before the draw and the stack-top card as it was before the
operation.  The handlers `handlePlayfieldCardClick` and `handleReserveClick`
leave the same undo stack as the completed operations. -/
theorem successful_operation_appends_record (s : GameController) (hreach : Reachable s) :
    (∀ (view : ViewMode) (viewTargetPos : Vec2) (cardId : Int),
      (s.attemptMatch view viewTargetPos cardId).1 = true →
      ∃ c : CardModel, s.gameModel.getPlayfieldCardById cardId = some c ∧
        (s.attemptMatch view viewTargetPos cardId).2.undoManager.undoStack =
          s.undoManager.undoStack ++
            [{ operationType := CardOperationType.PLAYFIELD_TO_STACK, movedCard := c,
               previousStackTopCard := s.gameModel.stackTopCard,
               originalPosition := c.position, targetPosition := viewTargetPos }] ∧
        (s.attemptMatch view viewTargetPos cardId).2.undoManager.undoStack.length =
          s.undoManager.undoStack.length + 1 ∧
        (s.handlePlayfieldCardClick view viewTargetPos cardId).2.undoManager =
          (s.attemptMatch view viewTargetPos cardId).2.undoManager) ∧
    (∀ view : ViewMode, (s.drawReserve view).1 = true →
      ∃ hne : s.gameModel.reserveCards ≠ [],
        (s.drawReserve view).2.undoManager.undoStack =
          s.undoManager.undoStack ++
            [{ operationType := CardOperationType.RESERVE_TO_STACK,
               movedCard := s.gameModel.reserveCards.getLast hne,
               previousStackTopCard := s.gameModel.stackTopCard,
               originalPosition := Vec2.ZERO, targetPosition := Vec2.ZERO }] ∧
        (s.drawReserve view).2.undoManager.undoStack.length =
          s.undoManager.undoStack.length + 1 ∧
        (s.handleReserveClick view).2.undoManager = (s.drawReserve view).2.undoManager) := by
  have hwf := reachable_wellFormed s hreach
  constructor
  · intro view viewTargetPos cardId hsucc
    rcases attemptMatch_cases view viewTargetPos cardId s with hf | ⟨c, hidle, hfound, hclick, hm⟩
    · rw [hf] at hsucc
      exact absurd hsucc (by simp)
    obtain ⟨hcid, _, l₁, l₂, hsplit, _, _⟩ :=
      find_card_split cardId c s.gameModel.playfieldCards hfound
    have hcmem : c ∈ s.gameModel.playfieldCards := by rw [hsplit]; simp
    have hid : 0 ≤ c.cardId :=
      hwf.nonneg _ (mem_idBag_of_playfield s.gameModel s.undoManager.undoStack c hcmem)
    have hrec :
        s.undoManager.recordPlayfieldToStack c s.gameModel.stackTopCard c.position
            viewTargetPos =
          { undoStack := s.undoManager.undoStack ++
            [{ operationType := CardOperationType.PLAYFIELD_TO_STACK, movedCard := c,
               previousStackTopCard := s.gameModel.stackTopCard,
               originalPosition := c.position, targetPosition := viewTargetPos }] } := by
      simp only [UndoManager.recordPlayfieldToStack]
      rw [recordAction_of_valid _ _ (by simp [UndoModel.create]) (by simpa using hid)]
      simp [UndoModel.create]
    have hrun : s.handlePlayfieldCardClick view viewTargetPos cardId =
        (true, s.executePlayfieldToStack view viewTargetPos cardId) := by
      simp [GameController.handlePlayfieldCardClick, hidle, hfound, hclick,
        CardModel.canMatchWith, hm]
    have hhandler :
        (s.handlePlayfieldCardClick view viewTargetPos cardId).2.undoManager =
          s.undoManager.recordPlayfieldToStack c s.gameModel.stackTopCard c.position
            viewTargetPos := by
      rw [hrun, executePlayfieldToStack_eq view viewTargetPos cardId s c hfound]
    rw [hhandler, attemptMatch_eq view viewTargetPos cardId s c hidle hfound hclick hm, hrec]
    refine ⟨c, hfound, rfl, ?_, rfl⟩
    simp
  · intro view hsucc
    rcases drawReserve_cases view s with hf | ⟨front, d, hidle, hres⟩
    · rw [hf] at hsucc
      exact absurd hsucc (by simp)
    have hne : s.gameModel.reserveCards ≠ [] := by rw [hres]; simp
    have hlast : s.gameModel.reserveCards.getLast hne = d := by
      simp [hres]
    have hdmem : d ∈ s.gameModel.reserveCards := by rw [hres]; simp
    have hid : 0 ≤ d.cardId :=
      hwf.nonneg _ (mem_idBag_of_reserve s.gameModel s.undoManager.undoStack d hdmem)
    have hrec : s.undoManager.recordReserveToStack d s.gameModel.stackTopCard =
        { undoStack := s.undoManager.undoStack ++
          [{ operationType := CardOperationType.RESERVE_TO_STACK, movedCard := d,
             previousStackTopCard := s.gameModel.stackTopCard,
             originalPosition := Vec2.ZERO, targetPosition := Vec2.ZERO }] } := by
      simp only [UndoManager.recordReserveToStack]
      rw [recordAction_of_valid _ _ (by simp [UndoModel.create]) (by simpa using hid)]
      simp [UndoModel.create]
    have hrun : s.handleReserveClick view = (true, s.executeReserveDraw view) := by
      simp [GameController.handleReserveClick, hidle, GameModel.isReserveEmpty, hres]
    have hhandler : (s.handleReserveClick view).2.undoManager =
        s.undoManager.recordReserveToStack d s.gameModel.stackTopCard := by
      rw [hrun, executeReserveDraw_eq view s front d hres]
    rw [hhandler, drawReserve_eq view s front d hidle hres, hrec]
    refine ⟨hne, ?_, ?_, rfl⟩
    · rw [hlast]
    · simp

/-- Witness for C15: right after `generate` on `coveredLevel` the Three of Clubs
(id 1) is matched on the Four of Clubs, and the undo stack holds one record. -/
theorem successful_operation_appends_record_witness :
    (coveredGameStart.attemptMatch ViewMode.callbackLater Vec2.ZERO 1).1 = true ∧
    ∃ c : CardModel, coveredGameStart.gameModel.getPlayfieldCardById 1 = some c ∧
      (coveredGameStart.attemptMatch ViewMode.callbackLater
          Vec2.ZERO 1).2.undoManager.undoStack =
        coveredGameStart.undoManager.undoStack ++
          [{ operationType := CardOperationType.PLAYFIELD_TO_STACK, movedCard := c,
             previousStackTopCard := coveredGameStart.gameModel.stackTopCard,
             originalPosition := c.position, targetPosition := Vec2.ZERO }] ∧
      (coveredGameStart.attemptMatch ViewMode.callbackLater
          Vec2.ZERO 1).2.undoManager.undoStack.length =
        coveredGameStart.undoManager.undoStack.length + 1 ∧
      (coveredGameStart.handlePlayfieldCardClick ViewMode.callbackLater
          Vec2.ZERO 1).2.undoManager =
        (coveredGameStart.attemptMatch ViewMode.callbackLater Vec2.ZERO 1).2.undoManager :=
  ⟨by decide,
   (successful_operation_appends_record coveredGameStart
      (Reachable.start coveredLevel (playfieldOnly []) false (by decide))).1
      ViewMode.callbackLater Vec2.ZERO 1 (by decide)⟩

/-! ## Undo round trips -/

/-- C11: in every state reachable from a successful `generate` in which the
completed match `attemptMatch cardId` succeeds, the match followed by a
completed undo succeeds and yields a state whose playfield is the old playfield
with the matched card moved to the end (every card unchanged up to its
clickable flag), so it holds the same card ids as before, with the card
`cardId` back in area PLAYFIELD, face up, at its original position and with its
rank and suit; whose stack-top is the stack-top before the match; and whose
reserve, next-id counter and undo stack are those before the match. -/
theorem undo_after_match_restores (view₁ view₂ : ViewMode) (viewTargetPos : Vec2)
    (cardId : Int) (s : GameController) (hreach : Reachable s)
    (hsucc : (s.attemptMatch view₁ viewTargetPos cardId).1 = true) :
    (matchThenUndo view₁ view₂ viewTargetPos cardId s).1 = true ∧
    (∃ (c : CardModel) (l₁ l₂ : List CardModel),
      s.gameModel.getPlayfieldCardById cardId = some c ∧
      s.gameModel.playfieldCards = l₁ ++ c :: l₂ ∧ (∀ x ∈ l₁, x.cardId ≠ cardId) ∧
      (matchThenUndo view₁ view₂ viewTargetPos cardId
          s).2.gameModel.playfieldCards.map CardModel.withoutFlag =
        (l₁ ++ l₂ ++ [c]).map CardModel.withoutFlag ∧
      ∃ c' ∈ (matchThenUndo view₁ view₂ viewTargetPos cardId s).2.gameModel.playfieldCards,
        c'.cardId = cardId ∧ c'.position = c.position ∧ c'.face = c.face ∧
        c'.suit = c.suit ∧ c'.area = CardAreaType.PLAYFIELD ∧ c'.isFaceUp = true) ∧
    List.Perm
      ((matchThenUndo view₁ view₂ viewTargetPos cardId
        s).2.gameModel.playfieldCards.map (fun x : CardModel => x.cardId))
      (s.gameModel.playfieldCards.map (fun x : CardModel => x.cardId)) ∧
    (matchThenUndo view₁ view₂ viewTargetPos cardId s).2.gameModel.stackTopCard =
      s.gameModel.stackTopCard ∧
    (matchThenUndo view₁ view₂ viewTargetPos cardId s).2.gameModel.reserveCards =
      s.gameModel.reserveCards ∧
    (matchThenUndo view₁ view₂ viewTargetPos cardId s).2.gameModel.nextCardId =
      s.gameModel.nextCardId ∧
    (matchThenUndo view₁ view₂ viewTargetPos cardId s).2.undoManager = s.undoManager := by
  rcases attemptMatch_cases view₁ viewTargetPos cardId s with hf | ⟨c, hidle, hfound, hclick, hm⟩
  · rw [hf] at hsucc
    exact absurd hsucc (by simp)
  have hwf := reachable_wellFormed s hreach
  obtain ⟨g, u, a⟩ := s
  simp only at hidle hfound hm hwf
  subst hidle
  obtain ⟨hcid, _, l₁, l₂, hsplit, hpre, herase⟩ :=
    find_card_split cardId c g.playfieldCards hfound
  have hcmem : c ∈ g.playfieldCards := by rw [hsplit]; simp
  have hid : 0 ≤ cardId := by
    rw [← hcid]
    exact hwf.nonneg _ (mem_idBag_of_playfield g u.undoStack c hcmem)
  have hback : ({ c with area := CardAreaType.PLAYFIELD, isFaceUp := true } : CardModel) = c := by
    have h := hwf.playfield c hcmem
    obtain ⟨h1, h2⟩ := h
    cases c
    simp only at h1 h2
    subst h1 h2
    rfl
  have htopback : ({ g.stackTopCard with area := CardAreaType.STACK } : CardModel) =
      g.stackTopCard := stackCard_restored g.stackTopCard hwf.stackTop.1
  obtain ⟨h1, htop, hres, hnext, hundo, _, hpf⟩ :=
    matchThenUndo_eq view₁ view₂ viewTargetPos cardId g u c hfound hclick hm hid
  rw [herase, hback] at hpf
  rw [htopback] at htop
  have hids :
      (matchThenUndo view₁ view₂ viewTargetPos cardId
        ⟨g, u, false⟩).2.gameModel.playfieldCards.map (fun x : CardModel => x.cardId) =
      (l₁ ++ l₂ ++ [c]).map (fun x : CardModel => x.cardId) := by
    have := congrArg (List.map (fun x : CardModel => x.cardId)) hpf
    simpa [List.map_map, Function.comp, CardModel.withoutFlag] using this
  refine ⟨h1, ⟨c, l₁, l₂, hfound, hsplit, hpre, hpf, ?_⟩, ?_, htop, hres, hnext, hundo⟩
  · have hmem : CardModel.withoutFlag c ∈
        (matchThenUndo view₁ view₂ viewTargetPos cardId
          ⟨g, u, false⟩).2.gameModel.playfieldCards.map CardModel.withoutFlag := by
      rw [hpf]
      simp
    obtain ⟨c', hc', hflag⟩ := List.mem_map.1 hmem
    have hpc := hwf.playfield c hcmem
    refine ⟨c', hc', ?_, ?_, ?_, ?_, ?_, ?_⟩
    · have := congrArg CardModel.cardId hflag
      simpa [CardModel.withoutFlag, hcid] using this
    · have := congrArg CardModel.position hflag
      simpa [CardModel.withoutFlag] using this
    · have := congrArg CardModel.face hflag
      simpa [CardModel.withoutFlag] using this
    · have := congrArg CardModel.suit hflag
      simpa [CardModel.withoutFlag] using this
    · have := congrArg CardModel.area hflag
      simpa [CardModel.withoutFlag, hpc.1] using this
    · have := congrArg CardModel.isFaceUp hflag
      simpa [CardModel.withoutFlag, hpc.2] using this
  · rw [hids]
    show List.Perm _ (g.playfieldCards.map (fun x : CardModel => x.cardId))
    rw [hsplit]
    simp only [List.map_append, List.map_cons, List.map_nil, List.append_assoc]
    exact List.Perm.append_left _ (List.perm_append_singleton _ _)

/-- Witness for C11: right after `generate` on `coveredLevel` the Three of Clubs
(id 1) is matched on the Four of Clubs and the match is undone. -/
theorem undo_after_match_restores_witness :
    (coveredGameStart.attemptMatch ViewMode.callbackLater Vec2.ZERO 1).1 = true ∧
    (matchThenUndo ViewMode.callbackLater ViewMode.callbackLater Vec2.ZERO 1
      coveredGameStart).1 = true ∧
    (matchThenUndo ViewMode.callbackLater ViewMode.callbackLater Vec2.ZERO 1
      coveredGameStart).2.gameModel.stackTopCard = coveredGameStart.gameModel.stackTopCard ∧
    (matchThenUndo ViewMode.callbackLater ViewMode.callbackLater Vec2.ZERO 1
      coveredGameStart).2.gameModel.reserveCards = coveredGameStart.gameModel.reserveCards :=
  have h := undo_after_match_restores ViewMode.callbackLater ViewMode.callbackLater Vec2.ZERO 1
    coveredGameStart (Reachable.start coveredLevel (playfieldOnly []) false (by decide))
    (by decide)
  ⟨by decide, h.1, h.2.2.2.1, h.2.2.2.2.1⟩

/-- C12: in every state reachable from a successful `generate`, with no
animation in progress and a non-empty reserve, the completed draw succeeds, and
the draw followed by a completed undo succeeds and puts the drawn card back as
the last element of the reserve, in area RESERVE, face down and not clickable,
so that the next `drawReserveCard` draws the card with the same id, rank and
suit again; the reserve has the same length and the same card ids in the same
order as before the draw; the stack-top is the stack-top before the draw; the
playfield and the undo stack are those before the draw. -/
theorem undo_after_draw_restores (view₁ view₂ : ViewMode) (s : GameController)
    (hreach : Reachable s) (hidle : s.isAnimating = false)
    (hne : s.gameModel.reserveCards ≠ []) :
    (s.drawReserve view₁).1 = true ∧
    (drawThenUndo view₁ view₂ s).1 = true ∧
    (drawThenUndo view₁ view₂ s).2.gameModel.reserveCards =
      s.gameModel.reserveCards.dropLast ++
        [{ s.gameModel.reserveCards.getLast hne with
            area := CardAreaType.RESERVE, isFaceUp := false, isClickable := false }] ∧
    (drawThenUndo view₁ view₂ s).2.gameModel.reserveCards.length =
      s.gameModel.reserveCards.length ∧
    (drawThenUndo view₁ view₂ s).2.gameModel.reserveCards.map (fun x : CardModel => x.cardId) =
      s.gameModel.reserveCards.map (fun x : CardModel => x.cardId) ∧
    (∃ d g', (drawThenUndo view₁ view₂ s).2.gameModel.drawReserveCard = some (d, g') ∧
      d.cardId = (s.gameModel.reserveCards.getLast hne).cardId ∧
      d.face = (s.gameModel.reserveCards.getLast hne).face ∧
      d.suit = (s.gameModel.reserveCards.getLast hne).suit) ∧
    (drawThenUndo view₁ view₂ s).2.gameModel.stackTopCard = s.gameModel.stackTopCard ∧
    (drawThenUndo view₁ view₂ s).2.gameModel.playfieldCards = s.gameModel.playfieldCards ∧
    (drawThenUndo view₁ view₂ s).2.undoManager = s.undoManager := by
  have hwf := reachable_wellFormed s hreach
  obtain ⟨g, u, a⟩ := s
  simp only at hidle hne hwf
  subst hidle
  have hres : g.reserveCards = g.reserveCards.dropLast ++ [g.reserveCards.getLast hne] :=
    (List.dropLast_append_getLast hne).symm
  have hid : 0 ≤ (g.reserveCards.getLast hne).cardId :=
    hwf.nonneg _ (mem_idBag_of_reserve g u.undoStack _ (List.getLast_mem hne))
  have htopback : ({ g.stackTopCard with area := CardAreaType.STACK } : CardModel) =
      g.stackTopCard := stackCard_restored g.stackTopCard hwf.stackTop.1
  have hdraw : (GameController.drawReserve view₁ ⟨g, u, false⟩).1 = true := by
    rw [drawReserve_eq view₁ ⟨g, u, false⟩ _ _ rfl hres]
  rw [drawThenUndo_eq view₁ view₂ g u _ _ hres hid, htopback]
  refine ⟨hdraw, rfl, rfl, ?_, ?_, ?_, rfl, rfl, rfl⟩
  · show (g.reserveCards.dropLast ++ [_]).length = g.reserveCards.length
    conv_rhs => rw [hres]
    simp
  · show (g.reserveCards.dropLast ++ [_]).map _ = g.reserveCards.map _
    conv_rhs => rw [hres]
    simp
  · refine ⟨{ g.reserveCards.getLast hne with
        area := CardAreaType.RESERVE, isFaceUp := false, isClickable := false },
      { playfieldCards := g.playfieldCards,
        stackTopCard := g.stackTopCard,
        reserveCards := g.reserveCards.dropLast,
        nextCardId := g.nextCardId }, ?_, rfl, rfl, rfl⟩
    simp [GameModel.drawReserveCard]

/-- Witness for C12: right after `generate` on the first end-to-end scenario the
reserve card is drawn and the draw is undone. -/
theorem undo_after_draw_restores_witness :
    kingGameStart.gameModel.reserveCards ≠ [] ∧
    (drawThenUndo ViewMode.callbackLater ViewMode.callbackLater kingGameStart).1 = true ∧
    (drawThenUndo ViewMode.callbackLater ViewMode.callbackLater
      kingGameStart).2.gameModel.stackTopCard = kingGameStart.gameModel.stackTopCard :=
  have h := undo_after_draw_restores ViewMode.callbackLater ViewMode.callbackLater
    kingGameStart (Reachable.start kingLevel (playfieldOnly []) false (by decide)) rfl
    (by decide)
  ⟨by decide, h.2.1, h.2.2.2.2.2.2.1⟩

/-! ## Invariants of reachable states -/

/-- C19: in every state reachable from a successful `generate` by any sequence
of playfield clicks, reserve clicks and undo clicks (successful or failing,
with their completion callbacks), the ids of the playfield cards, of the
stack-top and of the reserve cards are pairwise different: every id occurs in
exactly one of the three areas and only once there. -/
theorem reachable_ids_unique (s : GameController) (h : Reachable s) :
    (s.gameModel.playfieldCards.map (fun c => c.cardId) ++
      s.gameModel.stackTopCard.cardId ::
        s.gameModel.reserveCards.map (fun c => c.cardId)).Nodup := by
  have hwf := reachable_wellFormed s h
  have hle :
      ((s.gameModel.playfieldCards.map (fun c => c.cardId) ++
        s.gameModel.stackTopCard.cardId ::
          s.gameModel.reserveCards.map (fun c => c.cardId) : List Int) : Multiset Int) ≤
      idBag s.gameModel s.undoManager.undoStack := by
    have heq :
        ((s.gameModel.playfieldCards.map (fun c => c.cardId) ++
          s.gameModel.stackTopCard.cardId ::
            s.gameModel.reserveCards.map (fun c => c.cardId) : List Int) : Multiset Int) =
        (s.gameModel.playfieldCards.map (fun c => c.cardId) : Multiset Int) +
          {s.gameModel.stackTopCard.cardId} +
          (s.gameModel.reserveCards.map (fun c => c.cardId) : Multiset Int) := by
      simp only [← Multiset.coe_add, ← Multiset.cons_coe, ← Multiset.singleton_add]
      abel
    rw [heq]
    exact Multiset.le_add_right _ _
  exact Multiset.coe_nodup.1 (Multiset.nodup_of_le hle hwf.nodup)

/-- Witness for C19: the state after generating the first end-to-end scenario
and drawing from the reserve. -/
theorem reachable_ids_unique_witness :
    ((kingGameStart.handleReserveClick ViewMode.callbackLater).2.gameModel.playfieldCards.map
        (fun c => c.cardId) ++
      (kingGameStart.handleReserveClick ViewMode.callbackLater).2.gameModel.stackTopCard.cardId ::
        (kingGameStart.handleReserveClick ViewMode.callbackLater).2.gameModel.reserveCards.map
          (fun c => c.cardId)).Nodup :=
  reachable_ids_unique _
    (Reachable.reserveClick ViewMode.callbackLater _
      (Reachable.start kingLevel (playfieldOnly []) false (by decide)))

/-- C20: in every state reachable from a successful `generate` by any sequence
of playfield clicks, reserve clicks and undo clicks (with their completion
callbacks), every playfield card has area PLAYFIELD and is face up, the
stack-top has area STACK and is face up, and every reserve card has area
RESERVE and is face down. -/
theorem reachable_areas_and_faces (s : GameController) (h : Reachable s) :
    (∀ c ∈ s.gameModel.playfieldCards,
      c.area = CardAreaType.PLAYFIELD ∧ c.isFaceUp = true) ∧
    (s.gameModel.stackTopCard.area = CardAreaType.STACK ∧
      s.gameModel.stackTopCard.isFaceUp = true) ∧
    (∀ c ∈ s.gameModel.reserveCards,
      c.area = CardAreaType.RESERVE ∧ c.isFaceUp = false) :=
  have hwf := reachable_wellFormed s h
  ⟨hwf.playfield, hwf.stackTop, hwf.reserve⟩

/-- Witness for C20: the state after generating the first end-to-end scenario,
drawing from the reserve and undoing the draw. -/
theorem reachable_areas_and_faces_witness :
    (((kingGameStart.handleReserveClick ViewMode.callbackNow).2.handleUndoClick
        ViewMode.callbackNow).2.gameModel.stackTopCard.area = CardAreaType.STACK ∧
      ((kingGameStart.handleReserveClick ViewMode.callbackNow).2.handleUndoClick
        ViewMode.callbackNow).2.gameModel.stackTopCard.isFaceUp = true) :=
  (reachable_areas_and_faces _
    (Reachable.undoClick ViewMode.callbackNow _
      (Reachable.reserveClick ViewMode.callbackNow _
        (Reachable.start kingLevel (playfieldOnly []) false (by decide))))).2.1

/-! ## More on the occlusion resolver -/

/-- C29: `updatePlayfieldClickable` is idempotent and changes only clickable
flags.  Running it twice gives the model that one run gives, and one run leaves
the stack-top, the reserve, the next-id counter and the length of the playfield
unchanged and keeps every playfield card in its place with its id, rank, suit,
position, area and face-up flag. -/
theorem updatePlayfieldClickable_idempotent_and_frame (g : GameModel) :
    updatePlayfieldClickable (updatePlayfieldClickable g) = updatePlayfieldClickable g ∧
    (updatePlayfieldClickable g).stackTopCard = g.stackTopCard ∧
    (updatePlayfieldClickable g).reserveCards = g.reserveCards ∧
    (updatePlayfieldClickable g).nextCardId = g.nextCardId ∧
    (updatePlayfieldClickable g).playfieldCards.length = g.playfieldCards.length ∧
    List.Forall₂
      (fun c c' =>
        c'.cardId = c.cardId ∧ c'.face = c.face ∧ c'.suit = c.suit ∧
          c'.position = c.position ∧ c'.area = c.area ∧ c'.isFaceUp = c.isFaceUp)
      g.playfieldCards (updatePlayfieldClickable g).playfieldCards := by
  refine ⟨updatePlayfieldClickable_idem g, rfl, rfl, rfl, ?_, ?_⟩
  · rw [updatePlayfieldClickable_playfield, List.length_map]
  · rw [updatePlayfieldClickable_playfield, List.forall₂_map_right_iff, List.forall₂_same]
    intro c _
    exact ⟨rfl, rfl, rfl, rfl, rfl, rfl⟩

/-- C27: occlusion never deadlocks the tableau.  For every non-empty playfield,
after `updatePlayfieldClickable` at least one card is clickable; indeed every
card whose y is minimal in the playfield is set clickable (at its index, and
otherwise unchanged). -/
theorem nonempty_playfield_has_clickable_card (g : GameModel)
    (hne : g.playfieldCards ≠ []) :
    (∃ c ∈ (updatePlayfieldClickable g).playfieldCards, c.isClickable = true) ∧
    (∀ (i : Nat) (c : CardModel), g.playfieldCards[i]? = some c →
      (∀ o ∈ g.playfieldCards, c.position.y ≤ o.position.y) →
      (updatePlayfieldClickable g).playfieldCards[i]? = some { c with isClickable := true }) := by
  have hmin : ∀ (i : Nat) (c : CardModel), g.playfieldCards[i]? = some c →
      (∀ o ∈ g.playfieldCards, c.position.y ≤ o.position.y) →
      (updatePlayfieldClickable g).playfieldCards[i]? = some { c with isClickable := true } := by
    intro i c hc hle
    rw [updatePlayfieldClickable_playfield, List.getElem?_map, hc]
    simp [CardModel.setClickable, isBlockedLoop_of_minimal c g.playfieldCards hle]
  refine ⟨?_, hmin⟩
  obtain ⟨m, hm, hle⟩ := exists_min_y g.playfieldCards hne
  obtain ⟨i, hi⟩ := List.getElem?_of_mem hm
  exact ⟨{ m with isClickable := true }, List.getElem?_mem (hmin i m hi hle), rfl⟩

/-- Witness for C27: two overlapping cards, the upper one (smaller y) blocks the
other and is itself clickable. -/
theorem nonempty_playfield_has_clickable_card_witness :
    ∃ c ∈ (updatePlayfieldClickable
        (playfieldOnly
          [playfieldCardAt 0 CardSuitType.CLUBS CardFaceType.KING 300 800,
           playfieldCardAt 1 CardSuitType.CLUBS CardFaceType.THREE 300 700])).playfieldCards,
      c.isClickable = true :=
  (nonempty_playfield_has_clickable_card
    (playfieldOnly
      [playfieldCardAt 0 CardSuitType.CLUBS CardFaceType.KING 300 800,
       playfieldCardAt 1 CardSuitType.CLUBS CardFaceType.THREE 300 700])
    (by decide)).1

/-- C28: occlusion is monotone under removal.  For every playfield P and every
card r of P, each card remaining after `removePlayfieldCard r.cardId` that
`updatePlayfieldClickable` marks clickable in P is also marked clickable in P
with r removed.  No assumption on the ids is needed. -/
theorem removal_never_blocks (g : GameModel) (r : CardModel)
    (hr : r ∈ g.playfieldCards) :
    (g.removePlayfieldCard r.cardId).1 = true ∧
    ∀ c ∈ (g.removePlayfieldCard r.cardId).2.playfieldCards,
      c.setClickable true ∈ (updatePlayfieldClickable g).playfieldCards →
      c.setClickable true ∈
        (updatePlayfieldClickable (g.removePlayfieldCard r.cardId).2).playfieldCards := by
  have hany : g.playfieldCards.any (fun card => card.cardId == r.cardId) = true := by
    rw [List.any_eq_true]
    exact ⟨r, hr, by simp⟩
  have hrem : g.removePlayfieldCard r.cardId =
      (true, { g with
        playfieldCards := g.playfieldCards.eraseP (fun card => card.cardId == r.cardId) }) := by
    simp [GameModel.removePlayfieldCard, hany]
  rw [hrem]
  refine ⟨rfl, ?_⟩
  intro c hc hclick
  simp only at hc
  rw [updatePlayfieldClickable_playfield] at hclick ⊢
  obtain ⟨c₀, _, hc₀⟩ := List.mem_map.1 hclick
  have hid : c.cardId = c₀.cardId := (congrArg CardModel.cardId hc₀).symm
  have hpos : c.position = c₀.position := (congrArg CardModel.position hc₀).symm
  have hflag : (!isBlockedLoop c₀ g.playfieldCards) = true := by
    have := congrArg CardModel.isClickable hc₀
    simpa [CardModel.setClickable] using this
  have hfree : isBlockedLoop c g.playfieldCards = false := by
    rw [isBlockedLoop_of_same_geom c c₀ _ hid hpos]
    simpa using hflag
  have hfree' : isBlockedLoop c
      (g.playfieldCards.eraseP (fun card => card.cardId == r.cardId)) = false :=
    isBlockedLoop_of_subset c _ _ (fun o ho => List.mem_of_mem_eraseP ho) hfree
  refine List.mem_map.2 ⟨c, hc, ?_⟩
  simp [hfree']

/-- Witness for C28: three cards in a column; removing the card at (300, 700)
keeps the card at (300, 600) clickable. -/
theorem removal_never_blocks_witness :
    (playfieldCardAt 2 CardSuitType.SPADES CardFaceType.TEN 300 600).setClickable true ∈
      (updatePlayfieldClickable
        ((playfieldOnly
          [playfieldCardAt 0 CardSuitType.CLUBS CardFaceType.KING 300 800,
           playfieldCardAt 1 CardSuitType.CLUBS CardFaceType.THREE 300 700,
           playfieldCardAt 2 CardSuitType.SPADES CardFaceType.TEN 300 600]).removePlayfieldCard
          1).2).playfieldCards :=
  (removal_never_blocks
    (playfieldOnly
      [playfieldCardAt 0 CardSuitType.CLUBS CardFaceType.KING 300 800,
       playfieldCardAt 1 CardSuitType.CLUBS CardFaceType.THREE 300 700,
       playfieldCardAt 2 CardSuitType.SPADES CardFaceType.TEN 300 600])
    (playfieldCardAt 1 CardSuitType.CLUBS CardFaceType.THREE 300 700)
    (by decide)).2
    (playfieldCardAt 2 CardSuitType.SPADES CardFaceType.TEN 300 600) (by decide) (by decide)

/-! ## Matching against an empty stack, and the end-to-end scenario -/

/-- C24: every matching attempt against an empty stack fails.  When the
stack-top is the empty sentinel, the default-constructed card (id -1, rank and
suit NONE) whatever area it was stamped with, `hasStackTopCard` is `false` and,
for every card id, `handlePlayfieldCardClick` (and the completed match
operation) returns `false` and leaves the whole controller state unchanged. -/
theorem match_against_empty_stack_fails (view : ViewMode) (viewTargetPos : Vec2)
    (cardId : Int) (s : GameController)
    (hempty : ∃ area, s.gameModel.stackTopCard = CardModel.empty.setArea area) :
    s.gameModel.hasStackTopCard = false ∧
    s.gameModel.stackTopCard.cardId < 0 ∧
    s.handlePlayfieldCardClick view viewTargetPos cardId = (false, s) ∧
    s.attemptMatch view viewTargetPos cardId = (false, s) := by
  obtain ⟨area, htop⟩ := hempty
  have hface : s.gameModel.stackTopCard.face = CardFaceType.NONE := by rw [htop]; rfl
  have hid : s.gameModel.stackTopCard.cardId = -1 := by rw [htop]; rfl
  have hnomatch : ∀ f : CardFaceType, canMatch f s.gameModel.stackTopCard.face = false := by
    intro f
    rw [hface]
    cases f <;> rfl
  have hclick : s.handlePlayfieldCardClick view viewTargetPos cardId = (false, s) := by
    unfold GameController.handlePlayfieldCardClick
    by_cases hanim : s.isAnimating = true
    · simp [hanim]
    · cases hfound : s.gameModel.getPlayfieldCardById cardId with
      | none => simp [hanim]
      | some c =>
        by_cases hc : c.isClickable = true
        · simp [hanim, hc, CardModel.canMatchWith, hnomatch]
        · simp [hanim, hc]
  refine ⟨?_, ?_, hclick, ?_⟩
  · simp [GameModel.hasStackTopCard, hid]
  · rw [hid]; decide
  · simp [GameController.attemptMatch, hclick]

/-- Witness for C24: the Three of Clubs is clicked while nothing is on the
stack. -/
theorem match_against_empty_stack_fails_witness :
    threeVersusEmptyStack.handlePlayfieldCardClick ViewMode.callbackLater Vec2.ZERO 0 =
      (false, threeVersusEmptyStack) :=
  (match_against_empty_stack_fails ViewMode.callbackLater Vec2.ZERO 0 threeVersusEmptyStack
    ⟨CardAreaType.NONE, rfl⟩).2.2.1

/-- C25: the end-to-end scenario.  Starting from the playfield holding the Three
of Clubs (id 0, at (300, 800), clickable), the Four of Clubs on the stack and an
empty undo stack, the completed match of id 0 succeeds and leaves the playfield
empty, the Three of Clubs on the stack and one record in the undo stack; the
following completed undo succeeds, after which the playfield holds the card id
0 at (300, 800), face up and clickable, the stack-top is the Four of Clubs again
and the undo stack is empty.  This holds for every view behaviour. -/
theorem three_on_four_match_then_undo (view₁ view₂ : ViewMode) (viewTargetPos : Vec2) :
    threeVersusFour.gameModel.playfieldCards =
      [playfieldCardAt 0 CardSuitType.CLUBS CardFaceType.THREE 300 800] ∧
    threeVersusFour.gameModel.stackTopCard = stackCardOf 1 CardSuitType.CLUBS CardFaceType.FOUR ∧
    threeVersusFour.undoManager.undoStack = [] ∧
    (threeVersusFour.attemptMatch view₁ viewTargetPos 0).1 = true ∧
    (threeVersusFour.attemptMatch view₁ viewTargetPos 0).2.gameModel.playfieldCards = [] ∧
    (threeVersusFour.attemptMatch view₁ viewTargetPos 0).2.gameModel.stackTopCard =
      { playfieldCardAt 0 CardSuitType.CLUBS CardFaceType.THREE 300 800 with
        area := CardAreaType.STACK } ∧
    (threeVersusFour.attemptMatch view₁ viewTargetPos 0).2.undoManager.undoStack.length = 1 ∧
    (matchThenUndo view₁ view₂ viewTargetPos 0 threeVersusFour).1 = true ∧
    (matchThenUndo view₁ view₂ viewTargetPos 0 threeVersusFour).2.gameModel.playfieldCards =
      [{ cardId := 0, suit := CardSuitType.CLUBS, face := CardFaceType.THREE,
         position := { x := 300, y := 800 }, area := CardAreaType.PLAYFIELD, isFaceUp := true,
         isClickable := true }] ∧
    (matchThenUndo view₁ view₂ viewTargetPos 0 threeVersusFour).2.gameModel.stackTopCard =
      stackCardOf 1 CardSuitType.CLUBS CardFaceType.FOUR ∧
    (matchThenUndo view₁ view₂ viewTargetPos 0 threeVersusFour).2.undoManager.undoStack.length =
      0 := by
  cases view₁ <;> cases view₂ <;> exact ⟨rfl, rfl, rfl, rfl, rfl, rfl, rfl, rfl, rfl, rfl, rfl⟩

/-! ## Validity of the operation log -/

/-- C30, counterexample: the record read by `UndoModel::deserialize` from a
document whose operation type is 3 passes `isValid` although its type is
neither PLAYFIELD_TO_STACK nor RESERVE_TO_STACK; `recordAction` stores it in
the empty log; and `undo` on that non-empty log takes the branch for an unknown
operation type: it returns `false`, having removed the record. -/
theorem unknown_operation_type_logged_counterexample :
    UndoModel.deserialize unknownTypeRecordJson (UndoModel.create CardOperationType.NONE) =
      some (true, unknownTypeRecord) ∧
    unknownTypeRecord.isValid = true ∧
    unknownTypeRecord.operationType ≠ CardOperationType.PLAYFIELD_TO_STACK ∧
    unknownTypeRecord.operationType ≠ CardOperationType.RESERVE_TO_STACK ∧
    (UndoManager.recordAction { undoStack := [] } unknownTypeRecord).undoStack =
      [unknownTypeRecord] ∧
    ((UndoManager.recordAction { undoStack := [] } unknownTypeRecord).undo
      (playfieldOnly [])).1 = false ∧
    ((UndoManager.recordAction { undoStack := [] } unknownTypeRecord).undo
      (playfieldOnly [])).2.1.undoStack = [] := by
  decide

/-- C30, amended: in every log built from the empty log by `recordAction` on
records whose operation type is named by an enumerator, and by
`recordPlayfieldToStack`, `recordReserveToStack` and `undo`, every stored
record satisfies `isValid`: its operation type is PLAYFIELD_TO_STACK or
RESERVE_TO_STACK and its moved-card id is non-negative.  Hence, on any game
model, `undo` returns `true` exactly when the log is non-empty, it then reaches
the callback with the most recently recorded record, and the log it leaves is
the old log without that last record. -/
theorem built_log_records_valid_and_undo_pops (m : UndoManager) (h : LogBuilt m) :
    (∀ r ∈ m.undoStack,
      r.isValid = true ∧
      (r.operationType = CardOperationType.PLAYFIELD_TO_STACK ∨
        r.operationType = CardOperationType.RESERVE_TO_STACK) ∧
      0 ≤ r.movedCard.cardId) ∧
    (∀ g : GameModel,
      ((m.undo g).1 = true ↔ m.undoStack ≠ []) ∧
      (m.undo g).2.1.undoStack = m.undoStack.dropLast ∧
      ((m.undo g).1 = true → (m.undo g).2.2.2 = m.undoStack.getLast?)) := by
  have hvalid := logBuilt_valid m h
  have hmoves := logBuilt_moves m h
  refine ⟨fun r hr =>
    ⟨hvalid r hr, hmoves r hr, ((isValid_iff_concrete r).1 (hvalid r hr)).2⟩, ?_⟩
  intro g
  refine ⟨?_, undo_stack_dropLast m g, ?_⟩
  · by_cases hne : m.undoStack = []
    · simp [UndoManager.undo, UndoManager.canUndo, hne]
    · have hcan : m.canUndo = true := by simp [UndoManager.canUndo, hne]
      have hlast : m.undoStack.getLast? = some (m.undoStack.getLast hne) :=
        List.getLast?_eq_getLast _ hne
      rcases hmoves _ (List.getLast_mem hne) with htype | htype <;>
        simp [UndoManager.undo, hcan, hlast, htype, hne]
  · intro hok
    by_cases hne : m.undoStack = []
    · simp [UndoManager.undo, UndoManager.canUndo, hne] at hok
    · have hcan : m.canUndo = true := by simp [UndoManager.canUndo, hne]
      have hlast : m.undoStack.getLast? = some (m.undoStack.getLast hne) :=
        List.getLast?_eq_getLast _ hne
      rcases hmoves _ (List.getLast_mem hne) with htype | htype <;>
        simp [UndoManager.undo, hcan, hlast, htype]

/-- Witness for C30: the log holding the record of the Three of Clubs played on
the Four of Clubs is built from the empty log, and undo on it leaves the empty
log. -/
theorem built_log_records_valid_and_undo_pops_witness :
    LogBuilt (UndoManager.recordPlayfieldToStack { undoStack := [] }
        (playfieldCardAt 0 CardSuitType.CLUBS CardFaceType.THREE 300 800)
        (stackCardOf 1 CardSuitType.CLUBS CardFaceType.FOUR)
        { x := 300, y := 800 } Vec2.ZERO) ∧
    ((UndoManager.recordPlayfieldToStack { undoStack := [] }
        (playfieldCardAt 0 CardSuitType.CLUBS CardFaceType.THREE 300 800)
        (stackCardOf 1 CardSuitType.CLUBS CardFaceType.FOUR)
        { x := 300, y := 800 } Vec2.ZERO).undo (playfieldOnly [])).2.1.undoStack =
      (UndoManager.recordPlayfieldToStack { undoStack := [] }
        (playfieldCardAt 0 CardSuitType.CLUBS CardFaceType.THREE 300 800)
        (stackCardOf 1 CardSuitType.CLUBS CardFaceType.FOUR)
        { x := 300, y := 800 } Vec2.ZERO).undoStack.dropLast :=
  ⟨LogBuilt.recordPlayfieldToStack _ _ _ _ _ LogBuilt.empty,
   ((built_log_records_valid_and_undo_pops _
      (LogBuilt.recordPlayfieldToStack _ _ _ _ _ LogBuilt.empty)).2 (playfieldOnly [])).2.1⟩

/-! ## The next-id counter -/

/-- C23: for every game state `g`, reading `serialize g` into any game model
returns `true` and yields exactly `g`: the same playfield cards in the same
order, the same stack-top (the empty sentinel included), the same reserve in
the same order and the same next-id counter, every card field preserved.  The
same holds card by card. -/
theorem deserialize_serialize_roundtrip (g g₀ : GameModel) :
    GameModel.deserialize g.serialize g₀ = some (true, g) ∧
    (∀ c c₀ : CardModel, CardModel.deserialize c.serialize c₀ = some (true, c)) := by
  refine ⟨?_, CardModel.deserialize_serialize⟩
  simp [GameModel.deserialize, GameModel.serialize, Json.isObject, Json.member?, List.lookup,
    Json.arr?, Json.int?, GameModel.clear, deserializeCards_serialize,
    CardModel.deserialize_serialize]

/-! ## Clickability after operations without a view -/

/-- C21, the code at the failing input: after `startGame` on `coveredLevel` the
covered card 0 is not clickable and card 1 is.  With no play-field view attached
the match of card 1 succeeds and completes inside the call, and the playfield
then holds card 0 alone, still flagged not clickable, although the occlusion
resolver marks it clickable (re-running `updatePlayfieldClickable` changes the
model); the click on card 0, whose rank matches the new stack-top, is therefore
rejected.  With a view attached the same match leaves card 0 clickable. -/
theorem match_without_view_leaves_stale_clickable :
    (generate coveredLevel (playfieldOnly [])).1 = true ∧
    coveredGameStart.gameModel.playfieldCards.map (fun c => c.isClickable) = [false, true] ∧
    (coveredGameStart.attemptMatch ViewMode.detached Vec2.ZERO 1).1 = true ∧
    (coveredGameStart.attemptMatch ViewMode.detached Vec2.ZERO 1).2.isAnimating = false ∧
    (coveredGameStart.attemptMatch ViewMode.detached
      Vec2.ZERO 1).2.gameModel.playfieldCards.map (fun c => (c.cardId, c.isClickable)) =
        [(0, false)] ∧
    (updatePlayfieldClickable (coveredGameStart.attemptMatch ViewMode.detached
      Vec2.ZERO 1).2.gameModel).playfieldCards.map (fun c => (c.cardId, c.isClickable)) =
        [(0, true)] ∧
    updatePlayfieldClickable
        (coveredGameStart.attemptMatch ViewMode.detached Vec2.ZERO 1).2.gameModel ≠
      (coveredGameStart.attemptMatch ViewMode.detached Vec2.ZERO 1).2.gameModel ∧
    canMatch CardFaceType.FOUR
      (coveredGameStart.attemptMatch ViewMode.detached
        Vec2.ZERO 1).2.gameModel.stackTopCard.face = true ∧
    ((coveredGameStart.attemptMatch ViewMode.detached Vec2.ZERO 1).2.attemptMatch
      ViewMode.detached Vec2.ZERO 0).1 = false ∧
    (coveredGameStart.attemptMatch ViewMode.callbackLater
      Vec2.ZERO 1).2.gameModel.playfieldCards.map (fun c => (c.cardId, c.isClickable)) =
        [(0, true)] := by
  decide

/-- C26, the code at the failing input: on `coveredLevel`, with a play-field view
attached and no stack view, the match of card 1 recomputes the flags (card 0
becomes clickable) and the undo that follows succeeds, empties the log and
restores stack-top and reserve, but does not recompute: the playfield holds
cards 0 and 1 again with card 0 still flagged clickable, whereas in the start
state it was not. -/
theorem undo_without_stack_view_keeps_recomputed_flag :
    coveredGameStart.undoManager.undoStack = [] ∧
    coveredGameStart.gameModel.playfieldCards.map (fun c => (c.cardId, c.isClickable)) =
      [(0, false), (1, true)] ∧
    (coveredGameStart.attemptMatch ViewMode.callbackLater Vec2.ZERO 1).1 = true ∧
    (matchThenUndo ViewMode.callbackLater ViewMode.detached Vec2.ZERO 1
      coveredGameStart).1 = true ∧
    (matchThenUndo ViewMode.callbackLater ViewMode.detached Vec2.ZERO 1
      coveredGameStart).2.undoManager.undoStack = [] ∧
    (matchThenUndo ViewMode.callbackLater ViewMode.detached Vec2.ZERO 1
      coveredGameStart).2.gameModel.stackTopCard = coveredGameStart.gameModel.stackTopCard ∧
    (matchThenUndo ViewMode.callbackLater ViewMode.detached Vec2.ZERO 1
      coveredGameStart).2.gameModel.reserveCards = coveredGameStart.gameModel.reserveCards ∧
    (matchThenUndo ViewMode.callbackLater ViewMode.detached Vec2.ZERO 1
      coveredGameStart).2.gameModel.playfieldCards.map (fun c => (c.cardId, c.isClickable)) =
        [(0, true), (1, true)] := by
  decide

/-! ## Runs in which every operation sees the same view attachment -/

/-- With the views attached throughout, every state reached from a successful
`generate` by completed `attemptMatch`, `drawReserve` and `undo` operations has
each playfield flag equal to the resolver's result: re-running
`updatePlayfieldClickable` changes nothing, and a playfield card is clickable
exactly when no other playfield card with a strictly smaller y is reported as
overlapping it. -/
theorem attached_runs_clickable_consistent (s : GameController) (h : ReachableBy true s) :
    updatePlayfieldClickable s.gameModel = s.gameModel ∧
    ∀ c ∈ s.gameModel.playfieldCards,
      (c.isClickable = true ↔ ¬ ∃ o ∈ s.gameModel.playfieldCards, Blocks o c) := by
  have hcons := (reachableBy_settled true s h).consistent rfl
  refine ⟨?_, ?_⟩
  · calc updatePlayfieldClickable s.gameModel
        = { s.gameModel with
            playfieldCards := (updatePlayfieldClickable s.gameModel).playfieldCards } := rfl
      _ = s.gameModel := by rw [hcons]
  · have hiff := updated_clickable_iff s.gameModel
    rw [hcons] at hiff
    exact hiff

/-- The state after the match of card 1 on `coveredLevel`, with the view
attached, is unchanged by the resolver. -/
theorem attached_runs_clickable_consistent_witness :
    updatePlayfieldClickable
        (coveredGameStart.attemptMatch ViewMode.callbackLater Vec2.ZERO 1).2.gameModel =
      (coveredGameStart.attemptMatch ViewMode.callbackLater Vec2.ZERO 1).2.gameModel :=
  (attached_runs_clickable_consistent _
    (ReachableBy.attemptMatch ViewMode.callbackLater Vec2.ZERO 1 _ rfl
      (ReachableBy.start coveredLevel (playfieldOnly []) (by decide)))).1

/-- Multi-step undo when all operations of the run see the same view attachment
(all attached, or all detached): from a state reached from a successful
`generate` and holding an empty log, after any sequence of successful
`attemptMatch` and `drawReserve` operations, as many undos succeed every time,
empty the log, and lead to a state with the same reserve, the same stack-top
card and the same playfield cards, flags included, up to their order. -/
theorem uniform_runs_undo_all_restores (attached : Bool) (s₀ : GameController)
    (ops : List Op) (views : List ViewMode)
    (h₀ : ReachableBy attached s₀) (hlog : s₀.undoManager.undoStack = [])
    (hops : ∀ op ∈ ops, op.view.isAttached = attached)
    (hviews : ∀ v ∈ views, v.isAttached = attached)
    (hlen : views.length = ops.length) (hok : (runOps ops s₀).1 = true) :
    (undoAll views (runOps ops s₀).2).1 = true ∧
    (undoAll views (runOps ops s₀).2).2.undoManager.undoStack = [] ∧
    (undoAll views (runOps ops s₀).2).2.gameModel.reserveCards = s₀.gameModel.reserveCards ∧
    (undoAll views (runOps ops s₀).2).2.gameModel.stackTopCard = s₀.gameModel.stackTopCard ∧
    List.Perm (undoAll views (runOps ops s₀).2).2.gameModel.playfieldCards
      s₀.gameModel.playfieldCards := by
  obtain ⟨h1, hu, _, htop, hres, _, hpf⟩ :=
    undoAll_runOps attached ops s₀ views h₀ hops hviews hlen hok
  exact ⟨h1, by rw [hu, hlog], hres, htop, hpf⟩

/-- On `coveredLevel` with the views attached throughout, the match of card 1
followed by one undo leads back to the start state. -/
theorem uniform_runs_undo_all_restores_witness :
    (undoAll [ViewMode.callbackLater]
      (runOps [Op.attemptMatch ViewMode.callbackLater Vec2.ZERO 1] coveredGameStart).2).1 = true ∧
    List.Perm
      (undoAll [ViewMode.callbackLater]
        (runOps [Op.attemptMatch ViewMode.callbackLater Vec2.ZERO 1]
          coveredGameStart).2).2.gameModel.playfieldCards
      coveredGameStart.gameModel.playfieldCards :=
  have h := uniform_runs_undo_all_restores true coveredGameStart
    [Op.attemptMatch ViewMode.callbackLater Vec2.ZERO 1] [ViewMode.callbackLater]
    (ReachableBy.start coveredLevel (playfieldOnly []) (by decide)) rfl
    (by decide) (by decide) rfl (by decide)
  ⟨h.1, h.2.2.2.2⟩

end PlayingCards
